import Mathlib

/-!
# InfoPipe request handling (`server/infopipe/infopipe.c`)

A shallow embedding of the enum resolvers, the placeholder permission
evaluator, the `CheckPermissions` handler and the `Introspect` handler of the
SSSD InfoPipe, followed by theorems about them.

Modelling conventions.

* A C string is the Lean `String` of its characters before the terminating
  NUL.  `tolower` is the one of the "C" locale (only `A`..`Z` are changed).
  `strcmp` and `strcasecmp` return -1, 0 or 1: POSIX fixes only the sign of
  their result, which is that of the difference of the first pair of
  (lowercased) characters that differ, the end of a string counting as
  smaller than any character.
* A D-Bus message iterator is the list of the values that remain to be
  read; an exhausted iterator is the empty list and reports
  `DBUS_TYPE_INVALID`.
* `talloc` and D-Bus allocations inside `infp_check_permissions` are taken to
  succeed.  The pointer `permissions` is never initialised (infopipe.c:362):
  the handler takes the word the stack holds at its place as an argument, 0
  being `NULL`, and a call that hands a word other than `NULL` to
  `talloc_realloc` or `talloc_steal` has undefined behaviour and no result.
* In `infp_introspect` every allocation and the `fopen` can fail, as its
  environment says.  The content of the file is the string of its bytes, and
  the document kept and returned is the C string in the buffer, the bytes
  before the first NUL.  `errno` is read as `fopen` left it.  The read loop
  runs on fuel, one unit per iteration, and a call that runs out of fuel has
  no result.
-/

namespace InfoPipe

/-! ## C library -/

/-- C `tolower` in the "C" locale. -/
def tolower (c : Char) : Char := c.toLower

/-- C `strcmp` on the character lists of two strings. -/
def strcmp_chars : List Char → List Char → Int
  | [], [] => 0
  | [], _ :: _ => -1
  | _ :: _, [] => 1
  | a :: s1, b :: s2 =>
    if a = b then strcmp_chars s1 s2
    else if a.toNat < b.toNat then -1 else 1

/-- C `strcmp`. -/
def strcmp (s1 s2 : String) : Int := strcmp_chars s1.data s2.data

/-- C `strcasecmp` on the character lists of two strings. -/
def strcasecmp_chars : List Char → List Char → Int
  | [], [] => 0
  | [], _ :: _ => -1
  | _ :: _, [] => 1
  | a :: s1, b :: s2 =>
    if tolower a = tolower b then strcasecmp_chars s1 s2
    else if (tolower a).toNat < (tolower b).toNat then -1 else 1

/-- C `strcasecmp`. -/
def strcasecmp (s1 s2 : String) : Int := strcasecmp_chars s1.data s2.data

/-! ## Enumerations of `infopipe.h` -/

/-- Modelled from the spec: the `INFP_OBJ_TYPE_*` constants of `infopipe.h`
(not among the sources), `ObjectKind{User, Group}` with an `Invalid` sentinel
distinct from all valid values. -/
inductive ObjectType where
  | INVALID
  | USER
  | GROUP
  deriving DecidableEq, Repr

/-- Modelled from the spec: the `INFP_ACTION_TYPE_*` constants of `infopipe.h`
(not among the sources), `ActionKind{Create, Delete, Modify, AddMember,
RemoveMember}` with an `Invalid` sentinel distinct from all valid values. -/
inductive ActionType where
  | INVALID
  | CREATE
  | DELETE
  | MODIFY
  | ADDMEMBER
  | REMOVEMEMBER
  deriving DecidableEq, Repr

/-- Modelled from the spec: the `INFP_ATTR_TYPE_*` constants of `infopipe.h`
(not among the sources), `AttributeKind{DefaultGroup, Gecos, HomeDir, Shell,
FullName, Locale, Keyboard, Session, LastLogin, UserPic}` with an `Invalid`
sentinel distinct from all valid values. -/
inductive AttributeType where
  | INVALID
  | DEFAULTGROUP
  | GECOS
  | HOMEDIR
  | SHELL
  | FULLNAME
  | LOCALE
  | KEYBOARD
  | SESSION
  | LAST_LOGIN
  | USERPIC
  deriving DecidableEq, Repr

/-! ## Enum resolvers -/

/-- `get_object_type` (infopipe.c:255). -/
def get_object_type (obj : String) : ObjectType :=
  if strcasecmp obj "user" = 0 then ObjectType.USER
  else if strcasecmp obj "group" = 0 then ObjectType.GROUP
  else ObjectType.INVALID

/-- `get_action_type` (infopipe.c:267). -/
def get_action_type (action : String) : ActionType :=
  if strcasecmp action "create" = 0 then ActionType.CREATE
  else if strcasecmp action "delete" = 0 then ActionType.DELETE
  else if strcasecmp action "modify" = 0 then ActionType.MODIFY
  else if strcasecmp action "addmember" = 0 then ActionType.ADDMEMBER
  else if strcasecmp action "removemember" = 0 then ActionType.REMOVEMEMBER
  else ActionType.INVALID

/-- `get_attribute_type` (infopipe.c:285). -/
def get_attribute_type (attr : String) : AttributeType :=
  if strcasecmp attr "defaultgroup" = 0 then AttributeType.DEFAULTGROUP
  else if strcasecmp attr "gecos" = 0 then AttributeType.GECOS
  else if strcasecmp attr "homedir" = 0 then AttributeType.HOMEDIR
  else if strcasecmp attr "shell" = 0 then AttributeType.SHELL
  else if strcasecmp attr "fullname" = 0 then AttributeType.FULLNAME
  else if strcasecmp attr "locale" = 0 then AttributeType.LOCALE
  else if strcasecmp attr "keyboard" = 0 then AttributeType.KEYBOARD
  else if strcasecmp attr "session" = 0 then AttributeType.SESSION
  else if strcasecmp attr "last_login" = 0 then AttributeType.LAST_LOGIN
  else if strcasecmp attr "userpic" = 0 then AttributeType.USERPIC
  else AttributeType.INVALID

/-! ## Permission evaluator -/

/-- `infp_get_permissions` (infopipe.c:322).  A `NULL` instance is `none`. -/
def infp_get_permissions (username : String) (_domain : String)
    (_object_type : ObjectType) (_instance : Option String)
    (_action_type : ActionType) (_action_attribute : AttributeType) : Bool :=
  if strcmp username "root" = 0 then true else false

/-! ## D-Bus values and iterators -/

/-- Type codes reported by `dbus_message_iter_get_arg_type`: the three the
handler tests for, `DBUS_TYPE_INVALID` for an exhausted iterator, and one
code standing for every other D-Bus type. -/
inductive DBusType where
  | DBUS_TYPE_INVALID
  | DBUS_TYPE_STRING
  | DBUS_TYPE_ARRAY
  | DBUS_TYPE_STRUCT
  | DBUS_TYPE_OTHER
  deriving DecidableEq, Repr

/-- A demarshalled D-Bus value.  `other` is a value of any type the handler
does not look into (integers, booleans, object paths, variants, ...), tagged
with its signature character. -/
inductive DBusArg where
  | string (s : String)
  | array (elems : List DBusArg)
  | struct (fields : List DBusArg)
  | other (sig : Char)

/-- A `DBusMessageIter`: the values from the current position onwards. -/
abbrev DBusMessageIter := List DBusArg

/-- The type code of one value. -/
def DBusArg.arg_type : DBusArg → DBusType
  | DBusArg.string _ => DBusType.DBUS_TYPE_STRING
  | DBusArg.array _ => DBusType.DBUS_TYPE_ARRAY
  | DBusArg.struct _ => DBusType.DBUS_TYPE_STRUCT
  | DBusArg.other _ => DBusType.DBUS_TYPE_OTHER

/-- `dbus_message_iter_init`: the iterator over the arguments of a message,
or `none` (FALSE) when the message has no arguments. -/
def dbus_message_iter_init (message : List DBusArg) : Option DBusMessageIter :=
  match message with
  | [] => none
  | _ :: _ => some message

/-- `dbus_message_iter_get_arg_type`. -/
def dbus_message_iter_get_arg_type (iter : DBusMessageIter) : DBusType :=
  match iter with
  | [] => DBusType.DBUS_TYPE_INVALID
  | a :: _ => a.arg_type

/-- `dbus_message_iter_next`. -/
def dbus_message_iter_next (iter : DBusMessageIter) : DBusMessageIter :=
  iter.tail

/-- `dbus_message_iter_has_next`. -/
def dbus_message_iter_has_next (iter : DBusMessageIter) : Bool :=
  match iter with
  | _ :: _ :: _ => true
  | _ => false

/-- `dbus_message_iter_get_basic` at a position holding a string. -/
def dbus_message_iter_get_basic (iter : DBusMessageIter) : String :=
  match iter with
  | DBusArg.string s :: _ => s
  | _ => ""

/-- `dbus_message_iter_recurse` at a position holding an array or a struct. -/
def dbus_message_iter_recurse (iter : DBusMessageIter) : DBusMessageIter :=
  match iter with
  | DBusArg.array elems :: _ => elems
  | DBusArg.struct fields :: _ => fields
  | _ => []

/-! ## Replies and the caller -/

/-- `EOK`. -/
def EOK : Nat := 0

/-- `EIO`. -/
def EIO : Nat := 5

/-- `DBUS_ERROR_INVALID_ARGS`. -/
def DBUS_ERROR_INVALID_ARGS : String := "org.freedesktop.DBus.Error.InvalidArgs"

/-- What `reply->reply_message` holds: a method return carrying the array of
booleans, or an error message with its error name and text. -/
inductive ReplyMessage where
  | method_return (permissions : List Bool)
  | error (name : String) (text : String)
  deriving DecidableEq, Repr

/-- The result of a handler: its return code and `reply->reply_message`
(`none` while it was never assigned). -/
structure HandlerResult where
  ret : Nat
  reply_message : Option ReplyMessage
  deriving DecidableEq, Repr

/-- The collaborators that identify the caller of a message. -/
structure CallerCtx where
  /-- The result of `dbus_message_get_sender`, `none` for `NULL`. -/
  conn_name : Option String
  /-- The result of `dbus_bus_get_unix_user`, `none` for `(uid_t) -1`. -/
  unix_user : String → Option Nat
  /-- The result of `get_username_from_uid`, `none` for `NULL`. -/
  username_from_uid : Nat → Option String

/-- Lines 370-388 of `infp_check_permissions`: the username of the caller, or
the code the handler returns when it cannot be found. -/
def get_caller_username (ctx : CallerCtx) : Except Nat String :=
  match ctx.conn_name with
  | none => Except.error EIO
  | some conn_name =>
    match ctx.unix_user conn_name with
    | none => Except.error EIO
    | some uid =>
      match ctx.username_from_uid uid with
      | none => Except.error EIO
      | some username => Except.ok username

/-! ## `CheckPermissions` with `permissions` as a list

The definitions of this section are not the handler: they are the handler as
it runs once `permissions` is `NULL` or an array of talloc, the array being
replaced by the list of its elements and `NULL` by the empty list.  The
handler itself, with the pointer as the source declares it, is
`infp_check_permissions` in the last section of the definitions; the theorems
relate the two. -/

/-- The `while` loop of `infp_check_permissions` (infopipe.c:442-488) on the
list of the elements of `permissions`, from the position `action_array_iter`:
`Except.error einval_msg` for a `goto einval`, `Except.ok permissions` when
the array is exhausted. -/
def check_actions_list (username domain : String) (object_type : ObjectType)
    (inst : Option String) :
    DBusMessageIter → List Bool → Except String (List Bool)
  | [], permissions => Except.ok permissions
  | entry :: rest, permissions =>
    if DBusArg.arg_type entry ≠ DBusType.DBUS_TYPE_STRUCT then
      Except.error "Action array entry was not a struct"
    else
      let action_struct_iter := dbus_message_iter_recurse (entry :: rest)
      if dbus_message_iter_get_arg_type action_struct_iter ≠ DBusType.DBUS_TYPE_STRING then
        Except.error "Missing action_type"
      else
        let action := dbus_message_iter_get_basic action_struct_iter
        let action_type := get_action_type action
        if action_type = ActionType.INVALID then
          Except.error ("Action type [" ++ action ++ "] is not valid")
        else
          let action_struct_iter := dbus_message_iter_next action_struct_iter
          if dbus_message_iter_get_arg_type action_struct_iter ≠ DBusType.DBUS_TYPE_STRING then
            Except.error "Missing attribute"
          else
            let attr := dbus_message_iter_get_basic action_struct_iter
            let attribute_type := get_attribute_type attr
            if attribute_type = AttributeType.INVALID then
              Except.error ("Attribute [" ++ attr ++ "] is not valid")
            else if dbus_message_iter_has_next action_struct_iter then
              Except.error "Unexpected value in action struct"
            else
              check_actions_list username domain object_type inst rest
                (permissions ++ [infp_get_permissions username domain object_type inst
                  action_type attribute_type])

/-- Lines 390-488 of `infp_check_permissions` on the list of the elements of
`permissions`, the list being empty at the start of the loop:
`Except.error einval_msg` is a `goto einval`, `Except.ok permissions` reaching
line 490. -/
def check_permissions_args_list (username : String) (message : List DBusArg) :
    Except String (List Bool) :=
  match dbus_message_iter_init message with
  | none => Except.error "No arguments received."
  | some iter =>
    if dbus_message_iter_get_arg_type iter ≠ DBusType.DBUS_TYPE_STRING then
      Except.error "Expected domain"
    else
      let domain := dbus_message_iter_get_basic iter
      let iter := dbus_message_iter_next iter
      if dbus_message_iter_get_arg_type iter ≠ DBusType.DBUS_TYPE_STRING then
        Except.error "Expected object"
      else
        let object := dbus_message_iter_get_basic iter
        let object_type := get_object_type object
        if object_type = ObjectType.INVALID then
          Except.error "Invalid object type"
        else
          let iter := dbus_message_iter_next iter
          if dbus_message_iter_get_arg_type iter ≠ DBusType.DBUS_TYPE_STRING then
            Except.error "Expected instance"
          else
            let inst := dbus_message_iter_get_basic iter
            let inst := if strcmp inst "" = 0 then none else some inst
            let iter := dbus_message_iter_next iter
            if dbus_message_iter_get_arg_type iter ≠ DBusType.DBUS_TYPE_ARRAY then
              Except.error "Expected array of actions"
            else
              let action_array_iter := dbus_message_iter_recurse iter
              check_actions_list username domain object_type inst action_array_iter []

/-- `infp_check_permissions` (infopipe.c:342) on the list of the elements of
`permissions`, the list being empty at the start of the loop. -/
def infp_check_permissions_list (ctx : CallerCtx) (message : List DBusArg) : HandlerResult :=
  match get_caller_username ctx with
  | Except.error code => { ret := code, reply_message := none }
  | Except.ok username =>
    match check_permissions_args_list username message with
    | Except.ok permissions =>
      { ret := EOK, reply_message := some (ReplyMessage.method_return permissions) }
    | Except.error einval_msg =>
      { ret := EOK,
        reply_message := some (ReplyMessage.error DBUS_ERROR_INVALID_ARGS einval_msg) }

/-! ## Vocabulary of the specification -/

/-- Two characters are the same up to the case of an ASCII letter: they are
equal, or one is an upper-case letter `A`..`Z` (codes 65..90) and the other is
its lower-case form, 32 code points higher. -/
def same_letter (a b : Char) : Prop :=
  a = b ∨ (65 ≤ a.toNat ∧ a.toNat ≤ 90 ∧ b.toNat = a.toNat + 32)
    ∨ (65 ≤ b.toNat ∧ b.toNat ≤ 90 ∧ a.toNat = b.toNat + 32)

/-- Two strings are equal ignoring ASCII letter case: they have the same
length and agree position by position up to the case of ASCII letters. -/
def eq_ignoring_case (s t : String) : Prop :=
  List.Forall₂ same_letter s.data t.data

/-- The token of the specification for each valid action. -/
def action_token : ActionType → String
  | ActionType.INVALID => ""
  | ActionType.CREATE => "create"
  | ActionType.DELETE => "delete"
  | ActionType.MODIFY => "modify"
  | ActionType.ADDMEMBER => "addmember"
  | ActionType.REMOVEMEMBER => "removemember"

/-- A chain of `if (strcasecmp(s, token) == 0) ... else if ...` read as a
table of tokens and codes tried in order, with the code left when no token
matches. -/
def resolve_token {α : Type} (table : List (String × α)) (dflt : α) (s : String) : α :=
  match table with
  | [] => dflt
  | p :: rest => if strcasecmp s p.1 = 0 then p.2 else resolve_token rest dflt s

/-- The tokens of `get_object_type` in the order it tries them. -/
def object_table : List (String × ObjectType) :=
  [("user", ObjectType.USER), ("group", ObjectType.GROUP)]

/-- The tokens of `get_action_type` in the order it tries them. -/
def action_table : List (String × ActionType) :=
  [("create", ActionType.CREATE), ("delete", ActionType.DELETE),
    ("modify", ActionType.MODIFY), ("addmember", ActionType.ADDMEMBER),
    ("removemember", ActionType.REMOVEMEMBER)]

/-- The tokens of `get_attribute_type` in the order it tries them. -/
def attribute_table : List (String × AttributeType) :=
  [("defaultgroup", AttributeType.DEFAULTGROUP), ("gecos", AttributeType.GECOS),
    ("homedir", AttributeType.HOMEDIR), ("shell", AttributeType.SHELL),
    ("fullname", AttributeType.FULLNAME), ("locale", AttributeType.LOCALE),
    ("keyboard", AttributeType.KEYBOARD), ("session", AttributeType.SESSION),
    ("last_login", AttributeType.LAST_LOGIN), ("userpic", AttributeType.USERPIC)]

/-- No two tokens of a table are equal ignoring case, no two entries share a
code, and no entry carries the code left for unmatched strings. -/
def table_ok {α : Type} (table : List (String × α)) (dflt : α) : Prop :=
  table.Pairwise (fun p q => p.1.data.map tolower ≠ q.1.data.map tolower ∧ p.2 ≠ q.2) ∧
    ∀ p ∈ table, p.2 ≠ dflt

/-- The wire form of an action list: one struct of two strings per entry. -/
def encode_actions (actions : List (String × String)) : List DBusArg :=
  actions.map fun p => DBusArg.struct [DBusArg.string p.1, DBusArg.string p.2]

/-- The wire form of a `CheckPermissions` request. -/
def encode_request (domain object inst : String) (actions : List (String × String)) :
    List DBusArg :=
  [DBusArg.string domain, DBusArg.string object, DBusArg.string inst,
    DBusArg.array (encode_actions actions)]

/-- A request is well formed when its object token resolves to User or Group
and every action entry holds a valid action token and a valid attribute
token. -/
def well_formed (object : String) (actions : List (String × String)) : Prop :=
  get_object_type object ≠ ObjectType.INVALID ∧
    ∀ p ∈ actions, get_action_type p.1 ≠ ActionType.INVALID ∧
      get_attribute_type p.2 ≠ AttributeType.INVALID

/-- The instance handed to the evaluator for a wire instance string. -/
def evaluator_instance (inst : String) : Option String :=
  if inst = "" then none else some inst

/-- The text of an error reply, `none` when the handler left another reply
or none at all. -/
def reported_message (r : HandlerResult) : Option String :=
  match r.reply_message with
  | some (ReplyMessage.error _ text) => some text
  | _ => none

/-- The `einval_msg` of a decoding result, `none` when it reached the reply. -/
def einval_msg_of (r : Except String (List Bool)) : Option String :=
  match r with
  | Except.error einval_msg => some einval_msg
  | Except.ok _ => none

/-- The permissions the evaluator grants, entry by entry, to a caller for a
decoded request. -/
def evaluate_actions (username domain object inst : String)
    (actions : List (String × String)) : List Bool :=
  actions.map fun p =>
    infp_get_permissions username domain (get_object_type object) (evaluator_instance inst)
      (get_action_type p.1) (get_attribute_type p.2)

/-- A caller whose connection name, uid and username are all found. -/
def resolved_caller (username : String) : CallerCtx :=
  { conn_name := some ":1.42",
    unix_user := fun _ => some 1000,
    username_from_uid := fun _ => some username }

/-- Is the value at a position present and a string? -/
def is_string : Option DBusArg → Bool
  | some (DBusArg.string _) => true
  | _ => false

/-- Is the value at a position present and an array? -/
def is_array : Option DBusArg → Bool
  | some (DBusArg.array _) => true
  | _ => false

/-- Is the value a struct? -/
def is_struct : DBusArg → Bool
  | DBusArg.struct _ => true
  | _ => false

/-- The string at a position, empty when there is none. -/
def string_at : Option DBusArg → String
  | some (DBusArg.string s) => s
  | _ => ""

/-- The entries of the array at a position, none when it is no array. -/
def entries_at : Option DBusArg → List DBusArg
  | some (DBusArg.array elems) => elems
  | _ => []

/-- The fields of a struct, none for another value. -/
def fields_of : DBusArg → List DBusArg
  | DBusArg.struct fields => fields
  | _ => []

/-- The checks on the four positional arguments, in order, each with whether
it fails on the message and the text it reports. -/
def positional_checks (message : List DBusArg) : List (Bool × String) :=
  [ (message.isEmpty, "No arguments received."),
    (!is_string message[0]?, "Expected domain"),
    (!is_string message[1]?, "Expected object"),
    (decide (get_object_type (string_at message[1]?) = ObjectType.INVALID),
      "Invalid object type"),
    (!is_string message[2]?, "Expected instance"),
    (!is_array message[3]?, "Expected array of actions") ]

/-- The checks on the fields of one array entry, in order. -/
def field_checks (entry : DBusArg) : List (Bool × String) :=
  let fields := fields_of entry
  [ (!is_string fields[0]?, "Missing action_type"),
    (decide (get_action_type (string_at fields[0]?) = ActionType.INVALID),
      "Action type [" ++ string_at fields[0]? ++ "] is not valid"),
    (!is_string fields[1]?, "Missing attribute"),
    (decide (get_attribute_type (string_at fields[1]?) = AttributeType.INVALID),
      "Attribute [" ++ string_at fields[1]? ++ "] is not valid"),
    (decide (2 < fields.length), "Unexpected value in action struct") ]

/-- The checks on one array entry, in order: that it is a struct, then the
checks on its fields. -/
def entry_checks (entry : DBusArg) : List (Bool × String) :=
  (!is_struct entry, "Action array entry was not a struct") :: field_checks entry

/-- The text of the earliest failing check of a list of checks. -/
def first_failure (checks : List (Bool × String)) : Option String :=
  (checks.find? fun c => c.1).map fun c => c.2

/-- The fixed order of checks as the specification lists it: the positional
checks, then the field checks of each array entry in order. -/
def listed_checks (message : List DBusArg) : List (Bool × String) :=
  positional_checks message ++ (entries_at message[3]?).flatMap field_checks

/-- The fixed order of checks with the struct check of each entry included. -/
def decode_checks (message : List DBusArg) : List (Bool × String) :=
  positional_checks message ++ (entries_at message[3]?).flatMap entry_checks

/-! ## `CheckPermissions` with `permissions` as a list and the evaluator as a parameter -/

/-- The type of `infp_get_permissions`. -/
abbrev Evaluator : Type :=
  String → String → ObjectType → Option String → ActionType → AttributeType → Bool

/-- The `while` loop of `infp_check_permissions` (infopipe.c:442-488) on the
list of the elements of `permissions`, with the function called at line 483
taken as a parameter. -/
def check_actions_list_with (evaluator : Evaluator) (username domain : String)
    (object_type : ObjectType) (inst : Option String) :
    DBusMessageIter → List Bool → Except String (List Bool)
  | [], permissions => Except.ok permissions
  | entry :: rest, permissions =>
    if DBusArg.arg_type entry ≠ DBusType.DBUS_TYPE_STRUCT then
      Except.error "Action array entry was not a struct"
    else
      let action_struct_iter := dbus_message_iter_recurse (entry :: rest)
      if dbus_message_iter_get_arg_type action_struct_iter ≠ DBusType.DBUS_TYPE_STRING then
        Except.error "Missing action_type"
      else
        let action := dbus_message_iter_get_basic action_struct_iter
        let action_type := get_action_type action
        if action_type = ActionType.INVALID then
          Except.error ("Action type [" ++ action ++ "] is not valid")
        else
          let action_struct_iter := dbus_message_iter_next action_struct_iter
          if dbus_message_iter_get_arg_type action_struct_iter ≠ DBusType.DBUS_TYPE_STRING then
            Except.error "Missing attribute"
          else
            let attr := dbus_message_iter_get_basic action_struct_iter
            let attribute_type := get_attribute_type attr
            if attribute_type = AttributeType.INVALID then
              Except.error ("Attribute [" ++ attr ++ "] is not valid")
            else if dbus_message_iter_has_next action_struct_iter then
              Except.error "Unexpected value in action struct"
            else
              check_actions_list_with evaluator username domain object_type inst rest
                (permissions ++ [evaluator username domain object_type inst
                  action_type attribute_type])

/-- Lines 390-488 of `infp_check_permissions` on the list of the elements of
`permissions`, with the function called at line 483 taken as a parameter. -/
def check_permissions_args_list_with (evaluator : Evaluator) (username : String)
    (message : List DBusArg) : Except String (List Bool) :=
  match dbus_message_iter_init message with
  | none => Except.error "No arguments received."
  | some iter =>
    if dbus_message_iter_get_arg_type iter ≠ DBusType.DBUS_TYPE_STRING then
      Except.error "Expected domain"
    else
      let domain := dbus_message_iter_get_basic iter
      let iter := dbus_message_iter_next iter
      if dbus_message_iter_get_arg_type iter ≠ DBusType.DBUS_TYPE_STRING then
        Except.error "Expected object"
      else
        let object := dbus_message_iter_get_basic iter
        let object_type := get_object_type object
        if object_type = ObjectType.INVALID then
          Except.error "Invalid object type"
        else
          let iter := dbus_message_iter_next iter
          if dbus_message_iter_get_arg_type iter ≠ DBusType.DBUS_TYPE_STRING then
            Except.error "Expected instance"
          else
            let inst := dbus_message_iter_get_basic iter
            let inst := if strcmp inst "" = 0 then none else some inst
            let iter := dbus_message_iter_next iter
            if dbus_message_iter_get_arg_type iter ≠ DBusType.DBUS_TYPE_ARRAY then
              Except.error "Expected array of actions"
            else
              let action_array_iter := dbus_message_iter_recurse iter
              check_actions_list_with evaluator username domain object_type inst
                action_array_iter []

/-- `infp_check_permissions` (infopipe.c:342) on the list of the elements of
`permissions`, with the function called at line 483 taken as a parameter. -/
def infp_check_permissions_list_with (evaluator : Evaluator) (ctx : CallerCtx)
    (message : List DBusArg) : HandlerResult :=
  match get_caller_username ctx with
  | Except.error code => { ret := code, reply_message := none }
  | Except.ok username =>
    match check_permissions_args_list_with evaluator username message with
    | Except.ok permissions =>
      { ret := EOK, reply_message := some (ReplyMessage.method_return permissions) }
    | Except.error einval_msg =>
      { ret := EOK,
        reply_message := some (ReplyMessage.error DBUS_ERROR_INVALID_ARGS einval_msg) }

/-- An evaluator that answers whether it was called without an instance. -/
def no_instance_evaluator : Evaluator :=
  fun _ _ _ inst _ _ => inst.isNone

/-! ## `Introspect` -/

/-- `ENOMEM`. -/
def ENOMEM : Nat := 12

/-- `INTROSPECT_CHUNK_SIZE` (infopipe.c:137). -/
def INTROSPECT_CHUNK_SIZE : Nat := 4096

/-- What the environment answers to the calls `infp_introspect` makes. -/
structure IntrospectEnv where
  /-- Whether `talloc_new(reply)` returns a context. -/
  talloc_new : Bool
  /-- The result of `fopen` on the introspection XML: the content of the
  document behind the stream, or `errno` when the stream is `NULL`. -/
  fopen : Except Nat String
  /-- Whether `talloc_size(tmp_ctx, INTROSPECT_CHUNK_SIZE)` returns the chunk. -/
  talloc_size : Bool
  /-- Whether the call of `talloc_realloc_size` in iteration number k of the
  loop, counted from 0, returns a buffer. -/
  talloc_realloc_size : Nat → Bool
  /-- Whether `dbus_message_new_method_return` returns a message. -/
  dbus_message_new_method_return : Bool
  /-- Whether `dbus_message_append_args` succeeds. -/
  dbus_message_append_args : Bool

/-- What `reply->reply_message` holds after `infp_introspect`: a method return
with the string appended to it, or with nothing when appending failed. -/
inductive IntrospectReply where
  | method_return (xml : Option String)
  deriving DecidableEq, Repr

/-- The result of `infp_introspect`: its return code, `reply->reply_message`,
`reply->mh_ctx->introspection_xml` after the call, and how often the call
opened and read the document. -/
structure IntrospectResult where
  ret : Nat
  reply_message : Option IntrospectReply
  introspection_xml : Option String
  fopen_calls : Nat
  fread_calls : Nat
  deriving DecidableEq, Repr

/-- `fread(chunk, 1, size, xml_stream)`: the bytes it puts into `chunk`, which
are the next min(remaining, size) bytes of the stream, and the stream after
them. -/
def fread (size : Nat) (xml_stream : List Char) : List Char × List Char :=
  (xml_stream.take size, xml_stream.drop size)

/-- The `do ... while` loop of `infp_introspect` (infopipe.c:171-180) for a
chunk of `size` bytes, from the bytes left in `xml_stream`, the bytes of
`introspect_xml` so far and the number of iterations done.  The result is
`none` when `fuel` iterations do not end the loop; otherwise it is
`introspect_xml` at the end, `none` for the `NULL` of a failed
`talloc_realloc_size`, with the number of `fread` calls. -/
def read_loop (size : Nat) (talloc_realloc_size : Nat → Bool) :
    Nat → List Char → List Char → Nat → Option (Option (List Char) × Nat)
  | 0, _, _, _ => none
  | fuel + 1, xml_stream, introspect_xml, calls =>
    let chunk := (fread size xml_stream).1
    let xml_stream := (fread size xml_stream).2
    let chunk_size := chunk.length
    if talloc_realloc_size calls = false then
      some (none, calls + 1)
    else
      let introspect_xml := introspect_xml ++ chunk
      if chunk_size = size then
        read_loop size talloc_realloc_size fuel xml_stream introspect_xml (calls + 1)
      else
        some (some introspect_xml, calls + 1)

/-- The C string at the start of a buffer that holds `bytes` and a NUL after
them (infopipe.c:181): the bytes before the first NUL.  It is what a
`char *` to the buffer stands for, in `reply->mh_ctx->introspection_xml` and
in `dbus_message_append_args`. -/
def c_string (bytes : List Char) : String :=
  String.mk (bytes.takeWhile fun c => c != Char.ofNat 0)

/-- Lines 193-212 of `infp_introspect`: the reply built from `introspect_xml`
once `reply->mh_ctx->introspection_xml` holds it. -/
def introspect_reply (env : IntrospectEnv) (introspect_xml : String)
    (fopen_calls fread_calls : Nat) : IntrospectResult :=
  if env.dbus_message_new_method_return = false then
    { ret := ENOMEM, reply_message := none, introspection_xml := some introspect_xml,
      fopen_calls := fopen_calls, fread_calls := fread_calls }
  else if env.dbus_message_append_args = false then
    { ret := ENOMEM, reply_message := some (IntrospectReply.method_return none),
      introspection_xml := some introspect_xml,
      fopen_calls := fopen_calls, fread_calls := fread_calls }
  else
    { ret := EOK, reply_message := some (IntrospectReply.method_return (some introspect_xml)),
      introspection_xml := some introspect_xml,
      fopen_calls := fopen_calls, fread_calls := fread_calls }

/-- `infp_introspect` (infopipe.c:139) for a chunk of `size` bytes, called
with `reply->mh_ctx->introspection_xml` as given; `none` when `fuel`
iterations do not end the read loop.  The buffer the loop fills is kept and
sent as a `char *`, so as the C string in it. -/
def infp_introspect_sized (size fuel : Nat) (env : IntrospectEnv)
    (introspection_xml : Option String) : Option IntrospectResult :=
  if env.talloc_new = false then
    some { ret := ENOMEM, reply_message := none, introspection_xml := introspection_xml,
           fopen_calls := 0, fread_calls := 0 }
  else
    match introspection_xml with
    | none =>
      match env.fopen with
      | Except.error errno =>
        some { ret := errno, reply_message := none, introspection_xml := none,
               fopen_calls := 1, fread_calls := 0 }
      | Except.ok document =>
        if env.talloc_size = false then
          some { ret := ENOMEM, reply_message := none, introspection_xml := none,
                 fopen_calls := 1, fread_calls := 0 }
        else
          match read_loop size env.talloc_realloc_size fuel document.data [] 0 with
          | none => none
          | some (none, fread_calls) =>
            some { ret := ENOMEM, reply_message := none, introspection_xml := none,
                   fopen_calls := 1, fread_calls := fread_calls }
          | some (some introspect_xml, fread_calls) =>
            some (introspect_reply env (c_string introspect_xml) 1 fread_calls)
    | some introspect_xml => some (introspect_reply env introspect_xml 0 0)

/-- `infp_introspect` (infopipe.c:139). -/
def infp_introspect (fuel : Nat) (env : IntrospectEnv) (introspection_xml : Option String) :
    Option IntrospectResult :=
  infp_introspect_sized INTROSPECT_CHUNK_SIZE fuel env introspection_xml

/-- A run of `infp_introspect` calls, each with its fuel and environment, the
cache of one call being that left by the call before it; the run ends with a
call that does not return. -/
def introspect_calls : List (Nat × IntrospectEnv) → Option String →
    List (Option IntrospectResult)
  | [], _ => []
  | (fuel, env) :: rest, introspection_xml =>
    match infp_introspect fuel env introspection_xml with
    | none => [none]
    | some result => some result :: introspect_calls rest result.introspection_xml

/-- An environment in which the document is there to read and no allocation
fails. -/
def good_env (document : String) : IntrospectEnv :=
  { talloc_new := true,
    fopen := Except.ok document,
    talloc_size := true,
    talloc_realloc_size := fun _ => true,
    dbus_message_new_method_return := true,
    dbus_message_append_args := true }

/-- The string a call returned to its caller, if it returned one. -/
def returned_xml (result : IntrospectResult) : Option String :=
  match result.reply_message with
  | some (IntrospectReply.method_return (some xml)) => some xml
  | _ => none

/-- Reading the source fails: the document cannot be opened, or the chunk
cannot be allocated, or the buffer cannot be grown in one of the iterations
the loop makes for the document. -/
def read_fails (size : Nat) (env : IntrospectEnv) : Prop :=
  (∃ errno, errno ≠ EOK ∧ env.fopen = Except.error errno) ∨
    ∃ document : String, env.fopen = Except.ok document ∧
      (env.talloc_size = false ∨
        ∃ k, k ≤ document.length / size ∧ env.talloc_realloc_size k = false)

/-- The length of the document behind the stream, 0 when it cannot be
opened. -/
def source_length (env : IntrospectEnv) : Nat :=
  match env.fopen with
  | Except.ok document => document.length
  | Except.error _ => 0

/-! ## `CheckPermissions` -/

/-- What the pointer `permissions` of `infp_check_permissions` holds.  The
variable is declared at infopipe.c:362 and never initialised: until line 482
assigns it, it holds the word the stack held at its place, 0 being `NULL`.
From then on it is an array of talloc, given by its elements. -/
inductive PermissionsPtr where
  | uninitialised (word : Nat)
  | array (elems : List Bool)
  deriving DecidableEq, Repr

/-- `talloc_realloc(tmp_ctx, permissions, dbus_bool_t, count)` at line 482:
the elements that the array it returns keeps, to which the one stored at line
483 is added.  `NULL` gives a new array.  For a pointer that talloc never
returned the behaviour is undefined, which is `none`. -/
def talloc_realloc (permissions : PermissionsPtr) : Option (List Bool) :=
  match permissions with
  | PermissionsPtr.uninitialised 0 => some []
  | PermissionsPtr.uninitialised (_ + 1) => none
  | PermissionsPtr.array elems => some elems

/-- `talloc_steal(reply, permissions)` at line 494 and the `count` elements
that `dbus_message_append_args` reads through the pointer at line 496: none
for `NULL`, where `count` is 0.  For a pointer that talloc never returned the
behaviour is undefined, which is `none`. -/
def talloc_steal (permissions : PermissionsPtr) : Option (List Bool) :=
  match permissions with
  | PermissionsPtr.uninitialised 0 => some []
  | PermissionsPtr.uninitialised (_ + 1) => none
  | PermissionsPtr.array elems => some elems

/-- The `while` loop of `infp_check_permissions` (infopipe.c:442-488) from the
position `action_array_iter` with the pointer `permissions` as it stands, the
function called at line 483 being a parameter.  `none` is undefined
behaviour; `Except.error einval_msg` is a `goto einval`; `Except.ok
permissions` is the pointer when the array is exhausted. -/
def check_actions_with (evaluator : Evaluator) (username domain : String)
    (object_type : ObjectType) (inst : Option String) :
    DBusMessageIter → PermissionsPtr → Option (Except String PermissionsPtr)
  | [], permissions => some (Except.ok permissions)
  | entry :: rest, permissions =>
    if DBusArg.arg_type entry ≠ DBusType.DBUS_TYPE_STRUCT then
      some (Except.error "Action array entry was not a struct")
    else
      let action_struct_iter := dbus_message_iter_recurse (entry :: rest)
      if dbus_message_iter_get_arg_type action_struct_iter ≠ DBusType.DBUS_TYPE_STRING then
        some (Except.error "Missing action_type")
      else
        let action := dbus_message_iter_get_basic action_struct_iter
        let action_type := get_action_type action
        if action_type = ActionType.INVALID then
          some (Except.error ("Action type [" ++ action ++ "] is not valid"))
        else
          let action_struct_iter := dbus_message_iter_next action_struct_iter
          if dbus_message_iter_get_arg_type action_struct_iter ≠ DBusType.DBUS_TYPE_STRING then
            some (Except.error "Missing attribute")
          else
            let attr := dbus_message_iter_get_basic action_struct_iter
            let attribute_type := get_attribute_type attr
            if attribute_type = AttributeType.INVALID then
              some (Except.error ("Attribute [" ++ attr ++ "] is not valid"))
            else if dbus_message_iter_has_next action_struct_iter then
              some (Except.error "Unexpected value in action struct")
            else
              match talloc_realloc permissions with
              | none => none
              | some elems =>
                check_actions_with evaluator username domain object_type inst rest
                  (PermissionsPtr.array (elems ++ [evaluator username domain object_type inst
                    action_type attribute_type]))

/-- Lines 390-488 of `infp_check_permissions` for a caller already identified,
`word` being what the stack holds at the place of `permissions` and the
function called at line 483 a parameter.  `none` is undefined behaviour;
`Except.error einval_msg` is a `goto einval`; `Except.ok permissions` is the
pointer on reaching line 490. -/
def check_permissions_args_with (evaluator : Evaluator) (username : String) (word : Nat)
    (message : List DBusArg) : Option (Except String PermissionsPtr) :=
  match dbus_message_iter_init message with
  | none => some (Except.error "No arguments received.")
  | some iter =>
    if dbus_message_iter_get_arg_type iter ≠ DBusType.DBUS_TYPE_STRING then
      some (Except.error "Expected domain")
    else
      let domain := dbus_message_iter_get_basic iter
      let iter := dbus_message_iter_next iter
      if dbus_message_iter_get_arg_type iter ≠ DBusType.DBUS_TYPE_STRING then
        some (Except.error "Expected object")
      else
        let object := dbus_message_iter_get_basic iter
        let object_type := get_object_type object
        if object_type = ObjectType.INVALID then
          some (Except.error "Invalid object type")
        else
          let iter := dbus_message_iter_next iter
          if dbus_message_iter_get_arg_type iter ≠ DBusType.DBUS_TYPE_STRING then
            some (Except.error "Expected instance")
          else
            let inst := dbus_message_iter_get_basic iter
            let inst := if strcmp inst "" = 0 then none else some inst
            let iter := dbus_message_iter_next iter
            if dbus_message_iter_get_arg_type iter ≠ DBusType.DBUS_TYPE_ARRAY then
              some (Except.error "Expected array of actions")
            else
              let action_array_iter := dbus_message_iter_recurse iter
              check_actions_with evaluator username domain object_type inst
                action_array_iter (PermissionsPtr.uninitialised word)

/-- `infp_check_permissions` (infopipe.c:342), `word` being what the stack
holds at the place of `permissions` when the handler is entered and the
function called at line 483 a parameter.  `none` is undefined behaviour. -/
def infp_check_permissions_with (evaluator : Evaluator) (ctx : CallerCtx) (word : Nat)
    (message : List DBusArg) : Option HandlerResult :=
  match get_caller_username ctx with
  | Except.error code => some { ret := code, reply_message := none }
  | Except.ok username =>
    match check_permissions_args_with evaluator username word message with
    | none => none
    | some (Except.error einval_msg) =>
      some { ret := EOK,
             reply_message := some (ReplyMessage.error DBUS_ERROR_INVALID_ARGS einval_msg) }
    | some (Except.ok permissions) =>
      match talloc_steal permissions with
      | none => none
      | some elems =>
        some { ret := EOK, reply_message := some (ReplyMessage.method_return elems) }

/-- `infp_check_permissions` (infopipe.c:342), `word` being what the stack
holds at the place of `permissions` when the handler is entered.  `none` is
undefined behaviour. -/
def infp_check_permissions (ctx : CallerCtx) (word : Nat) (message : List DBusArg) :
    Option HandlerResult :=
  infp_check_permissions_with infp_get_permissions ctx word message

/-- The checks made before any entry of the array has been evaluated: the
checks on the four positional arguments and those on the first entry of the
array. -/
def early_checks (message : List DBusArg) : List (Bool × String) :=
  positional_checks message ++
    match entries_at message[3]? with
    | [] => []
    | entry :: _ => entry_checks entry

/-- The text of the error reply of a call, `none` when the call left another
reply, no reply, or has no result. -/
def reported (result : Option HandlerResult) : Option String :=
  match result with
  | some r => reported_message r
  | none => none

end InfoPipe

namespace InfoPipe

/-! ## The C library model -/

theorem tolower_toNat (c : Char) :
    (tolower c).toNat = if 65 ≤ c.toNat ∧ c.toNat ≤ 90 then c.toNat + 32 else c.toNat := by
  unfold tolower Char.toLower
  by_cases h : 65 ≤ c.toNat ∧ c.toNat ≤ 90
  · simp only [ge_iff_le, h, and_self, if_true]
    obtain ⟨h1, h2⟩ := h
    generalize c.toNat = n at h1 h2
    interval_cases n <;> rfl
  · simp only [ge_iff_le, h, if_false]

theorem char_toNat_inj {a b : Char} (h : a.toNat = b.toNat) : a = b := by
  rw [← Char.ofNat_toNat a, ← Char.ofNat_toNat b, h]

theorem tolower_eq_iff (a b : Char) : tolower a = tolower b ↔ same_letter a b := by
  have ha := tolower_toNat a
  have hb := tolower_toNat b
  unfold same_letter
  constructor
  · intro h
    rw [h] at ha
    by_cases hab : a.toNat = b.toNat
    · exact Or.inl (char_toNat_inj hab)
    · right
      split_ifs at ha hb <;> omega
  · intro h
    apply char_toNat_inj
    rcases h with h | h | h
    · rw [h]
    · split_ifs at ha hb <;> omega
    · split_ifs at ha hb <;> omega

theorem strcmp_chars_eq_zero_iff (s t : List Char) : strcmp_chars s t = 0 ↔ s = t := by
  induction s generalizing t with
  | nil => cases t <;> simp [strcmp_chars]
  | cons a s ih =>
    cases t with
    | nil => simp [strcmp_chars]
    | cons b t =>
      by_cases hab : a = b
      · simp [strcmp_chars, hab, ih]
      · by_cases hlt : a.toNat < b.toNat <;> simp [strcmp_chars, hab, hlt]

theorem strcmp_eq_zero_iff (s t : String) : strcmp s t = 0 ↔ s = t := by
  unfold strcmp
  rw [strcmp_chars_eq_zero_iff]
  constructor
  · intro h
    exact String.ext h
  · intro h
    rw [h]

theorem strcasecmp_chars_eq_zero_iff (s t : List Char) :
    strcasecmp_chars s t = 0 ↔ List.Forall₂ same_letter s t := by
  induction s generalizing t with
  | nil => cases t <;> simp [strcasecmp_chars]
  | cons a s ih =>
    cases t with
    | nil => simp [strcasecmp_chars]
    | cons b t =>
      by_cases hab : tolower a = tolower b
      · simp [strcasecmp_chars, hab, ih, (tolower_eq_iff a b).mp hab]
      · have hns : ¬ same_letter a b := fun h => hab ((tolower_eq_iff a b).mpr h)
        by_cases hlt : (tolower a).toNat < (tolower b).toNat <;>
          simp [strcasecmp_chars, hab, hlt, hns]

theorem strcasecmp_eq_zero_iff (s t : String) :
    strcasecmp s t = 0 ↔ eq_ignoring_case s t := by
  unfold strcasecmp eq_ignoring_case
  exact strcasecmp_chars_eq_zero_iff s.data t.data

theorem forall₂_same_letter_iff_map (s t : List Char) :
    List.Forall₂ same_letter s t ↔ s.map tolower = t.map tolower := by
  induction s generalizing t with
  | nil => cases t <;> simp
  | cons a s ih =>
    cases t with
    | nil => simp
    | cons b t => simp [ih, tolower_eq_iff]

theorem eq_ignoring_case_iff_map (s t : String) :
    eq_ignoring_case s t ↔ s.data.map tolower = t.data.map tolower :=
  forall₂_same_letter_iff_map s.data t.data

theorem strcasecmp_eq_zero_iff_lower (s t : String) :
    strcasecmp s t = 0 ↔ s.data.map tolower = t.data.map tolower :=
  (strcasecmp_eq_zero_iff s t).trans (eq_ignoring_case_iff_map s t)

/-! ## The permission evaluator -/

/-- C4: `infp_get_permissions` answers true exactly when the username is the
string "root", whatever the domain, object type, instance (present or
absent), action type and attribute type are, and false for every other
username; so it allows root a Delete on LastLogin and denies "Root". -/
theorem infp_get_permissions_iff_root (username domain : String)
    (object_type : ObjectType) (inst : Option String) (action_type : ActionType)
    (action_attribute : AttributeType) :
    (infp_get_permissions username domain object_type inst action_type action_attribute = true
        ↔ username = "root") ∧
      (infp_get_permissions username domain object_type inst action_type action_attribute
          = false ↔ ¬ username = "root") ∧
      infp_get_permissions "root" domain object_type inst ActionType.DELETE
          AttributeType.LAST_LOGIN = true ∧
      infp_get_permissions "Root" domain object_type inst action_type action_attribute
          = false ∧
      infp_get_permissions "root " domain object_type inst action_type action_attribute
          = false := by
  refine ⟨?_, ?_, ?_, ?_, ?_⟩
  · simp only [infp_get_permissions, strcmp_eq_zero_iff]
    by_cases h : username = "root" <;> simp [h]
  · simp only [infp_get_permissions, strcmp_eq_zero_iff]
    by_cases h : username = "root" <;> simp [h]
  · unfold infp_get_permissions
    decide
  · unfold infp_get_permissions
    decide
  · unfold infp_get_permissions
    decide

/-! ## The enum resolvers -/

theorem resolve_token_range {α : Type} (table : List (String × α)) (dflt : α) (s : String) :
    resolve_token table dflt s = dflt ∨ ∃ p ∈ table, resolve_token table dflt s = p.2 := by
  induction table with
  | nil => exact Or.inl rfl
  | cons q rest ih =>
    unfold resolve_token
    by_cases h : strcasecmp s q.1 = 0
    · rw [if_pos h]
      exact Or.inr ⟨q, List.mem_cons_self _ _, rfl⟩
    · rw [if_neg h]
      rcases ih with ih | ⟨p, hp, ih⟩
      · exact Or.inl ih
      · exact Or.inr ⟨p, List.mem_cons_of_mem _ hp, ih⟩

theorem resolve_token_eq_iff {α : Type} (table : List (String × α)) (dflt : α) (s : String)
    (hok : table_ok table dflt) (p : String × α) (hp : p ∈ table) :
    resolve_token table dflt s = p.2 ↔ eq_ignoring_case s p.1 := by
  induction table with
  | nil => cases hp
  | cons q rest ih =>
    obtain ⟨hpw, hd⟩ := hok
    rw [List.pairwise_cons] at hpw
    obtain ⟨hq, hrest⟩ := hpw
    have hok' : table_ok rest dflt := ⟨hrest, fun r hr => hd r (List.mem_cons_of_mem _ hr)⟩
    unfold resolve_token
    by_cases h : strcasecmp s q.1 = 0
    · rw [if_pos h]
      rcases List.mem_cons.mp hp with rfl | hp'
      · simpa using (strcasecmp_eq_zero_iff s p.1).mp h
      · have hne := hq p hp'
        constructor
        · intro hc
          exact absurd hc hne.2
        · intro hc
          rw [strcasecmp_eq_zero_iff_lower] at h
          rw [eq_ignoring_case_iff_map] at hc
          exact absurd (h.symm.trans hc) hne.1
    · rw [if_neg h]
      rcases List.mem_cons.mp hp with rfl | hp'
      · constructor
        · intro hc
          rcases resolve_token_range rest dflt s with hr | ⟨r, hr, hr'⟩
          · exact absurd (hc.symm.trans hr) (hd p (List.mem_cons_self _ _))
          · exact absurd (hc.symm.trans hr') (hq r hr).2
        · intro hc
          exact absurd ((strcasecmp_eq_zero_iff s p.1).mpr hc) h
      · exact ih hok' hp'

theorem resolve_token_eq_default_iff {α : Type} (table : List (String × α)) (dflt : α)
    (s : String) (hok : table_ok table dflt) :
    resolve_token table dflt s = dflt ↔ ∀ p ∈ table, ¬ eq_ignoring_case s p.1 := by
  induction table with
  | nil => simp [resolve_token]
  | cons q rest ih =>
    obtain ⟨hpw, hd⟩ := hok
    rw [List.pairwise_cons] at hpw
    have hok' : table_ok rest dflt := ⟨hpw.2, fun r hr => hd r (List.mem_cons_of_mem _ hr)⟩
    unfold resolve_token
    by_cases h : strcasecmp s q.1 = 0
    · rw [if_pos h]
      constructor
      · intro hc
        exact absurd hc (hd q (List.mem_cons_self _ _))
      · intro hall
        exact absurd ((strcasecmp_eq_zero_iff s q.1).mp h) (hall q (List.mem_cons_self _ _))
    · rw [if_neg h, ih hok']
      have hq : ¬ eq_ignoring_case s q.1 := fun hc => h ((strcasecmp_eq_zero_iff s q.1).mpr hc)
      simp [hq]

theorem get_object_type_eq_resolve (s : String) :
    get_object_type s = resolve_token object_table ObjectType.INVALID s := rfl

theorem get_action_type_eq_resolve (s : String) :
    get_action_type s = resolve_token action_table ActionType.INVALID s := rfl

theorem get_attribute_type_eq_resolve (s : String) :
    get_attribute_type s = resolve_token attribute_table AttributeType.INVALID s := rfl

theorem object_table_ok : table_ok object_table ObjectType.INVALID := by
  unfold table_ok object_table
  decide

theorem action_table_ok : table_ok action_table ActionType.INVALID := by
  unfold table_ok action_table
  decide

theorem attribute_table_ok : table_ok attribute_table AttributeType.INVALID := by
  unfold table_ok attribute_table
  decide

/-- C5: `get_object_type` is a total function that answers User exactly for
the strings equal to "user" ignoring ASCII letter case, Group exactly for
those equal to "group" ignoring case, and Invalid for every other string,
among them the empty string and strings that only start or end with a valid
token; "USER" and "user" both resolve to User. -/
theorem get_object_type_spec (s : String) :
    (get_object_type s = ObjectType.USER ↔ eq_ignoring_case s "user") ∧
      (get_object_type s = ObjectType.GROUP ↔ eq_ignoring_case s "group") ∧
      (get_object_type s = ObjectType.INVALID ↔
        ¬ (eq_ignoring_case s "user" ∨ eq_ignoring_case s "group")) ∧
      get_object_type "USER" = ObjectType.USER ∧
      get_object_type "user" = ObjectType.USER ∧
      get_object_type "GrouP" = ObjectType.GROUP ∧
      get_object_type "" = ObjectType.INVALID ∧
      get_object_type "users" = ObjectType.INVALID ∧
      get_object_type "xgroup" = ObjectType.INVALID := by
  have h := resolve_token_eq_iff object_table ObjectType.INVALID s object_table_ok
  have hd := resolve_token_eq_default_iff object_table ObjectType.INVALID s object_table_ok
  rw [get_object_type_eq_resolve s]
  refine ⟨?_, ?_, ?_, by decide, by decide, by decide, by decide, by decide, by decide⟩
  · exact h ("user", ObjectType.USER) (by decide)
  · exact h ("group", ObjectType.GROUP) (by decide)
  · rw [hd]
    simp [object_table]

theorem eq_ignoring_case_of_common (s t tok : String) (hs : eq_ignoring_case s tok)
    (ht : eq_ignoring_case t tok) : eq_ignoring_case s t := by
  rw [eq_ignoring_case_iff_map] at hs ht ⊢
  exact hs.trans ht.symm

/-- C6: `get_action_type` answers a valid code exactly for the strings equal,
ignoring ASCII letter case, to one of "create", "delete", "modify",
"addmember", "removemember", which it maps to Create, Delete, Modify,
AddMember, RemoveMember in that order; each valid code is the image of its
token, and two strings with the same valid code are equal ignoring case. -/
theorem get_action_type_spec (s t : String) (c : ActionType) :
    (get_action_type s = ActionType.CREATE ↔ eq_ignoring_case s "create") ∧
      (get_action_type s = ActionType.DELETE ↔ eq_ignoring_case s "delete") ∧
      (get_action_type s = ActionType.MODIFY ↔ eq_ignoring_case s "modify") ∧
      (get_action_type s = ActionType.ADDMEMBER ↔ eq_ignoring_case s "addmember") ∧
      (get_action_type s = ActionType.REMOVEMEMBER ↔ eq_ignoring_case s "removemember") ∧
      (get_action_type s ≠ ActionType.INVALID ↔
        eq_ignoring_case s "create" ∨ eq_ignoring_case s "delete" ∨
          eq_ignoring_case s "modify" ∨ eq_ignoring_case s "addmember" ∨
          eq_ignoring_case s "removemember") ∧
      (c ≠ ActionType.INVALID → get_action_type (action_token c) = c) ∧
      (get_action_type s = get_action_type t → get_action_type s ≠ ActionType.INVALID →
        eq_ignoring_case s t) := by
  have h := fun u => resolve_token_eq_iff action_table ActionType.INVALID u action_table_ok
  have hd := resolve_token_eq_default_iff action_table ActionType.INVALID s action_table_ok
  have hmem : ∀ d : ActionType, d ≠ ActionType.INVALID → (action_token d, d) ∈ action_table := by
    intro d
    cases d
    · intro hne
      exact absurd rfl hne
    all_goals intro _; decide
  refine ⟨?_, ?_, ?_, ?_, ?_, ?_, ?_, ?_⟩
  · exact h s ("create", ActionType.CREATE) (by decide)
  · exact h s ("delete", ActionType.DELETE) (by decide)
  · exact h s ("modify", ActionType.MODIFY) (by decide)
  · exact h s ("addmember", ActionType.ADDMEMBER) (by decide)
  · exact h s ("removemember", ActionType.REMOVEMEMBER) (by decide)
  · rw [Ne, get_action_type_eq_resolve s, hd]
    simp [action_table]
    tauto
  · cases c
    · intro hne
      exact absurd rfl hne
    all_goals intro _; decide
  · intro hst hne
    have hs := (h s (action_token (get_action_type s), get_action_type s) (hmem _ hne)).mp rfl
    have ht := (h t (action_token (get_action_type s), get_action_type s) (hmem _ hne)).mp
      hst.symm
    exact eq_ignoring_case_of_common s t _ hs ht

/-- Witness for C6: "Create" and "CREATE" share the valid code Create and are
equal ignoring case; the token of RemoveMember resolves to RemoveMember. -/
theorem get_action_type_spec_witness :
    get_action_type "Create" = get_action_type "CREATE" ∧
      get_action_type "Create" ≠ ActionType.INVALID ∧
      eq_ignoring_case "Create" "CREATE" ∧
      get_action_type (action_token ActionType.REMOVEMEMBER) = ActionType.REMOVEMEMBER :=
  ⟨by decide, by decide,
    (get_action_type_spec "Create" "CREATE" ActionType.REMOVEMEMBER).2.2.2.2.2.2.2
      (by decide) (by decide),
    (get_action_type_spec "Create" "CREATE" ActionType.REMOVEMEMBER).2.2.2.2.2.2.1
      (by decide)⟩

/-- C7: `get_attribute_type` maps, ignoring ASCII letter case, exactly the
strings equal to "defaultgroup", "gecos", "homedir", "shell", "fullname",
"locale", "keyboard", "session", "last_login", "userpic" to DefaultGroup,
Gecos, HomeDir, Shell, FullName, Locale, Keyboard, Session, LastLogin, UserPic
in that order, and every other string to Invalid, among them "lastlogin"
without the underscore. -/
theorem get_attribute_type_spec (s : String) :
      (get_attribute_type s = AttributeType.DEFAULTGROUP ↔ eq_ignoring_case s "defaultgroup") ∧
      (get_attribute_type s = AttributeType.GECOS ↔ eq_ignoring_case s "gecos") ∧
      (get_attribute_type s = AttributeType.HOMEDIR ↔ eq_ignoring_case s "homedir") ∧
      (get_attribute_type s = AttributeType.SHELL ↔ eq_ignoring_case s "shell") ∧
      (get_attribute_type s = AttributeType.FULLNAME ↔ eq_ignoring_case s "fullname") ∧
      (get_attribute_type s = AttributeType.LOCALE ↔ eq_ignoring_case s "locale") ∧
      (get_attribute_type s = AttributeType.KEYBOARD ↔ eq_ignoring_case s "keyboard") ∧
      (get_attribute_type s = AttributeType.SESSION ↔ eq_ignoring_case s "session") ∧
      (get_attribute_type s = AttributeType.LAST_LOGIN ↔ eq_ignoring_case s "last_login") ∧
      (get_attribute_type s = AttributeType.USERPIC ↔ eq_ignoring_case s "userpic") ∧
      (get_attribute_type s = AttributeType.INVALID ↔
        ¬ (eq_ignoring_case s "defaultgroup" ∨
          eq_ignoring_case s "gecos" ∨
          eq_ignoring_case s "homedir" ∨
          eq_ignoring_case s "shell" ∨
          eq_ignoring_case s "fullname" ∨
          eq_ignoring_case s "locale" ∨
          eq_ignoring_case s "keyboard" ∨
          eq_ignoring_case s "session" ∨
          eq_ignoring_case s "last_login" ∨
          eq_ignoring_case s "userpic")) ∧
      get_attribute_type "lastlogin" = AttributeType.INVALID ∧
      get_attribute_type "Last_Login" = AttributeType.LAST_LOGIN ∧
      get_attribute_type "" = AttributeType.INVALID := by
  have h := resolve_token_eq_iff attribute_table AttributeType.INVALID s attribute_table_ok
  have hd := resolve_token_eq_default_iff attribute_table AttributeType.INVALID s
    attribute_table_ok
  rw [get_attribute_type_eq_resolve s]
  refine ⟨?_, ?_, ?_, ?_, ?_, ?_, ?_, ?_, ?_, ?_, ?_, by decide, by decide, by decide⟩
  · exact h ("defaultgroup", AttributeType.DEFAULTGROUP) (by decide)
  · exact h ("gecos", AttributeType.GECOS) (by decide)
  · exact h ("homedir", AttributeType.HOMEDIR) (by decide)
  · exact h ("shell", AttributeType.SHELL) (by decide)
  · exact h ("fullname", AttributeType.FULLNAME) (by decide)
  · exact h ("locale", AttributeType.LOCALE) (by decide)
  · exact h ("keyboard", AttributeType.KEYBOARD) (by decide)
  · exact h ("session", AttributeType.SESSION) (by decide)
  · exact h ("last_login", AttributeType.LAST_LOGIN) (by decide)
  · exact h ("userpic", AttributeType.USERPIC) (by decide)
  · rw [hd]
    simp [attribute_table]

/-! ## `CheckPermissions` on well-formed requests -/

theorem check_actions_list_encode (username domain : String) (object_type : ObjectType)
    (inst : Option String) (actions : List (String × String)) (permissions : List Bool)
    (h : ∀ p ∈ actions, get_action_type p.1 ≠ ActionType.INVALID ∧
      get_attribute_type p.2 ≠ AttributeType.INVALID) :
    check_actions_list username domain object_type inst (encode_actions actions) permissions =
      Except.ok (permissions ++ actions.map fun p =>
        infp_get_permissions username domain object_type inst (get_action_type p.1)
          (get_attribute_type p.2)) := by
  induction actions generalizing permissions with
  | nil => simp [encode_actions, check_actions_list]
  | cons a rest ih =>
    have ha := h a (List.mem_cons_self _ _)
    have hrest : ∀ p ∈ rest, get_action_type p.1 ≠ ActionType.INVALID ∧
        get_attribute_type p.2 ≠ AttributeType.INVALID :=
      fun p hp => h p (List.mem_cons_of_mem _ hp)
    have ih' := ih (permissions ++ [infp_get_permissions username domain object_type inst
      (get_action_type a.1) (get_attribute_type a.2)]) hrest
    simp only [encode_actions] at ih' ⊢
    simp only [List.map_cons, check_actions_list, DBusArg.arg_type, dbus_message_iter_recurse,
      dbus_message_iter_get_arg_type, dbus_message_iter_get_basic, dbus_message_iter_next,
      dbus_message_iter_has_next, List.tail_cons, ne_eq, not_true_eq_false, if_false, ha.1,
      ha.2, Bool.false_eq_true, ih', List.append_assoc, List.singleton_append]

theorem evaluator_instance_eq (inst : String) :
    (if strcmp inst "" = 0 then none else some inst) = evaluator_instance inst := by
  unfold evaluator_instance
  by_cases h : inst = ""
  · rw [if_pos h, if_pos ((strcmp_eq_zero_iff inst "").mpr h)]
  · rw [if_neg h, if_neg fun h0 => h ((strcmp_eq_zero_iff inst "").mp h0)]

theorem check_permissions_args_list_encode (username domain object inst : String)
    (actions : List (String × String)) (hwf : well_formed object actions) :
    check_permissions_args_list username (encode_request domain object inst actions) =
      Except.ok (evaluate_actions username domain object inst actions) := by
  obtain ⟨hobj, hact⟩ := hwf
  have h := check_actions_list_encode username domain (get_object_type object)
    (evaluator_instance inst) actions [] hact
  simp only [check_permissions_args_list, encode_request, dbus_message_iter_init,
    dbus_message_iter_get_arg_type, DBusArg.arg_type, dbus_message_iter_get_basic,
    dbus_message_iter_next, dbus_message_iter_recurse, List.tail_cons, ne_eq,
    not_true_eq_false, if_false, hobj, evaluator_instance_eq, h, List.nil_append,
    evaluate_actions]

theorem infp_check_permissions_list_of_caller (ctx : CallerCtx) (username : String)
    (message : List DBusArg) (hcaller : get_caller_username ctx = Except.ok username) :
    infp_check_permissions_list ctx message =
      match check_permissions_args_list username message with
      | Except.ok permissions =>
        { ret := EOK, reply_message := some (ReplyMessage.method_return permissions) }
      | Except.error einval_msg =>
        { ret := EOK,
          reply_message := some (ReplyMessage.error DBUS_ERROR_INVALID_ARGS einval_msg) } := by
  unfold infp_check_permissions_list
  rw [hcaller]

/-- List model: for a well-formed request (string domain, object token resolving to
User or Group, string instance, array of structs of two strings holding a
valid action and a valid attribute) from a caller whose username resolves,
`infp_check_permissions_list` returns EOK with a method return whose boolean array
has as many elements as the action array, the i-th being
`infp_get_permissions` of the username, the domain, the object type, the
instance and the i-th action and attribute types. -/
theorem infp_check_permissions_list_well_formed (ctx : CallerCtx)
    (username domain object inst : String) (actions : List (String × String))
    (hcaller : get_caller_username ctx = Except.ok username)
    (hwf : well_formed object actions) :
    ∃ permissions : List Bool,
      infp_check_permissions_list ctx (encode_request domain object inst actions) =
          { ret := EOK, reply_message := some (ReplyMessage.method_return permissions) } ∧
        permissions.length = actions.length ∧
        ∀ (i : Nat) (hi : i < actions.length),
          permissions[i]? = some (infp_get_permissions username domain
            (get_object_type object) (evaluator_instance inst)
            (get_action_type actions[i].1) (get_attribute_type actions[i].2)) := by
  refine ⟨evaluate_actions username domain object inst actions, ?_, ?_, ?_⟩
  · rw [infp_check_permissions_list_of_caller ctx username _ hcaller,
      check_permissions_args_list_encode username domain object inst actions hwf]
  · simp [evaluate_actions]
  · intro i hi
    simp [evaluate_actions, hi]

/-! ## Decode failures of `CheckPermissions` -/

theorem check_actions_list_missing_attribute (username domain : String) (object_type : ObjectType)
    (inst : Option String) (actions : List (String × String)) (i : Nat)
    (permissions : List Bool)
    (h : ∀ p ∈ actions, get_action_type p.1 ≠ ActionType.INVALID ∧
      get_attribute_type p.2 ≠ AttributeType.INVALID)
    (hi : i < actions.length) :
    check_actions_list username domain object_type inst
        ((encode_actions actions).set i (DBusArg.struct [DBusArg.string actions[i].1]))
        permissions =
      Except.error "Missing attribute" := by
  induction actions generalizing i permissions with
  | nil => exact absurd hi (Nat.not_lt_zero _)
  | cons a rest ih =>
    have ha := h a (List.mem_cons_self _ _)
    have hrest : ∀ p ∈ rest, get_action_type p.1 ≠ ActionType.INVALID ∧
        get_attribute_type p.2 ≠ AttributeType.INVALID :=
      fun p hp => h p (List.mem_cons_of_mem _ hp)
    cases i with
    | zero =>
      simp only [encode_actions, List.map_cons, List.set_cons_zero, List.getElem_cons_zero,
        check_actions_list, DBusArg.arg_type, dbus_message_iter_recurse,
        dbus_message_iter_get_arg_type, dbus_message_iter_get_basic, dbus_message_iter_next,
        List.tail_cons, ne_eq, not_true_eq_false, if_false, ha.1, not_false_eq_true, if_true,
        reduceCtorEq]
    | succ j =>
      have hj : j < rest.length := Nat.lt_of_succ_lt_succ hi
      have ih' := ih j (permissions ++ [infp_get_permissions username domain object_type inst
        (get_action_type a.1) (get_attribute_type a.2)]) hrest hj
      simp only [encode_actions] at ih' ⊢
      simp only [List.map_cons, List.set_cons_succ, List.getElem_cons_succ, check_actions_list,
        DBusArg.arg_type, dbus_message_iter_recurse, dbus_message_iter_get_arg_type,
        dbus_message_iter_get_basic, dbus_message_iter_next, dbus_message_iter_has_next,
        List.tail_cons, ne_eq, not_true_eq_false, if_false, ha.1, ha.2, Bool.false_eq_true,
        ih']

/-- List model: take a well-formed request and any index i into its action list;
when entry i is replaced by a struct of one field holding only its valid
action string, `infp_check_permissions_list` answers the invalid-arguments error
"Missing attribute" and no method return. -/
theorem infp_check_permissions_list_missing_attribute (ctx : CallerCtx)
    (username domain object inst : String) (actions : List (String × String)) (i : Nat)
    (hcaller : get_caller_username ctx = Except.ok username)
    (hwf : well_formed object actions) (hi : i < actions.length) :
    infp_check_permissions_list ctx
        [DBusArg.string domain, DBusArg.string object, DBusArg.string inst,
          DBusArg.array
            ((encode_actions actions).set i (DBusArg.struct [DBusArg.string actions[i].1]))] =
      { ret := EOK,
        reply_message := some (ReplyMessage.error DBUS_ERROR_INVALID_ARGS
          "Missing attribute") } := by
  obtain ⟨hobj, hact⟩ := hwf
  have h := check_actions_list_missing_attribute username domain (get_object_type object)
    (evaluator_instance inst) actions i [] hact hi
  rw [infp_check_permissions_list_of_caller ctx username _ hcaller]
  simp only [check_permissions_args_list, dbus_message_iter_init,
    dbus_message_iter_get_arg_type, DBusArg.arg_type, dbus_message_iter_get_basic,
    dbus_message_iter_next, dbus_message_iter_recurse, List.tail_cons, ne_eq,
    not_true_eq_false, if_false, hobj, evaluator_instance_eq, h]

/-- List model: when position 0 is a string and position 1 is a string that resolves
to neither User nor Group, `infp_check_permissions_list` answers the
invalid-arguments error "Invalid object type" and no permissions array,
whatever follows position 1, be it missing or mistyped. -/
theorem infp_check_permissions_list_invalid_object (ctx : CallerCtx) (username domain object : String)
    (rest : List DBusArg) (hcaller : get_caller_username ctx = Except.ok username)
    (hobj : get_object_type object = ObjectType.INVALID) :
    infp_check_permissions_list ctx (DBusArg.string domain :: DBusArg.string object :: rest) =
        { ret := EOK,
          reply_message := some (ReplyMessage.error DBUS_ERROR_INVALID_ARGS
            "Invalid object type") } ∧
      ∀ permissions : List Bool,
        (infp_check_permissions_list ctx
          (DBusArg.string domain :: DBusArg.string object :: rest)).reply_message ≠
          some (ReplyMessage.method_return permissions) := by
  have h : infp_check_permissions_list ctx (DBusArg.string domain :: DBusArg.string object :: rest) =
      { ret := EOK,
        reply_message := some (ReplyMessage.error DBUS_ERROR_INVALID_ARGS
          "Invalid object type") } := by
    rw [infp_check_permissions_list_of_caller ctx username _ hcaller]
    simp only [check_permissions_args_list, dbus_message_iter_init,
      dbus_message_iter_get_arg_type, DBusArg.arg_type, dbus_message_iter_get_basic,
      dbus_message_iter_next, List.tail_cons, ne_eq, not_true_eq_false, if_false, hobj,
      if_true]
  refine ⟨h, ?_⟩
  intro permissions
  rw [h]
  simp

/-- List model: the request domain "LOCAL", object "user", instance "", actions
("create", "gecos") and ("modify", "shell") gets the method return
[true, true] when the caller is "root" and [false, false] when the caller has
any other username. -/
theorem infp_check_permissions_list_example (ctx : CallerCtx) (username : String)
    (hcaller : get_caller_username ctx = Except.ok username) :
    (username = "root" →
        infp_check_permissions_list ctx
            [DBusArg.string "LOCAL", DBusArg.string "user", DBusArg.string "",
              DBusArg.array
                [DBusArg.struct [DBusArg.string "create", DBusArg.string "gecos"],
                  DBusArg.struct [DBusArg.string "modify", DBusArg.string "shell"]]] =
          { ret := EOK, reply_message := some (ReplyMessage.method_return [true, true]) }) ∧
      (username ≠ "root" →
        infp_check_permissions_list ctx
            [DBusArg.string "LOCAL", DBusArg.string "user", DBusArg.string "",
              DBusArg.array
                [DBusArg.struct [DBusArg.string "create", DBusArg.string "gecos"],
                  DBusArg.struct [DBusArg.string "modify", DBusArg.string "shell"]]] =
          { ret := EOK, reply_message := some (ReplyMessage.method_return [false, false]) }) := by
  have hwf : well_formed "user" [("create", "gecos"), ("modify", "shell")] := by
    unfold well_formed
    decide
  have h := check_permissions_args_list_encode username "LOCAL" "user" ""
    [("create", "gecos"), ("modify", "shell")] hwf
  simp only [encode_request, encode_actions, List.map_cons, List.map_nil] at h
  rw [infp_check_permissions_list_of_caller ctx username _ hcaller, h]
  constructor
  · intro hroot
    simp [evaluate_actions, infp_get_permissions, strcmp_eq_zero_iff, hroot]
  · intro hroot
    simp [evaluate_actions, infp_get_permissions, strcmp_eq_zero_iff, hroot]

theorem first_failure_nil : first_failure [] = none := rfl

theorem first_failure_cons (b : Bool) (m : String) (cs : List (Bool × String)) :
    first_failure ((b, m) :: cs) = if b = true then some m else first_failure cs := by
  cases b <;> simp [first_failure, List.find?_cons]

theorem first_failure_append (cs ds : List (Bool × String)) :
    first_failure (cs ++ ds) = (first_failure cs).or (first_failure ds) := by
  unfold first_failure
  rw [List.find?_append]
  cases List.find? (fun c => c.1) cs <;> simp

theorem check_actions_list_einval (username domain : String) (object_type : ObjectType)
    (inst : Option String) (entries : List DBusArg) (permissions : List Bool) :
    einval_msg_of (check_actions_list username domain object_type inst entries permissions) =
      first_failure (entries.flatMap entry_checks) := by
  induction entries generalizing permissions with
  | nil => simp [check_actions_list, einval_msg_of, first_failure_nil]
  | cons entry rest ih =>
    rw [List.flatMap_cons, first_failure_append]
    cases entry with
    | string s0 =>
      simp [check_actions_list, DBusArg.arg_type, einval_msg_of, entry_checks, is_struct,
        first_failure_cons]
    | array es =>
      simp [check_actions_list, DBusArg.arg_type, einval_msg_of, entry_checks, is_struct,
        first_failure_cons]
    | other c =>
      simp [check_actions_list, DBusArg.arg_type, einval_msg_of, entry_checks, is_struct,
        first_failure_cons]
    | struct fields =>
      have ih' := fun p => ih p
      match fields with
      | [] =>
        simp [check_actions_list, DBusArg.arg_type, einval_msg_of, entry_checks, is_struct,
          first_failure_cons, field_checks, fields_of, is_string, dbus_message_iter_recurse,
          dbus_message_iter_get_arg_type]
      | DBusArg.array _ :: _ =>
        simp [check_actions_list, DBusArg.arg_type, einval_msg_of, entry_checks, is_struct,
          first_failure_cons, field_checks, fields_of, is_string, dbus_message_iter_recurse,
          dbus_message_iter_get_arg_type]
      | DBusArg.struct _ :: _ =>
        simp [check_actions_list, DBusArg.arg_type, einval_msg_of, entry_checks, is_struct,
          first_failure_cons, field_checks, fields_of, is_string, dbus_message_iter_recurse,
          dbus_message_iter_get_arg_type]
      | DBusArg.other _ :: _ =>
        simp [check_actions_list, DBusArg.arg_type, einval_msg_of, entry_checks, is_struct,
          first_failure_cons, field_checks, fields_of, is_string, dbus_message_iter_recurse,
          dbus_message_iter_get_arg_type]
      | DBusArg.string action :: fields1 =>
        by_cases hact : get_action_type action = ActionType.INVALID
        · simp [check_actions_list, DBusArg.arg_type, einval_msg_of, entry_checks, is_struct,
            first_failure_cons, field_checks, fields_of, is_string, string_at,
            dbus_message_iter_recurse, dbus_message_iter_get_arg_type,
            dbus_message_iter_get_basic, hact]
        · match fields1 with
          | [] =>
            simp [check_actions_list, DBusArg.arg_type, einval_msg_of, entry_checks, is_struct,
              first_failure_cons, field_checks, fields_of, is_string, string_at,
              dbus_message_iter_recurse, dbus_message_iter_get_arg_type,
              dbus_message_iter_get_basic, dbus_message_iter_next, hact]
          | DBusArg.array _ :: _ =>
            simp [check_actions_list, DBusArg.arg_type, einval_msg_of, entry_checks, is_struct,
              first_failure_cons, field_checks, fields_of, is_string, string_at,
              dbus_message_iter_recurse, dbus_message_iter_get_arg_type,
              dbus_message_iter_get_basic, dbus_message_iter_next, hact]
          | DBusArg.struct _ :: _ =>
            simp [check_actions_list, DBusArg.arg_type, einval_msg_of, entry_checks, is_struct,
              first_failure_cons, field_checks, fields_of, is_string, string_at,
              dbus_message_iter_recurse, dbus_message_iter_get_arg_type,
              dbus_message_iter_get_basic, dbus_message_iter_next, hact]
          | DBusArg.other _ :: _ =>
            simp [check_actions_list, DBusArg.arg_type, einval_msg_of, entry_checks, is_struct,
              first_failure_cons, field_checks, fields_of, is_string, string_at,
              dbus_message_iter_recurse, dbus_message_iter_get_arg_type,
              dbus_message_iter_get_basic, dbus_message_iter_next, hact]
          | DBusArg.string attr :: fields2 =>
            by_cases hattr : get_attribute_type attr = AttributeType.INVALID
            · simp [check_actions_list, DBusArg.arg_type, einval_msg_of, entry_checks, is_struct,
                first_failure_cons, field_checks, fields_of, is_string, string_at,
                dbus_message_iter_recurse, dbus_message_iter_get_arg_type,
                dbus_message_iter_get_basic, dbus_message_iter_next, hact, hattr]
            · cases fields2 with
              | nil =>
                simp [check_actions_list, DBusArg.arg_type, entry_checks, is_struct,
                  first_failure_cons, field_checks, fields_of, is_string, string_at,
                  dbus_message_iter_recurse, dbus_message_iter_get_arg_type,
                  dbus_message_iter_get_basic, dbus_message_iter_next,
                  dbus_message_iter_has_next, hact, hattr, first_failure_nil, ih']
              | cons f2 fields3 =>
                simp [check_actions_list, DBusArg.arg_type, einval_msg_of, entry_checks, is_struct,
                  first_failure_cons, field_checks, fields_of, is_string, string_at,
                  dbus_message_iter_recurse, dbus_message_iter_get_arg_type,
                  dbus_message_iter_get_basic, dbus_message_iter_next,
                  dbus_message_iter_has_next, hact, hattr]


theorem check_permissions_args_list_einval (username : String) (message : List DBusArg) :
    einval_msg_of (check_permissions_args_list username message) =
      first_failure (decode_checks message) := by
  match message with
  | [] => simp [check_permissions_args_list, dbus_message_iter_init, dbus_message_iter_get_arg_type,
      DBusArg.arg_type, dbus_message_iter_get_basic, dbus_message_iter_next,
      dbus_message_iter_recurse, einval_msg_of, decode_checks, positional_checks,
      first_failure_cons, first_failure_append, first_failure_nil, is_string, is_array,
      string_at, entries_at]
  | DBusArg.array _ :: _ => simp [check_permissions_args_list, dbus_message_iter_init, dbus_message_iter_get_arg_type,
      DBusArg.arg_type, dbus_message_iter_get_basic, dbus_message_iter_next,
      dbus_message_iter_recurse, einval_msg_of, decode_checks, positional_checks,
      first_failure_cons, first_failure_append, first_failure_nil, is_string, is_array,
      string_at, entries_at]
  | DBusArg.struct _ :: _ => simp [check_permissions_args_list, dbus_message_iter_init, dbus_message_iter_get_arg_type,
      DBusArg.arg_type, dbus_message_iter_get_basic, dbus_message_iter_next,
      dbus_message_iter_recurse, einval_msg_of, decode_checks, positional_checks,
      first_failure_cons, first_failure_append, first_failure_nil, is_string, is_array,
      string_at, entries_at]
  | DBusArg.other _ :: _ => simp [check_permissions_args_list, dbus_message_iter_init, dbus_message_iter_get_arg_type,
      DBusArg.arg_type, dbus_message_iter_get_basic, dbus_message_iter_next,
      dbus_message_iter_recurse, einval_msg_of, decode_checks, positional_checks,
      first_failure_cons, first_failure_append, first_failure_nil, is_string, is_array,
      string_at, entries_at]
  | [DBusArg.string _] => simp [check_permissions_args_list, dbus_message_iter_init, dbus_message_iter_get_arg_type,
      DBusArg.arg_type, dbus_message_iter_get_basic, dbus_message_iter_next,
      dbus_message_iter_recurse, einval_msg_of, decode_checks, positional_checks,
      first_failure_cons, first_failure_append, first_failure_nil, is_string, is_array,
      string_at, entries_at]
  | DBusArg.string _ :: DBusArg.array _ :: _ => simp [check_permissions_args_list, dbus_message_iter_init, dbus_message_iter_get_arg_type,
      DBusArg.arg_type, dbus_message_iter_get_basic, dbus_message_iter_next,
      dbus_message_iter_recurse, einval_msg_of, decode_checks, positional_checks,
      first_failure_cons, first_failure_append, first_failure_nil, is_string, is_array,
      string_at, entries_at]
  | DBusArg.string _ :: DBusArg.struct _ :: _ => simp [check_permissions_args_list, dbus_message_iter_init, dbus_message_iter_get_arg_type,
      DBusArg.arg_type, dbus_message_iter_get_basic, dbus_message_iter_next,
      dbus_message_iter_recurse, einval_msg_of, decode_checks, positional_checks,
      first_failure_cons, first_failure_append, first_failure_nil, is_string, is_array,
      string_at, entries_at]
  | DBusArg.string _ :: DBusArg.other _ :: _ => simp [check_permissions_args_list, dbus_message_iter_init, dbus_message_iter_get_arg_type,
      DBusArg.arg_type, dbus_message_iter_get_basic, dbus_message_iter_next,
      dbus_message_iter_recurse, einval_msg_of, decode_checks, positional_checks,
      first_failure_cons, first_failure_append, first_failure_nil, is_string, is_array,
      string_at, entries_at]
  | DBusArg.string domain :: DBusArg.string object :: r1 =>
    by_cases hobj : get_object_type object = ObjectType.INVALID
    · simp [check_permissions_args_list, dbus_message_iter_init, dbus_message_iter_get_arg_type,
      DBusArg.arg_type, dbus_message_iter_get_basic, dbus_message_iter_next,
      dbus_message_iter_recurse, einval_msg_of, decode_checks, positional_checks,
      first_failure_cons, first_failure_append, first_failure_nil, is_string, is_array,
      string_at, entries_at, hobj]
    · match r1 with
      | [] => simp [check_permissions_args_list, dbus_message_iter_init, dbus_message_iter_get_arg_type,
      DBusArg.arg_type, dbus_message_iter_get_basic, dbus_message_iter_next,
      dbus_message_iter_recurse, einval_msg_of, decode_checks, positional_checks,
      first_failure_cons, first_failure_append, first_failure_nil, is_string, is_array,
      string_at, entries_at, hobj]
      | DBusArg.array _ :: _ => simp [check_permissions_args_list, dbus_message_iter_init, dbus_message_iter_get_arg_type,
      DBusArg.arg_type, dbus_message_iter_get_basic, dbus_message_iter_next,
      dbus_message_iter_recurse, einval_msg_of, decode_checks, positional_checks,
      first_failure_cons, first_failure_append, first_failure_nil, is_string, is_array,
      string_at, entries_at, hobj]
      | DBusArg.struct _ :: _ => simp [check_permissions_args_list, dbus_message_iter_init, dbus_message_iter_get_arg_type,
      DBusArg.arg_type, dbus_message_iter_get_basic, dbus_message_iter_next,
      dbus_message_iter_recurse, einval_msg_of, decode_checks, positional_checks,
      first_failure_cons, first_failure_append, first_failure_nil, is_string, is_array,
      string_at, entries_at, hobj]
      | DBusArg.other _ :: _ => simp [check_permissions_args_list, dbus_message_iter_init, dbus_message_iter_get_arg_type,
      DBusArg.arg_type, dbus_message_iter_get_basic, dbus_message_iter_next,
      dbus_message_iter_recurse, einval_msg_of, decode_checks, positional_checks,
      first_failure_cons, first_failure_append, first_failure_nil, is_string, is_array,
      string_at, entries_at, hobj]
      | [DBusArg.string _] => simp [check_permissions_args_list, dbus_message_iter_init, dbus_message_iter_get_arg_type,
      DBusArg.arg_type, dbus_message_iter_get_basic, dbus_message_iter_next,
      dbus_message_iter_recurse, einval_msg_of, decode_checks, positional_checks,
      first_failure_cons, first_failure_append, first_failure_nil, is_string, is_array,
      string_at, entries_at, hobj]
      | DBusArg.string _ :: DBusArg.string _ :: _ => simp [check_permissions_args_list, dbus_message_iter_init, dbus_message_iter_get_arg_type,
      DBusArg.arg_type, dbus_message_iter_get_basic, dbus_message_iter_next,
      dbus_message_iter_recurse, einval_msg_of, decode_checks, positional_checks,
      first_failure_cons, first_failure_append, first_failure_nil, is_string, is_array,
      string_at, entries_at, hobj]
      | DBusArg.string _ :: DBusArg.struct _ :: _ => simp [check_permissions_args_list, dbus_message_iter_init, dbus_message_iter_get_arg_type,
      DBusArg.arg_type, dbus_message_iter_get_basic, dbus_message_iter_next,
      dbus_message_iter_recurse, einval_msg_of, decode_checks, positional_checks,
      first_failure_cons, first_failure_append, first_failure_nil, is_string, is_array,
      string_at, entries_at, hobj]
      | DBusArg.string _ :: DBusArg.other _ :: _ => simp [check_permissions_args_list, dbus_message_iter_init, dbus_message_iter_get_arg_type,
      DBusArg.arg_type, dbus_message_iter_get_basic, dbus_message_iter_next,
      dbus_message_iter_recurse, einval_msg_of, decode_checks, positional_checks,
      first_failure_cons, first_failure_append, first_failure_nil, is_string, is_array,
      string_at, entries_at, hobj]
      | DBusArg.string inst :: DBusArg.array entries :: _ =>
        have h := check_actions_list_einval username domain (get_object_type object)
          (if strcmp inst "" = 0 then none else some inst) entries []
        simp only [einval_msg_of] at h
        simp [check_permissions_args_list, dbus_message_iter_init, dbus_message_iter_get_arg_type,
      DBusArg.arg_type, dbus_message_iter_get_basic, dbus_message_iter_next,
      dbus_message_iter_recurse, einval_msg_of, decode_checks, positional_checks,
      first_failure_cons, first_failure_append, first_failure_nil, is_string, is_array,
      string_at, entries_at, hobj, h]

theorem first_failure_of_prefix (pre post : List (Bool × String)) (m : String)
    (hpre : ∀ c ∈ pre, c.1 = false) :
    first_failure (pre ++ (true, m) :: post) = some m := by
  induction pre with
  | nil => simp [first_failure_cons]
  | cons c pre ih =>
    obtain ⟨b, t⟩ := c
    have hb : b = false := hpre (b, t) (List.mem_cons_self _ _)
    have ih' := ih fun d hd => hpre d (List.mem_cons_of_mem _ hd)
    subst hb
    simpa [first_failure_cons] using ih'

theorem first_failure_of_exists (cs : List (Bool × String))
    (h : ∃ c ∈ cs, c.1 = true) : ∃ m, first_failure cs = some m := by
  induction cs with
  | nil =>
    obtain ⟨c, hc, _⟩ := h
    cases hc
  | cons d cs ih =>
    obtain ⟨b, t⟩ := d
    cases b with
    | true => exact ⟨t, by simp [first_failure_cons]⟩
    | false =>
      obtain ⟨c, hc, hc1⟩ := h
      rcases List.mem_cons.mp hc with rfl | hc'
      · cases hc1
      · obtain ⟨m, hm⟩ := ih ⟨c, hc', hc1⟩
        exact ⟨m, by simpa [first_failure_cons] using hm⟩

theorem reported_message_of_caller (ctx : CallerCtx) (username : String)
    (message : List DBusArg) (hcaller : get_caller_username ctx = Except.ok username) :
    reported_message (infp_check_permissions_list ctx message) =
      einval_msg_of (check_permissions_args_list username message) := by
  rw [infp_check_permissions_list_of_caller ctx username message hcaller]
  cases check_permissions_args_list username message <;> rfl

/-- List model: for a caller whose username resolves, the text
`infp_check_permissions_list` reports is that of the earliest failing check in the
fixed order: stream empty, position 0 not a string, position 1 not a string,
object token invalid, position 2 not a string, position 3 not an array, then
for each array entry in order: entry not a struct, field 0 not a string,
action token invalid, field 1 not a string, attribute token invalid, a further
field present; it reports nothing when no check fails, and a check that fails
after checks that all pass fixes the text, whatever the later checks say. -/
theorem infp_check_permissions_list_first_failure (ctx : CallerCtx) (username : String)
    (message : List DBusArg) (hcaller : get_caller_username ctx = Except.ok username) :
    reported_message (infp_check_permissions_list ctx message) =
        first_failure (decode_checks message) ∧
      ∀ (pre post : List (Bool × String)) (m : String),
        decode_checks message = pre ++ (true, m) :: post → (∀ c ∈ pre, c.1 = false) →
          reported_message (infp_check_permissions_list ctx message) = some m := by
  have h : reported_message (infp_check_permissions_list ctx message) =
      first_failure (decode_checks message) := by
    rw [reported_message_of_caller ctx username message hcaller,
      check_permissions_args_list_einval]
  refine ⟨h, ?_⟩
  intro pre post m hsplit hpre
  rw [h, hsplit]
  exact first_failure_of_prefix pre post m hpre

/-- List model: when any decode check fails on the arguments of a caller whose
username resolves, `infp_check_permissions_list` returns EOK with an error reply
named `DBUS_ERROR_INVALID_ARGS` whose text is that of the earliest failing
check, and its reply is no method return, so no permissions array goes out,
also when earlier entries of the array were valid and already evaluated. -/
theorem infp_check_permissions_list_decode_failure (ctx : CallerCtx) (username : String)
    (message : List DBusArg) (hcaller : get_caller_username ctx = Except.ok username)
    (hfail : ∃ c ∈ decode_checks message, c.1 = true) :
    ∃ m : String, first_failure (decode_checks message) = some m ∧
      infp_check_permissions_list ctx message =
        { ret := EOK,
          reply_message := some (ReplyMessage.error DBUS_ERROR_INVALID_ARGS m) } ∧
      ∀ permissions : List Bool,
        (infp_check_permissions_list ctx message).reply_message ≠
          some (ReplyMessage.method_return permissions) := by
  obtain ⟨m, hm⟩ := first_failure_of_exists (decode_checks message) hfail
  have he := check_permissions_args_list_einval username message
  rw [hm] at he
  have hr : infp_check_permissions_list ctx message =
      { ret := EOK,
        reply_message := some (ReplyMessage.error DBUS_ERROR_INVALID_ARGS m) } := by
    rw [infp_check_permissions_list_of_caller ctx username message hcaller]
    cases hc : check_permissions_args_list username message with
    | error e =>
      rw [hc] at he
      simp only [einval_msg_of, Option.some.injEq] at he
      rw [he]
    | ok p =>
      rw [hc] at he
      simp [einval_msg_of] at he
  refine ⟨m, hm, hr, ?_⟩
  intro permissions
  rw [hr]
  simp

/-! ## Decode failures past a valid prefix of the action array -/

theorem check_actions_list_encode_append (username domain : String) (object_type : ObjectType)
    (inst : Option String) (pre : List (String × String)) (rest : List DBusArg)
    (permissions : List Bool)
    (h : ∀ p ∈ pre, get_action_type p.1 ≠ ActionType.INVALID ∧
      get_attribute_type p.2 ≠ AttributeType.INVALID) :
    check_actions_list username domain object_type inst (encode_actions pre ++ rest) permissions =
      check_actions_list username domain object_type inst rest
        (permissions ++ pre.map fun p =>
          infp_get_permissions username domain object_type inst (get_action_type p.1)
            (get_attribute_type p.2)) := by
  induction pre generalizing permissions with
  | nil => simp [encode_actions]
  | cons a pre ih =>
    have ha := h a (List.mem_cons_self _ _)
    have hpre : ∀ p ∈ pre, get_action_type p.1 ≠ ActionType.INVALID ∧
        get_attribute_type p.2 ≠ AttributeType.INVALID :=
      fun p hp => h p (List.mem_cons_of_mem _ hp)
    have ih' := ih (permissions ++ [infp_get_permissions username domain object_type inst
      (get_action_type a.1) (get_attribute_type a.2)]) hpre
    simp only [encode_actions] at ih' ⊢
    simp only [List.map_cons, List.cons_append]
    simp only [check_actions_list, DBusArg.arg_type,
      dbus_message_iter_recurse, dbus_message_iter_get_arg_type, dbus_message_iter_get_basic,
      dbus_message_iter_next, dbus_message_iter_has_next, List.tail_cons, ne_eq,
      not_true_eq_false, if_false, ha.1, ha.2, Bool.false_eq_true, ih', List.append_assoc,
      List.singleton_append]

theorem check_permissions_args_list_past_valid (username domain object inst : String)
    (pre : List (String × String)) (rest extra : List DBusArg)
    (hwf : well_formed object pre) :
    check_permissions_args_list username
        (DBusArg.string domain :: DBusArg.string object :: DBusArg.string inst ::
          DBusArg.array (encode_actions pre ++ rest) :: extra) =
      check_actions_list username domain (get_object_type object) (evaluator_instance inst) rest
        (evaluate_actions username domain object inst pre) := by
  obtain ⟨hobj, hact⟩ := hwf
  have h := check_actions_list_encode_append username domain (get_object_type object)
    (evaluator_instance inst) pre rest [] hact
  simp only [check_permissions_args_list, dbus_message_iter_init,
    dbus_message_iter_get_arg_type, DBusArg.arg_type, dbus_message_iter_get_basic,
    dbus_message_iter_next, dbus_message_iter_recurse, List.tail_cons, ne_eq,
    not_true_eq_false, if_false, hobj, evaluator_instance_eq, h, List.nil_append,
    evaluate_actions]

theorem infp_check_permissions_list_einval (ctx : CallerCtx) (username : String)
    (message : List DBusArg) (einval_msg : String)
    (hcaller : get_caller_username ctx = Except.ok username)
    (hargs : check_permissions_args_list username message = Except.error einval_msg) :
    infp_check_permissions_list ctx message =
      { ret := EOK,
        reply_message := some (ReplyMessage.error DBUS_ERROR_INVALID_ARGS einval_msg) } := by
  rw [infp_check_permissions_list_of_caller ctx username message hcaller, hargs]

/-- List model: for a caller whose username resolves, an empty argument
stream gets the invalid-arguments error whose text is exactly
"No arguments received." (full stop included), and a stream whose position 0
is not a string gets the invalid-arguments error "Expected domain". -/
theorem infp_check_permissions_list_no_domain (ctx : CallerCtx) (username : String)
    (first : DBusArg) (rest : List DBusArg)
    (hcaller : get_caller_username ctx = Except.ok username)
    (hfirst : is_string (some first) = false) :
    infp_check_permissions_list ctx [] =
        { ret := EOK,
          reply_message := some (ReplyMessage.error DBUS_ERROR_INVALID_ARGS
            "No arguments received.") } ∧
      infp_check_permissions_list ctx (first :: rest) =
        { ret := EOK,
          reply_message := some (ReplyMessage.error DBUS_ERROR_INVALID_ARGS
            "Expected domain") } := by
  constructor
  · exact infp_check_permissions_list_einval ctx username [] _ hcaller rfl
  · apply infp_check_permissions_list_einval ctx username _ _ hcaller
    cases first with
    | string s => simp [is_string] at hfirst
    | array es => rfl
    | struct fs => rfl
    | other c => rfl

/-- List model: when the request is well formed up to an entry of the action array
whose field 0 is a string that resolves to no action, the reply is the
invalid-arguments error "Action type [" ++ token ++ "] is not valid"; when
field 0 is a valid action and field 1 a string that resolves to no attribute,
it is "Attribute [" ++ token ++ "] is not valid"; the token stands in the text
as it came. -/
theorem infp_check_permissions_list_invalid_token (ctx : CallerCtx)
    (username domain object inst : String) (pre : List (String × String))
    (token : String) (fields post : List DBusArg)
    (hcaller : get_caller_username ctx = Except.ok username)
    (hwf : well_formed object pre) :
    (get_action_type token = ActionType.INVALID →
        infp_check_permissions_list ctx
            [DBusArg.string domain, DBusArg.string object, DBusArg.string inst,
              DBusArg.array (encode_actions pre ++
                DBusArg.struct (DBusArg.string token :: fields) :: post)] =
          { ret := EOK,
            reply_message := some (ReplyMessage.error DBUS_ERROR_INVALID_ARGS
              ("Action type [" ++ token ++ "] is not valid")) }) ∧
      ∀ action : String, get_action_type action ≠ ActionType.INVALID →
        get_attribute_type token = AttributeType.INVALID →
          infp_check_permissions_list ctx
              [DBusArg.string domain, DBusArg.string object, DBusArg.string inst,
                DBusArg.array (encode_actions pre ++
                  DBusArg.struct (DBusArg.string action :: DBusArg.string token :: fields)
                    :: post)] =
            { ret := EOK,
              reply_message := some (ReplyMessage.error DBUS_ERROR_INVALID_ARGS
                ("Attribute [" ++ token ++ "] is not valid")) } := by
  constructor
  · intro htoken
    apply infp_check_permissions_list_einval ctx username _ _ hcaller
    rw [check_permissions_args_list_past_valid username domain object inst pre _ [] hwf]
    simp only [check_actions_list, DBusArg.arg_type, dbus_message_iter_recurse,
      dbus_message_iter_get_arg_type, dbus_message_iter_get_basic, ne_eq,
      not_true_eq_false, if_false, htoken, if_true]
  · intro action haction htoken
    apply infp_check_permissions_list_einval ctx username _ _ hcaller
    rw [check_permissions_args_list_past_valid username domain object inst pre _ [] hwf]
    simp only [check_actions_list, DBusArg.arg_type, dbus_message_iter_recurse,
      dbus_message_iter_get_arg_type, dbus_message_iter_get_basic, dbus_message_iter_next,
      List.tail_cons, ne_eq, not_true_eq_false, if_false, haction, htoken, if_true]

theorem first_failure_mem (cs : List (Bool × String)) (m : String)
    (h : first_failure cs = some m) : (true, m) ∈ cs := by
  induction cs with
  | nil => simp [first_failure_nil] at h
  | cons c cs ih =>
    obtain ⟨b, t⟩ := c
    cases b with
    | true =>
      simp only [first_failure_cons, if_true, Option.some.injEq] at h
      rw [h]
      exact List.mem_cons_self _ _
    | false =>
      simp only [first_failure_cons, Bool.false_eq_true, if_false] at h
      exact List.mem_cons_of_mem _ (ih h)

theorem action_text_ne_unexpected (token : String) :
    "Action type [" ++ token ++ "] is not valid" ≠ "Unexpected value in action struct" := by
  intro h
  have hd := congrArg String.data h
  simp only [String.data_append] at hd
  simp at hd

theorem attribute_text_ne_unexpected (token : String) :
    "Attribute [" ++ token ++ "] is not valid" ≠ "Unexpected value in action struct" := by
  intro h
  have hd := congrArg String.data h
  simp only [String.data_append] at hd
  simp at hd

theorem unexpected_value_of_entry_check (entry : DBusArg)
    (h : (true, "Unexpected value in action struct") ∈ entry_checks entry) :
    2 < (fields_of entry).length := by
  simp only [entry_checks, field_checks, List.mem_cons, Prod.mk.injEq, List.mem_singleton,
    List.not_mem_nil, or_false] at h
  rcases h with h | h | h | h | h | h
  · exact absurd h.2 (by decide)
  · exact absurd h.2 (by decide)
  · exact absurd h.2.symm (action_text_ne_unexpected _)
  · exact absurd h.2 (by decide)
  · exact absurd h.2.symm (attribute_text_ne_unexpected _)
  · exact of_decide_eq_true h.1.symm

/-- List model: when the request is well formed up to an entry of the action array
whose struct holds a valid action string, a valid attribute string and at
least one further field of any type, the reply is the invalid-arguments error
"Unexpected value in action struct"; and whenever that error is the reply,
some entry of the array has more than two fields, so structs of exactly two
fields never produce it. -/
theorem infp_check_permissions_list_unexpected_value (ctx : CallerCtx)
    (username domain object inst : String) (pre : List (String × String))
    (action attr : String) (third : DBusArg) (fields post message : List DBusArg)
    (hcaller : get_caller_username ctx = Except.ok username)
    (hwf : well_formed object pre)
    (haction : get_action_type action ≠ ActionType.INVALID)
    (hattr : get_attribute_type attr ≠ AttributeType.INVALID) :
    infp_check_permissions_list ctx
        [DBusArg.string domain, DBusArg.string object, DBusArg.string inst,
          DBusArg.array (encode_actions pre ++
            DBusArg.struct (DBusArg.string action :: DBusArg.string attr :: third :: fields)
              :: post)] =
        { ret := EOK,
          reply_message := some (ReplyMessage.error DBUS_ERROR_INVALID_ARGS
            "Unexpected value in action struct") } ∧
      (reported_message (infp_check_permissions_list ctx message) =
          some "Unexpected value in action struct" →
        ∃ entry ∈ entries_at message[3]?, 2 < (fields_of entry).length) := by
  constructor
  · apply infp_check_permissions_list_einval ctx username _ _ hcaller
    rw [check_permissions_args_list_past_valid username domain object inst pre _ [] hwf]
    simp only [check_actions_list, DBusArg.arg_type, dbus_message_iter_recurse,
      dbus_message_iter_get_arg_type, dbus_message_iter_get_basic, dbus_message_iter_next,
      dbus_message_iter_has_next, List.tail_cons, ne_eq, not_true_eq_false, if_false,
      haction, hattr, if_true]
  · intro h
    rw [reported_message_of_caller ctx username message hcaller,
      check_permissions_args_list_einval] at h
    have hmem := first_failure_mem _ _ h
    simp only [decode_checks, List.mem_append, List.mem_flatMap] at hmem
    rcases hmem with hpos | ⟨entry, hentry, hcheck⟩
    · exfalso
      simp only [positional_checks, List.mem_cons, Prod.mk.injEq, List.mem_singleton,
        List.not_mem_nil, or_false] at hpos
      rcases hpos with hp | hp | hp | hp | hp | hp <;> exact absurd hp.2 (by decide)
    · exact ⟨entry, hentry, unexpected_value_of_entry_check entry hcheck⟩

/-! ## The caller, trailing arguments and the empty array -/

/-- List model: when the message has no sender name, or the sender has no uid, or the
uid has no username, `infp_check_permissions_list` returns EIO and leaves no reply
at all, neither a permissions array nor an invalid-arguments error, whatever
the argument stream is. -/
theorem infp_check_permissions_list_unresolved (ctx : CallerCtx) (message : List DBusArg)
    (h : ctx.conn_name = none ∨
      (∃ conn_name, ctx.conn_name = some conn_name ∧ ctx.unix_user conn_name = none) ∨
      ∃ conn_name uid, ctx.conn_name = some conn_name ∧ ctx.unix_user conn_name = some uid ∧
        ctx.username_from_uid uid = none) :
    infp_check_permissions_list ctx message = { ret := EIO, reply_message := none } ∧
      (∀ permissions : List Bool,
        (infp_check_permissions_list ctx message).reply_message ≠
          some (ReplyMessage.method_return permissions)) ∧
      ∀ name text : String,
        (infp_check_permissions_list ctx message).reply_message ≠
          some (ReplyMessage.error name text) := by
  have hcaller : get_caller_username ctx = Except.error EIO := by
    unfold get_caller_username
    rcases h with h | ⟨conn_name, h1, h2⟩ | ⟨conn_name, uid, h1, h2, h3⟩
    · rw [h]
    · rw [h1]
      simp only [h2]
    · rw [h1]
      simp only [h2, h3]
  have hr : infp_check_permissions_list ctx message = { ret := EIO, reply_message := none } := by
    unfold infp_check_permissions_list
    rw [hcaller]
  refine ⟨hr, ?_, ?_⟩
  · intro permissions
    rw [hr]
    simp
  · intro name text
    rw [hr]
    simp

/-- List model: a request with a string domain, a valid object token, a string
instance and an array of no entries gets EOK and a method return whose
permissions array is empty, not an invalid-arguments error; and when the
request is well formed up to an array entry that is no struct, the reply is
the invalid-arguments error "Action array entry was not a struct". -/
theorem infp_check_permissions_list_empty_array (ctx : CallerCtx)
    (username domain object inst : String) (pre : List (String × String))
    (entry : DBusArg) (post : List DBusArg)
    (hcaller : get_caller_username ctx = Except.ok username)
    (hwf : well_formed object pre) (hentry : is_struct entry = false) :
    infp_check_permissions_list ctx
        [DBusArg.string domain, DBusArg.string object, DBusArg.string inst,
          DBusArg.array []] =
        { ret := EOK, reply_message := some (ReplyMessage.method_return []) } ∧
      reported_message (infp_check_permissions_list ctx
        [DBusArg.string domain, DBusArg.string object, DBusArg.string inst,
          DBusArg.array []]) = none ∧
      infp_check_permissions_list ctx
        [DBusArg.string domain, DBusArg.string object, DBusArg.string inst,
          DBusArg.array (encode_actions pre ++ entry :: post)] =
        { ret := EOK,
          reply_message := some (ReplyMessage.error DBUS_ERROR_INVALID_ARGS
            "Action array entry was not a struct") } := by
  have hempty : infp_check_permissions_list ctx
      [DBusArg.string domain, DBusArg.string object, DBusArg.string inst, DBusArg.array []] =
      { ret := EOK, reply_message := some (ReplyMessage.method_return []) } := by
    have hargs := check_permissions_args_list_encode username domain object inst []
      ⟨hwf.1, fun p hp => absurd hp (List.not_mem_nil p)⟩
    simp only [encode_request, encode_actions, List.map_nil, evaluate_actions] at hargs
    rw [infp_check_permissions_list_of_caller ctx username _ hcaller, hargs]
  refine ⟨hempty, ?_, ?_⟩
  · rw [hempty]
    rfl
  · apply infp_check_permissions_list_einval ctx username _ _ hcaller
    rw [check_permissions_args_list_past_valid username domain object inst pre _ [] hwf]
    cases entry with
    | struct fs => simp [is_struct] at hentry
    | string s => simp [check_actions_list, DBusArg.arg_type]
    | array es => simp [check_actions_list, DBusArg.arg_type]
    | other c => simp [check_actions_list, DBusArg.arg_type]

/-! ## The instance handed to the evaluator -/

theorem check_actions_list_with_eq (username domain : String) (object_type : ObjectType)
    (inst : Option String) (entries : List DBusArg) (permissions : List Bool) :
    check_actions_list_with infp_get_permissions username domain object_type inst entries
        permissions =
      check_actions_list username domain object_type inst entries permissions := by
  induction entries generalizing permissions with
  | nil => rfl
  | cons entry rest ih =>
    unfold check_actions_list_with check_actions_list
    simp only [ih]

theorem infp_check_permissions_list_with_eq (ctx : CallerCtx) (message : List DBusArg) :
    infp_check_permissions_list_with infp_get_permissions ctx message =
      infp_check_permissions_list ctx message := by
  unfold infp_check_permissions_list_with infp_check_permissions_list check_permissions_args_list_with
    check_permissions_args_list
  simp only [check_actions_list_with_eq]

theorem check_actions_list_with_encode (evaluator : Evaluator) (username domain : String)
    (object_type : ObjectType) (inst : Option String) (actions : List (String × String))
    (permissions : List Bool)
    (h : ∀ p ∈ actions, get_action_type p.1 ≠ ActionType.INVALID ∧
      get_attribute_type p.2 ≠ AttributeType.INVALID) :
    check_actions_list_with evaluator username domain object_type inst (encode_actions actions)
        permissions =
      Except.ok (permissions ++ actions.map fun p =>
        evaluator username domain object_type inst (get_action_type p.1)
          (get_attribute_type p.2)) := by
  induction actions generalizing permissions with
  | nil => simp [encode_actions, check_actions_list_with]
  | cons a rest ih =>
    have ha := h a (List.mem_cons_self _ _)
    have hrest : ∀ p ∈ rest, get_action_type p.1 ≠ ActionType.INVALID ∧
        get_attribute_type p.2 ≠ AttributeType.INVALID :=
      fun p hp => h p (List.mem_cons_of_mem _ hp)
    have ih' := ih (permissions ++ [evaluator username domain object_type inst
      (get_action_type a.1) (get_attribute_type a.2)]) hrest
    simp only [encode_actions] at ih' ⊢
    simp only [List.map_cons, check_actions_list_with, DBusArg.arg_type, dbus_message_iter_recurse,
      dbus_message_iter_get_arg_type, dbus_message_iter_get_basic, dbus_message_iter_next,
      dbus_message_iter_has_next, List.tail_cons, ne_eq, not_true_eq_false, if_false, ha.1,
      ha.2, Bool.false_eq_true, ih', List.append_assoc, List.singleton_append]

theorem infp_check_permissions_list_with_encode (evaluator : Evaluator) (ctx : CallerCtx)
    (username domain object inst : String) (actions : List (String × String))
    (hcaller : get_caller_username ctx = Except.ok username)
    (hwf : well_formed object actions) :
    infp_check_permissions_list_with evaluator ctx (encode_request domain object inst actions) =
      { ret := EOK,
        reply_message := some (ReplyMessage.method_return
          (actions.map fun p => evaluator username domain (get_object_type object)
            (evaluator_instance inst) (get_action_type p.1) (get_attribute_type p.2))) } := by
  obtain ⟨hobj, hact⟩ := hwf
  have h := check_actions_list_with_encode evaluator username domain (get_object_type object)
    (evaluator_instance inst) actions [] hact
  unfold infp_check_permissions_list_with
  rw [hcaller]
  simp only [check_permissions_args_list_with, encode_request, dbus_message_iter_init,
    dbus_message_iter_get_arg_type, DBusArg.arg_type, dbus_message_iter_get_basic,
    dbus_message_iter_next, dbus_message_iter_recurse, List.tail_cons, ne_eq,
    not_true_eq_false, if_false, hobj, evaluator_instance_eq, h, List.nil_append]

/-- List model: whatever function stands at the call of line 483, on a well-formed
request of a resolved caller it is called once per entry with the instance
absent when the wire instance is the empty string and with the wire string
itself when it is not empty; so a request with instance "" gets the reply of
the evaluator called with no instance, and this holds for
`infp_check_permissions_list`, which is the handler with `infp_get_permissions` at
that call. -/
theorem infp_check_permissions_list_instance (evaluator : Evaluator) (ctx : CallerCtx)
    (username domain object inst : String) (actions : List (String × String))
    (hcaller : get_caller_username ctx = Except.ok username)
    (hwf : well_formed object actions) :
    (inst = "" →
        infp_check_permissions_list_with evaluator ctx (encode_request domain object inst actions) =
          { ret := EOK,
            reply_message := some (ReplyMessage.method_return
              (actions.map fun p => evaluator username domain (get_object_type object)
                none (get_action_type p.1) (get_attribute_type p.2))) }) ∧
      (inst ≠ "" →
        infp_check_permissions_list_with evaluator ctx (encode_request domain object inst actions) =
          { ret := EOK,
            reply_message := some (ReplyMessage.method_return
              (actions.map fun p => evaluator username domain (get_object_type object)
                (some inst) (get_action_type p.1) (get_attribute_type p.2))) }) ∧
      (actions ≠ [] →
        (infp_check_permissions_list_with no_instance_evaluator ctx
            (encode_request domain object inst actions) =
          { ret := EOK,
            reply_message := some (ReplyMessage.method_return
              (actions.map fun _ => true)) } ↔ inst = "")) ∧
      infp_check_permissions_list ctx (encode_request domain object inst actions) =
        infp_check_permissions_list_with infp_get_permissions ctx
          (encode_request domain object inst actions) ∧
      (inst = "" →
        infp_check_permissions_list ctx (encode_request domain object inst actions) =
          { ret := EOK,
            reply_message := some (ReplyMessage.method_return
              (actions.map fun p => infp_get_permissions username domain
                (get_object_type object) none (get_action_type p.1)
                (get_attribute_type p.2))) }) := by
  have h := fun ev => infp_check_permissions_list_with_encode ev ctx username domain object inst
    actions hcaller hwf
  refine ⟨?_, ?_, ?_, ?_, ?_⟩
  · intro hinst
    rw [h evaluator]
    simp [evaluator_instance, hinst]
  · intro hinst
    rw [h evaluator]
    simp [evaluator_instance, hinst]
  · intro hne
    rw [h no_instance_evaluator]
    obtain ⟨a, rest, rfl⟩ := List.exists_cons_of_ne_nil hne
    by_cases hinst : inst = "" <;> simp [evaluator_instance, no_instance_evaluator, hinst]
  · exact (infp_check_permissions_list_with_eq ctx _).symm
  · intro hinst
    rw [← infp_check_permissions_list_with_eq, h infp_get_permissions]
    simp [evaluator_instance, hinst]

/-! ## `Introspect` -/

theorem fread_full (size : Nat) (xml_stream : List Char) (h : size ≤ xml_stream.length) :
    (fread size xml_stream).1.length = size := by
  simp [fread, List.length_take, h]

theorem fread_short (size : Nat) (xml_stream : List Char) (h : xml_stream.length < size) :
    (fread size xml_stream).1 = xml_stream ∧ (fread size xml_stream).1.length ≠ size := by
  have hle : xml_stream.length ≤ size := Nat.le_of_lt h
  constructor
  · simp [fread, List.take_of_length_le hle]
  · simp only [fread, List.length_take]
    omega

theorem read_loop_whole (size : Nat) (talloc_realloc_size : Nat → Bool) (hsize : 0 < size)
    (hrealloc : ∀ k, talloc_realloc_size k = true) (fuel : Nat) (xml_stream : List Char)
    (introspect_xml : List Char) (calls : Nat) (hfuel : xml_stream.length / size < fuel) :
    read_loop size talloc_realloc_size fuel xml_stream introspect_xml calls =
      some (some (introspect_xml ++ xml_stream), calls + xml_stream.length / size + 1) := by
  induction fuel generalizing xml_stream introspect_xml calls with
  | zero => exact absurd hfuel (Nat.not_lt_zero _)
  | succ fuel ih =>
    unfold read_loop
    simp only [hrealloc, Bool.true_eq_false, if_false]
    by_cases hfull : size ≤ xml_stream.length
    · have hdiv : xml_stream.length / size = (xml_stream.length - size) / size + 1 :=
        Nat.div_eq_sub_div hsize hfull
      have hdrop : (fread size xml_stream).2.length = xml_stream.length - size := by
        simp [fread]
      rw [if_pos (fread_full size xml_stream hfull), ih _ _ _ (by rw [hdrop]; omega)]
      simp only [fread, List.append_assoc, List.take_append_drop, List.length_drop] at *
      rw [hdiv]
      congr 2
      omega
    · have hlt : xml_stream.length < size := Nat.lt_of_not_le hfull
      obtain ⟨hchunk, hne⟩ := fread_short size xml_stream hlt
      rw [if_neg hne, hchunk, Nat.div_eq_of_lt hlt]

theorem read_loop_enomem (size : Nat) (talloc_realloc_size : Nat → Bool) (hsize : 0 < size)
    (fuel : Nat) (xml_stream : List Char) (introspect_xml : List Char) (calls : Nat)
    (hfuel : xml_stream.length / size < fuel)
    (hfail : ∃ k, calls ≤ k ∧ k ≤ calls + xml_stream.length / size ∧
      talloc_realloc_size k = false) :
    ∃ fread_calls,
      read_loop size talloc_realloc_size fuel xml_stream introspect_xml calls =
        some (none, fread_calls) := by
  induction fuel generalizing xml_stream introspect_xml calls with
  | zero => exact absurd hfuel (Nat.not_lt_zero _)
  | succ fuel ih =>
    unfold read_loop
    by_cases hnow : talloc_realloc_size calls = false
    · exact ⟨calls + 1, by simp only [hnow, if_true]⟩
    · obtain ⟨k, hk1, hk2, hk3⟩ := hfail
      have hkne : k ≠ calls := fun h => hnow (h ▸ hk3)
      simp only [hnow, if_false]
      by_cases hfull : size ≤ xml_stream.length
      · have hdiv : xml_stream.length / size = (xml_stream.length - size) / size + 1 :=
          Nat.div_eq_sub_div hsize hfull
        have hdrop : (fread size xml_stream).2.length = xml_stream.length - size := by
          simp [fread]
        rw [if_pos (fread_full size xml_stream hfull)]
        apply ih
        · rw [hdrop]
          omega
        · refine ⟨k, ?_, ?_, hk3⟩
          · omega
          · rw [hdrop]
            omega
      · have hlt : xml_stream.length < size := Nat.lt_of_not_le hfull
        rw [Nat.div_eq_of_lt hlt] at hk2
        omega

theorem infp_introspect_sized_good (size fuel : Nat) (env : IntrospectEnv) (document : String)
    (hsize : 0 < size) (hfuel : document.length / size < fuel)
    (hnew : env.talloc_new = true) (hopen : env.fopen = Except.ok document)
    (hchunk : env.talloc_size = true) (hrealloc : ∀ k, env.talloc_realloc_size k = true)
    (hreturn : env.dbus_message_new_method_return = true)
    (happend : env.dbus_message_append_args = true) :
    infp_introspect_sized size fuel env none =
      some { ret := EOK,
             reply_message := some (IntrospectReply.method_return (some (c_string document.data))),
             introspection_xml := some (c_string document.data),
             fopen_calls := 1,
             fread_calls := document.length / size + 1 } := by
  have hloop := read_loop_whole size env.talloc_realloc_size hsize hrealloc fuel document.data
    [] 0 hfuel
  unfold infp_introspect_sized
  simp only [hnew, hopen, hchunk, Bool.true_eq_false, if_false, hloop, introspect_reply,
    hreturn, happend, List.nil_append, Nat.zero_add]
  rfl

theorem c_string_whole (document : String) (hnul : Char.ofNat 0 ∉ document.data) :
    c_string document.data = document := by
  unfold c_string
  have h : document.data.takeWhile (fun c => c != Char.ofNat 0) = document.data := by
    rw [List.takeWhile_eq_self_iff]
    intro c hc
    simp only [bne_iff_ne, ne_eq]
    intro h0
    exact hnul (h0 ▸ hc)
  rw [h]

theorem c_string_no_nul (bytes : List Char) : Char.ofNat 0 ∉ (c_string bytes).data := by
  unfold c_string
  intro h
  have h1 := List.mem_takeWhile_imp h
  simp at h1

theorem c_string_append (bytes rest : List Char) (hnul : Char.ofNat 0 ∉ bytes) :
    c_string (bytes ++ Char.ofNat 0 :: rest) = String.mk bytes := by
  unfold c_string
  congr 1
  induction bytes with
  | nil => simp [List.takeWhile]
  | cons c cs ih =>
    have hc : c ≠ Char.ofNat 0 := fun h => hnul (h ▸ List.mem_cons_self _ _)
    have hcs : Char.ofNat 0 ∉ cs := fun h => hnul (List.mem_cons_of_mem _ h)
    have hb : (c != Char.ofNat 0) = true := by simp [hc]
    rw [List.cons_append, List.takeWhile_cons, hb, if_pos rfl, ih hcs]

theorem introspect_reply_cache (env : IntrospectEnv) (introspect_xml : String)
    (fopen_calls fread_calls : Nat) :
    (introspect_reply env introspect_xml fopen_calls fread_calls).introspection_xml =
        some introspect_xml ∧
      (introspect_reply env introspect_xml fopen_calls fread_calls).fopen_calls =
        fopen_calls ∧
      (introspect_reply env introspect_xml fopen_calls fread_calls).fread_calls =
        fread_calls ∧
      ∀ xml, returned_xml (introspect_reply env introspect_xml fopen_calls fread_calls) =
        some xml → xml = introspect_xml := by
  unfold introspect_reply
  cases env.dbus_message_new_method_return <;> cases env.dbus_message_append_args <;>
    simp [returned_xml]

theorem introspect_reply_ok (env : IntrospectEnv) (introspect_xml : String)
    (fopen_calls fread_calls : Nat) (hreturn : env.dbus_message_new_method_return = true)
    (happend : env.dbus_message_append_args = true) :
    introspect_reply env introspect_xml fopen_calls fread_calls =
      { ret := EOK,
        reply_message := some (IntrospectReply.method_return (some introspect_xml)),
        introspection_xml := some introspect_xml,
        fopen_calls := fopen_calls, fread_calls := fread_calls } := by
  simp [introspect_reply, hreturn, happend]

theorem infp_introspect_populated (fuel : Nat) (env : IntrospectEnv) (document : String) :
    ∃ later, infp_introspect fuel env (some document) = some later ∧
      later.introspection_xml = some document ∧ later.fopen_calls = 0 ∧
      later.fread_calls = 0 ∧
      (∀ xml, returned_xml later = some xml → xml = document) ∧
      (env.talloc_new = true → env.dbus_message_new_method_return = true →
        env.dbus_message_append_args = true →
        later.ret = EOK ∧ returned_xml later = some document) := by
  cases hnew : env.talloc_new with
  | false =>
    refine ⟨{ ret := ENOMEM, reply_message := none, introspection_xml := some document,
              fopen_calls := 0, fread_calls := 0 }, ?_, rfl, rfl, rfl, ?_, ?_⟩
    · simp [infp_introspect, infp_introspect_sized, hnew]
    · intro xml h
      simp [returned_xml] at h
    · intro h
      cases h
  | true =>
    obtain ⟨h1, h2, h3, h4⟩ := introspect_reply_cache env document 0 0
    refine ⟨introspect_reply env document 0 0, ?_, h1, h2, h3, h4, ?_⟩
    · simp [infp_introspect, infp_introspect_sized, hnew]
    · intro _ hreturn happend
      rw [introspect_reply_ok env document 0 0 hreturn happend]
      exact ⟨rfl, rfl⟩

theorem infp_introspect_populating (fuel : Nat) (env : IntrospectEnv)
    (first : IntrospectResult) (document : String)
    (hfirst : infp_introspect fuel env none = some first)
    (hcache : first.introspection_xml = some document) :
    ∀ xml, returned_xml first = some xml → xml = document := by
  unfold infp_introspect infp_introspect_sized at hfirst
  cases hnew : env.talloc_new with
  | false =>
    simp [hnew] at hfirst
    subst hfirst
    simp at hcache
  | true =>
    cases hopen : env.fopen with
    | error errno =>
      simp [hnew, hopen] at hfirst
      subst hfirst
      simp at hcache
    | ok source =>
      cases hchunk : env.talloc_size with
      | false =>
        simp [hnew, hopen, hchunk] at hfirst
        subst hfirst
        simp at hcache
      | true =>
        cases hloop : read_loop INTROSPECT_CHUNK_SIZE env.talloc_realloc_size fuel source.data
            [] 0 with
        | none => simp [hnew, hopen, hchunk, hloop] at hfirst
        | some r =>
          obtain ⟨buffer, fread_calls⟩ := r
          cases buffer with
          | none =>
            simp [hnew, hopen, hchunk, hloop] at hfirst
            subst hfirst
            simp at hcache
          | some introspect_xml =>
            simp [hnew, hopen, hchunk, hloop] at hfirst
            obtain ⟨h1, _, _, h4⟩ :=
              introspect_reply_cache env (c_string introspect_xml) 1 fread_calls
            rw [hfirst] at h1 h4
            rw [h1] at hcache
            cases hcache
            exact h4

theorem introspect_calls_populated (calls : List (Nat × IntrospectEnv)) (document : String) :
    ∀ r ∈ introspect_calls calls (some document),
      ∃ later, r = some later ∧ later.introspection_xml = some document ∧
        later.fopen_calls = 0 ∧ later.fread_calls = 0 ∧
        ∀ xml, returned_xml later = some xml → xml = document := by
  induction calls with
  | nil =>
    intro r hr
    cases hr
  | cons c rest ih =>
    obtain ⟨fuel, env⟩ := c
    obtain ⟨later, h0, h1, h2, h3, h4, _⟩ := infp_introspect_populated fuel env document
    intro r hr
    simp only [introspect_calls, h0, h1, List.mem_cons] at hr
    rcases hr with hr | hr
    · exact ⟨later, hr, h1, h2, h3, h4⟩
    · exact ih r hr

/-- C15: once a call of `infp_introspect` on the empty cache has left a
document in `introspection_xml`, the string that call returned is that
document, and every later call, in whatever environment, returns that same
document when it returns a string (it does, with EOK, when its allocations
succeed), never opens or reads the source, gives the same result whatever the
source then is, and leaves the cached document as it was; so it is for every
call of any run of later calls. -/
theorem infp_introspect_idempotent (fuel0 fuel : Nat) (env0 env : IntrospectEnv)
    (first : IntrospectResult) (document : String) (source : Except Nat String)
    (calls : List (Nat × IntrospectEnv))
    (hfirst : infp_introspect fuel0 env0 none = some first)
    (hcache : first.introspection_xml = some document) :
    (∀ xml, returned_xml first = some xml → xml = document) ∧
      (∃ later, infp_introspect fuel env (some document) = some later ∧
        later.introspection_xml = some document ∧ later.fopen_calls = 0 ∧
        later.fread_calls = 0 ∧
        (∀ xml, returned_xml later = some xml → xml = document) ∧
        (env.talloc_new = true → env.dbus_message_new_method_return = true →
          env.dbus_message_append_args = true →
          later.ret = EOK ∧ returned_xml later = some document)) ∧
      infp_introspect fuel { env with fopen := source } (some document) =
        infp_introspect fuel env (some document) ∧
      ∀ r ∈ introspect_calls calls (some document),
        ∃ later, r = some later ∧ later.introspection_xml = some document ∧
          later.fopen_calls = 0 ∧ later.fread_calls = 0 ∧
          ∀ xml, returned_xml later = some xml → xml = document :=
  ⟨infp_introspect_populating fuel0 env0 first document hfirst hcache,
    infp_introspect_populated fuel env document, rfl,
    introspect_calls_populated calls document⟩

/-- Witness for C15: the first call reads "<node/>"; the later call runs
with no fuel after the document was replaced, and after it was removed. -/
theorem infp_introspect_idempotent_witness :
    infp_introspect 1 (good_env "<node/>") none =
        some { ret := EOK,
               reply_message := some (IntrospectReply.method_return (some "<node/>")),
               introspection_xml := some "<node/>", fopen_calls := 1, fread_calls := 1 } ∧
      infp_introspect 0 { good_env "<other/>" with fopen := Except.error 2 } (some "<node/>") =
        infp_introspect 0 (good_env "<other/>") (some "<node/>") ∧
      infp_introspect 0 (good_env "<other/>") (some "<node/>") =
        some { ret := EOK,
               reply_message := some (IntrospectReply.method_return (some "<node/>")),
               introspection_xml := some "<node/>", fopen_calls := 0, fread_calls := 0 } :=
  ⟨by decide,
    (infp_introspect_idempotent 1 0 (good_env "<node/>") (good_env "<other/>")
      { ret := EOK,
        reply_message := some (IntrospectReply.method_return (some "<node/>")),
        introspection_xml := some "<node/>", fopen_calls := 1, fread_calls := 1 }
      "<node/>" (Except.error 2) [] (by decide) rfl).2.2.1,
    by decide⟩

/-- C16, the claim as stated fails: of a document with a NUL byte,
here the five bytes a, b, NUL, c, d, the call stores and returns the two
bytes before the NUL, not the whole content. -/
theorem infp_introspect_nul_counterexample :
    infp_introspect 1 (good_env (String.mk ['a', 'b', Char.ofNat 0, 'c', 'd'])) none =
        some { ret := EOK,
               reply_message := some (IntrospectReply.method_return (some "ab")),
               introspection_xml := some "ab",
               fopen_calls := 1,
               fread_calls := 1 } ∧
      "ab" ≠ String.mk ['a', 'b', Char.ofNat 0, 'c', 'd'] := by
  decide

/-- C16, amended: for every document and every chunk size above 0, the read
loop of `infp_introspect` on the empty cache ends within length / size + 1
iterations, whatever the chunk size, so also for the 4096 of
`INTROSPECT_CHUNK_SIZE`, for the empty document and for a length that is a
multiple of the chunk size; the document the call stores and returns is the
content of the source before its first NUL byte, which is the whole content
when the content has no NUL byte. -/
theorem infp_introspect_whole_document (size fuel : Nat) (env : IntrospectEnv)
    (document : String) (hsize : 0 < size)
    (hnew : env.talloc_new = true) (hopen : env.fopen = Except.ok document)
    (hchunk : env.talloc_size = true) (hrealloc : ∀ k, env.talloc_realloc_size k = true)
    (hreturn : env.dbus_message_new_method_return = true)
    (happend : env.dbus_message_append_args = true) :
    (document.length / size < fuel →
        infp_introspect_sized size fuel env none =
          some { ret := EOK,
                 reply_message :=
                   some (IntrospectReply.method_return (some (c_string document.data))),
                 introspection_xml := some (c_string document.data),
                 fopen_calls := 1,
                 fread_calls := document.length / size + 1 }) ∧
      (document.length / INTROSPECT_CHUNK_SIZE < fuel →
        infp_introspect fuel env none =
          some { ret := EOK,
                 reply_message :=
                   some (IntrospectReply.method_return (some (c_string document.data))),
                 introspection_xml := some (c_string document.data),
                 fopen_calls := 1,
                 fread_calls := document.length / INTROSPECT_CHUNK_SIZE + 1 }) ∧
      (Char.ofNat 0 ∉ document.data → document.length / size < fuel →
        infp_introspect_sized size fuel env none =
          some { ret := EOK,
                 reply_message := some (IntrospectReply.method_return (some document)),
                 introspection_xml := some document,
                 fopen_calls := 1,
                 fread_calls := document.length / size + 1 }) ∧
      (Char.ofNat 0 ∉ document.data → document.length / INTROSPECT_CHUNK_SIZE < fuel →
        infp_introspect fuel env none =
          some { ret := EOK,
                 reply_message := some (IntrospectReply.method_return (some document)),
                 introspection_xml := some document,
                 fopen_calls := 1,
                 fread_calls := document.length / INTROSPECT_CHUNK_SIZE + 1 }) ∧
      (∀ before rest, Char.ofNat 0 ∉ before →
        document.data = before ++ Char.ofNat 0 :: rest →
        c_string document.data = String.mk before) := by
  refine ⟨?_, ?_, ?_, ?_, ?_⟩
  · intro hfuel
    exact infp_introspect_sized_good size fuel env document hsize hfuel hnew hopen hchunk
      hrealloc hreturn happend
  · intro hfuel
    exact infp_introspect_sized_good INTROSPECT_CHUNK_SIZE fuel env document (by decide) hfuel
      hnew hopen hchunk hrealloc hreturn happend
  · intro hnul hfuel
    have h := infp_introspect_sized_good size fuel env document hsize hfuel hnew hopen hchunk
      hrealloc hreturn happend
    rw [c_string_whole document hnul] at h
    exact h
  · intro hnul hfuel
    have h := infp_introspect_sized_good INTROSPECT_CHUNK_SIZE fuel env document (by decide)
      hfuel hnew hopen hchunk hrealloc hreturn happend
    rw [c_string_whole document hnul] at h
    exact h
  · intro before rest hnul hdata
    rw [hdata]
    exact c_string_append before rest hnul

/-- Witness for C16: chunks of 4 bytes on the empty document, on a document of
8 bytes and on one of 7 bytes, the chunk of 4096 bytes on "<node/>", and
chunks of 2 bytes on the five bytes a, b, NUL, c, d. -/
theorem infp_introspect_whole_document_witness :
    infp_introspect_sized 4 1 (good_env "") none =
        some { ret := EOK, reply_message := some (IntrospectReply.method_return (some "")),
               introspection_xml := some "", fopen_calls := 1,
               fread_calls := "".length / 4 + 1 } ∧
      infp_introspect_sized 4 3 (good_env "abcdefgh") none =
        some { ret := EOK,
               reply_message := some (IntrospectReply.method_return (some "abcdefgh")),
               introspection_xml := some "abcdefgh", fopen_calls := 1,
               fread_calls := "abcdefgh".length / 4 + 1 } ∧
      infp_introspect_sized 4 2 (good_env "<node/>") none =
        some { ret := EOK,
               reply_message := some (IntrospectReply.method_return (some "<node/>")),
               introspection_xml := some "<node/>", fopen_calls := 1,
               fread_calls := "<node/>".length / 4 + 1 } ∧
      infp_introspect 1 (good_env "<node/>") none =
        some { ret := EOK,
               reply_message := some (IntrospectReply.method_return (some "<node/>")),
               introspection_xml := some "<node/>", fopen_calls := 1,
               fread_calls := "<node/>".length / INTROSPECT_CHUNK_SIZE + 1 } ∧
      infp_introspect_sized 2 3 (good_env (String.mk ['a', 'b', Char.ofNat 0, 'c', 'd']))
          none =
        some { ret := EOK,
               reply_message := some (IntrospectReply.method_return (some "ab")),
               introspection_xml := some "ab", fopen_calls := 1,
               fread_calls := 3 } :=
  ⟨(infp_introspect_whole_document 4 1 (good_env "") "" (by decide) rfl rfl rfl
      (fun _ => rfl) rfl rfl).2.2.1 (by decide) (by decide),
    (infp_introspect_whole_document 4 3 (good_env "abcdefgh") "abcdefgh" (by decide) rfl rfl
      rfl (fun _ => rfl) rfl rfl).2.2.1 (by decide) (by decide),
    (infp_introspect_whole_document 4 2 (good_env "<node/>") "<node/>" (by decide) rfl rfl
      rfl (fun _ => rfl) rfl rfl).2.2.1 (by decide) (by decide),
    (infp_introspect_whole_document 4 1 (good_env "<node/>") "<node/>" (by decide) rfl rfl
      rfl (fun _ => rfl) rfl rfl).2.2.2.1 (by decide) (by decide),
    (infp_introspect_whole_document 2 3
      (good_env (String.mk ['a', 'b', Char.ofNat 0, 'c', 'd']))
      (String.mk ['a', 'b', Char.ofNat 0, 'c', 'd']) (by decide) rfl rfl
      rfl (fun _ => rfl) rfl rfl).1 (by decide)⟩

theorem string_length_data (s : String) : s.length = s.data.length := by
  cases s
  rfl

theorem ENOMEM_ne_EOK : ENOMEM ≠ EOK := by decide

theorem infp_introspect_sized_read_failure (size fuel : Nat) (env : IntrospectEnv)
    (hsize : 0 < size) (hfails : read_fails size env)
    (hfuel : source_length env / size < fuel) :
    ∃ result, infp_introspect_sized size fuel env none = some result ∧
      result.ret ≠ EOK ∧ result.reply_message = none ∧ result.introspection_xml = none ∧
      (env.talloc_new = true → result.fopen_calls = 1) ∧
      ∀ errno, env.talloc_new = true → env.fopen = Except.error errno →
        result.ret = errno := by
  cases hnew : env.talloc_new with
  | false =>
    refine ⟨{ ret := ENOMEM, reply_message := none, introspection_xml := none,
              fopen_calls := 0, fread_calls := 0 }, ?_, ENOMEM_ne_EOK, rfl, rfl, ?_, ?_⟩
    · simp [infp_introspect_sized, hnew]
    · intro h
      cases h
    · intro errno h
      cases h
  | true =>
    rcases hfails with ⟨errno, herrno, hopen⟩ | ⟨document, hopen, hbuf⟩
    · refine ⟨{ ret := errno, reply_message := none, introspection_xml := none,
                fopen_calls := 1, fread_calls := 0 }, ?_, herrno, rfl, rfl, fun _ => rfl, ?_⟩
      · simp [infp_introspect_sized, hnew, hopen]
      · intro errno2 _ hopen2
        rw [hopen] at hopen2
        cases hopen2
        rfl
    · cases hchunk : env.talloc_size with
      | false =>
        refine ⟨{ ret := ENOMEM, reply_message := none, introspection_xml := none,
                  fopen_calls := 1, fread_calls := 0 }, ?_, ENOMEM_ne_EOK, rfl, rfl,
          fun _ => rfl, ?_⟩
        · simp [infp_introspect_sized, hnew, hopen, hchunk]
        · intro errno _ hopen2
          rw [hopen] at hopen2
          cases hopen2
      | true =>
        rcases hbuf with hbuf | ⟨k, hk, hrealloc⟩
        · rw [hchunk] at hbuf
          cases hbuf
        · have hlen : source_length env = document.data.length := by
            unfold source_length
            rw [hopen]
            exact string_length_data document
          rw [hlen] at hfuel
          rw [string_length_data] at hk
          obtain ⟨fread_calls, hloop⟩ := read_loop_enomem size env.talloc_realloc_size hsize
            fuel document.data [] 0 hfuel ⟨k, Nat.zero_le _, by omega, hrealloc⟩
          refine ⟨{ ret := ENOMEM, reply_message := none, introspection_xml := none,
                    fopen_calls := 1, fread_calls := fread_calls }, ?_, ENOMEM_ne_EOK, rfl,
            rfl, fun _ => rfl, ?_⟩
          · simp [infp_introspect_sized, hnew, hopen, hchunk, hloop]
          · intro errno _ hopen2
            rw [hopen] at hopen2
            cases hopen2

theorem infp_introspect_empty_opens (fuel : Nat) (env : IntrospectEnv)
    (result : IntrospectResult) (hnew : env.talloc_new = true)
    (h : infp_introspect fuel env none = some result) : result.fopen_calls = 1 := by
  unfold infp_introspect infp_introspect_sized at h
  cases hopen : env.fopen with
  | error errno =>
    simp [hnew, hopen] at h
    subst h
    rfl
  | ok source =>
    cases hchunk : env.talloc_size with
    | false =>
      simp [hnew, hopen, hchunk] at h
      subst h
      rfl
    | true =>
      cases hloop : read_loop INTROSPECT_CHUNK_SIZE env.talloc_realloc_size fuel source.data
          [] 0 with
      | none => simp [hnew, hopen, hchunk, hloop] at h
      | some r =>
        obtain ⟨buffer, fread_calls⟩ := r
        cases buffer with
        | none =>
          simp [hnew, hopen, hchunk, hloop] at h
          subst h
          rfl
        | some introspect_xml =>
          simp [hnew, hopen, hchunk, hloop] at h
          subst h
          exact (introspect_reply_cache env (c_string introspect_xml) 1 fread_calls).2.1

/-- C17: when `infp_introspect` is called on the empty cache and reading the
source fails, because the document cannot be opened or because the chunk or
a growth of the buffer cannot be allocated, the call returns a code other
than EOK, which is the `errno` of the open when it is the open that failed,
sets no reply and leaves the cache empty; a later call on that cache opens
the source again, and when nothing fails then it reads the document to its
end and stores and returns the C string of it. -/
theorem infp_introspect_read_failure (fuel later_fuel : Nat) (env later_env : IntrospectEnv)
    (document : String)
    (hfails : read_fails INTROSPECT_CHUNK_SIZE env)
    (hfuel : source_length env / INTROSPECT_CHUNK_SIZE < fuel) :
    ∃ result, infp_introspect fuel env none = some result ∧
      result.ret ≠ EOK ∧ result.reply_message = none ∧ result.introspection_xml = none ∧
      (env.talloc_new = true → result.fopen_calls = 1) ∧
      (∀ errno, env.talloc_new = true → env.fopen = Except.error errno →
        result.ret = errno) ∧
      (∀ later, later_env.talloc_new = true →
        infp_introspect later_fuel later_env result.introspection_xml = some later →
        later.fopen_calls = 1) ∧
      (document.length / INTROSPECT_CHUNK_SIZE < later_fuel →
        infp_introspect later_fuel (good_env document) result.introspection_xml =
          some { ret := EOK,
                 reply_message := some (IntrospectReply.method_return (some (c_string document.data))),
                 introspection_xml := some (c_string document.data),
                 fopen_calls := 1,
                 fread_calls := document.length / INTROSPECT_CHUNK_SIZE + 1 }) := by
  obtain ⟨result, h0, h1, h2, h3, h4, h5⟩ :=
    infp_introspect_sized_read_failure INTROSPECT_CHUNK_SIZE fuel env (by decide) hfails hfuel
  refine ⟨result, h0, h1, h2, h3, h4, h5, ?_, ?_⟩
  · intro later hnew hlater
    rw [h3] at hlater
    exact infp_introspect_empty_opens later_fuel later_env later hnew hlater
  · intro hlater
    rw [h3]
    exact infp_introspect_sized_good INTROSPECT_CHUNK_SIZE later_fuel (good_env document)
      document (by decide) hlater rfl rfl rfl (fun _ => rfl) rfl rfl

/-- Witness for C17: the document cannot be opened (errno 2), and the first
growth of the buffer fails. -/
theorem infp_introspect_read_failure_witness :
    read_fails INTROSPECT_CHUNK_SIZE { good_env "" with fopen := Except.error 2 } ∧
      source_length { good_env "" with fopen := Except.error 2 } / INTROSPECT_CHUNK_SIZE < 1 ∧
      read_fails INTROSPECT_CHUNK_SIZE
        { good_env "<node/>" with talloc_realloc_size := fun _ => false } ∧
      source_length { good_env "<node/>" with talloc_realloc_size := fun _ => false } /
        INTROSPECT_CHUNK_SIZE < 1 ∧
      (∃ result,
        infp_introspect 1 { good_env "" with fopen := Except.error 2 } none = some result ∧
          result.ret ≠ EOK ∧ result.reply_message = none ∧
          result.introspection_xml = none) ∧
      (∃ result,
        infp_introspect 1 { good_env "<node/>" with talloc_realloc_size := fun _ => false }
            none = some result ∧
          result.ret ≠ EOK ∧ result.reply_message = none ∧
          result.introspection_xml = none) ∧
      infp_introspect 1 { good_env "" with fopen := Except.error 2 } none =
        some { ret := 2, reply_message := none, introspection_xml := none,
               fopen_calls := 1, fread_calls := 0 } ∧
      infp_introspect 1 { good_env "<node/>" with talloc_realloc_size := fun _ => false }
          none =
        some { ret := ENOMEM, reply_message := none, introspection_xml := none,
               fopen_calls := 1, fread_calls := 1 } :=
  ⟨Or.inl ⟨2, by decide, rfl⟩, by decide,
    Or.inr ⟨"<node/>", rfl, Or.inr ⟨0, by decide, rfl⟩⟩, by decide,
    (infp_introspect_read_failure 1 1 { good_env "" with fopen := Except.error 2 }
      (good_env "") "" (Or.inl ⟨2, by decide, rfl⟩) (by decide)).imp
      fun _ h => ⟨h.1, h.2.1, h.2.2.1, h.2.2.2.1⟩,
    (infp_introspect_read_failure 1 1
      { good_env "<node/>" with talloc_realloc_size := fun _ => false } (good_env "") ""
      (Or.inr ⟨"<node/>", rfl, Or.inr ⟨0, by decide, rfl⟩⟩) (by decide)).imp
      fun _ h => ⟨h.1, h.2.1, h.2.2.1, h.2.2.2.1⟩,
    by decide, by decide⟩

/-! ## The handler and its list model -/

theorem check_actions_with_array (evaluator : Evaluator) (username domain : String)
    (object_type : ObjectType) (inst : Option String) (entries : List DBusArg)
    (elems : List Bool) :
    check_actions_with evaluator username domain object_type inst entries
        (PermissionsPtr.array elems) =
      some (match check_actions_list_with evaluator username domain object_type inst entries
          elems with
        | Except.error einval_msg => Except.error einval_msg
        | Except.ok permissions => Except.ok (PermissionsPtr.array permissions)) := by
  induction entries generalizing elems with
  | nil => rfl
  | cons entry rest ih =>
    unfold check_actions_with check_actions_list_with
    simp only [talloc_realloc, ih]
    split_ifs <;> rfl

theorem check_actions_with_null (evaluator : Evaluator) (username domain : String)
    (object_type : ObjectType) (inst : Option String) (entries : List DBusArg) :
    ∃ r, check_actions_with evaluator username domain object_type inst entries
        (PermissionsPtr.uninitialised 0) = some r ∧
      match r, check_actions_list_with evaluator username domain object_type inst entries
          [] with
      | Except.error m, Except.error einval_msg => m = einval_msg
      | Except.ok permissions, Except.ok elems => talloc_steal permissions = some elems
      | _, _ => False := by
  cases entries with
  | nil => exact ⟨_, rfl, rfl⟩
  | cons entry rest =>
    unfold check_actions_with check_actions_list_with
    simp only [talloc_realloc, check_actions_with_array]
    split_ifs
    all_goals first
      | exact ⟨_, rfl, rfl⟩
      | (refine ⟨_, rfl, ?_⟩
         simp only [List.nil_append]
         cases check_actions_list_with evaluator username domain object_type inst rest _
         · rfl
         · rfl)

theorem check_permissions_args_with_null (evaluator : Evaluator) (username : String)
    (message : List DBusArg) :
    ∃ r, check_permissions_args_with evaluator username 0 message = some r ∧
      match r, check_permissions_args_list_with evaluator username message with
      | Except.error m, Except.error einval_msg => m = einval_msg
      | Except.ok permissions, Except.ok elems => talloc_steal permissions = some elems
      | _, _ => False := by
  unfold check_permissions_args_with check_permissions_args_list_with
  cases dbus_message_iter_init message with
  | none => exact ⟨_, rfl, rfl⟩
  | some iter =>
    simp only []
    split_ifs
    all_goals first
      | exact ⟨_, rfl, rfl⟩
      | exact check_actions_with_null _ _ _ _ _ _

theorem infp_check_permissions_with_null (evaluator : Evaluator) (ctx : CallerCtx)
    (message : List DBusArg) :
    infp_check_permissions_with evaluator ctx 0 message =
      some (infp_check_permissions_list_with evaluator ctx message) := by
  unfold infp_check_permissions_with infp_check_permissions_list_with
  cases get_caller_username ctx with
  | error code => rfl
  | ok username =>
    obtain ⟨r, hr, hm⟩ := check_permissions_args_with_null evaluator username message
    simp only [hr]
    cases r with
    | error m =>
      cases hl : check_permissions_args_list_with evaluator username message with
      | error einval_msg =>
        rw [hl] at hm
        simp only at hm
        rw [hm]
      | ok elems =>
        rw [hl] at hm
        exact absurd hm id
    | ok permissions =>
      cases hl : check_permissions_args_list_with evaluator username message with
      | error einval_msg =>
        rw [hl] at hm
        exact absurd hm id
      | ok elems =>
        rw [hl] at hm
        simp only at hm
        simp only [hm]

theorem infp_check_permissions_null (ctx : CallerCtx) (message : List DBusArg) :
    infp_check_permissions ctx 0 message = some (infp_check_permissions_list ctx message) := by
  unfold infp_check_permissions
  rw [infp_check_permissions_with_null, infp_check_permissions_list_with_eq]


theorem check_actions_with_garbage (evaluator : Evaluator) (username domain : String)
    (object_type : ObjectType) (inst : Option String) (entry : DBusArg)
    (rest : List DBusArg) (w : Nat) :
    check_actions_with evaluator username domain object_type inst (entry :: rest)
        (PermissionsPtr.uninitialised (w + 1)) =
      (first_failure (entry_checks entry)).map Except.error := by
  match entry with
  | DBusArg.string _ => simp [check_actions_with, DBusArg.arg_type, entry_checks, is_struct,
      first_failure_cons, first_failure_nil, field_checks, fields_of, is_string, string_at,
      dbus_message_iter_recurse, dbus_message_iter_get_arg_type, dbus_message_iter_get_basic,
      dbus_message_iter_next, dbus_message_iter_has_next, talloc_realloc]
  | DBusArg.array _ => simp [check_actions_with, DBusArg.arg_type, entry_checks, is_struct,
      first_failure_cons, first_failure_nil, field_checks, fields_of, is_string, string_at,
      dbus_message_iter_recurse, dbus_message_iter_get_arg_type, dbus_message_iter_get_basic,
      dbus_message_iter_next, dbus_message_iter_has_next, talloc_realloc]
  | DBusArg.other _ => simp [check_actions_with, DBusArg.arg_type, entry_checks, is_struct,
      first_failure_cons, first_failure_nil, field_checks, fields_of, is_string, string_at,
      dbus_message_iter_recurse, dbus_message_iter_get_arg_type, dbus_message_iter_get_basic,
      dbus_message_iter_next, dbus_message_iter_has_next, talloc_realloc]
  | DBusArg.struct [] => simp [check_actions_with, DBusArg.arg_type, entry_checks, is_struct,
      first_failure_cons, first_failure_nil, field_checks, fields_of, is_string, string_at,
      dbus_message_iter_recurse, dbus_message_iter_get_arg_type, dbus_message_iter_get_basic,
      dbus_message_iter_next, dbus_message_iter_has_next, talloc_realloc]
  | DBusArg.struct (DBusArg.array _ :: _) => simp [check_actions_with, DBusArg.arg_type, entry_checks, is_struct,
      first_failure_cons, first_failure_nil, field_checks, fields_of, is_string, string_at,
      dbus_message_iter_recurse, dbus_message_iter_get_arg_type, dbus_message_iter_get_basic,
      dbus_message_iter_next, dbus_message_iter_has_next, talloc_realloc]
  | DBusArg.struct (DBusArg.struct _ :: _) => simp [check_actions_with, DBusArg.arg_type, entry_checks, is_struct,
      first_failure_cons, first_failure_nil, field_checks, fields_of, is_string, string_at,
      dbus_message_iter_recurse, dbus_message_iter_get_arg_type, dbus_message_iter_get_basic,
      dbus_message_iter_next, dbus_message_iter_has_next, talloc_realloc]
  | DBusArg.struct (DBusArg.other _ :: _) => simp [check_actions_with, DBusArg.arg_type, entry_checks, is_struct,
      first_failure_cons, first_failure_nil, field_checks, fields_of, is_string, string_at,
      dbus_message_iter_recurse, dbus_message_iter_get_arg_type, dbus_message_iter_get_basic,
      dbus_message_iter_next, dbus_message_iter_has_next, talloc_realloc]
  | DBusArg.struct (DBusArg.string action :: fields1) =>
    by_cases hact : get_action_type action = ActionType.INVALID
    · simp [check_actions_with, DBusArg.arg_type, entry_checks, is_struct,
      first_failure_cons, first_failure_nil, field_checks, fields_of, is_string, string_at,
      dbus_message_iter_recurse, dbus_message_iter_get_arg_type, dbus_message_iter_get_basic,
      dbus_message_iter_next, dbus_message_iter_has_next, talloc_realloc, hact]
    · match fields1 with
      | [] => simp [check_actions_with, DBusArg.arg_type, entry_checks, is_struct,
      first_failure_cons, first_failure_nil, field_checks, fields_of, is_string, string_at,
      dbus_message_iter_recurse, dbus_message_iter_get_arg_type, dbus_message_iter_get_basic,
      dbus_message_iter_next, dbus_message_iter_has_next, talloc_realloc, hact]
      | DBusArg.array _ :: _ => simp [check_actions_with, DBusArg.arg_type, entry_checks, is_struct,
      first_failure_cons, first_failure_nil, field_checks, fields_of, is_string, string_at,
      dbus_message_iter_recurse, dbus_message_iter_get_arg_type, dbus_message_iter_get_basic,
      dbus_message_iter_next, dbus_message_iter_has_next, talloc_realloc, hact]
      | DBusArg.struct _ :: _ => simp [check_actions_with, DBusArg.arg_type, entry_checks, is_struct,
      first_failure_cons, first_failure_nil, field_checks, fields_of, is_string, string_at,
      dbus_message_iter_recurse, dbus_message_iter_get_arg_type, dbus_message_iter_get_basic,
      dbus_message_iter_next, dbus_message_iter_has_next, talloc_realloc, hact]
      | DBusArg.other _ :: _ => simp [check_actions_with, DBusArg.arg_type, entry_checks, is_struct,
      first_failure_cons, first_failure_nil, field_checks, fields_of, is_string, string_at,
      dbus_message_iter_recurse, dbus_message_iter_get_arg_type, dbus_message_iter_get_basic,
      dbus_message_iter_next, dbus_message_iter_has_next, talloc_realloc, hact]
      | DBusArg.string attr :: fields2 =>
        by_cases hattr : get_attribute_type attr = AttributeType.INVALID
        · simp [check_actions_with, DBusArg.arg_type, entry_checks, is_struct,
      first_failure_cons, first_failure_nil, field_checks, fields_of, is_string, string_at,
      dbus_message_iter_recurse, dbus_message_iter_get_arg_type, dbus_message_iter_get_basic,
      dbus_message_iter_next, dbus_message_iter_has_next, talloc_realloc, hact, hattr]
        · cases fields2 with
          | nil => simp [check_actions_with, DBusArg.arg_type, entry_checks, is_struct,
      first_failure_cons, first_failure_nil, field_checks, fields_of, is_string, string_at,
      dbus_message_iter_recurse, dbus_message_iter_get_arg_type, dbus_message_iter_get_basic,
      dbus_message_iter_next, dbus_message_iter_has_next, talloc_realloc, hact, hattr]
          | cons f2 fields3 => simp [check_actions_with, DBusArg.arg_type, entry_checks, is_struct,
      first_failure_cons, first_failure_nil, field_checks, fields_of, is_string, string_at,
      dbus_message_iter_recurse, dbus_message_iter_get_arg_type, dbus_message_iter_get_basic,
      dbus_message_iter_next, dbus_message_iter_has_next, talloc_realloc, hact, hattr]

theorem infp_check_permissions_with_garbage (evaluator : Evaluator) (ctx : CallerCtx)
    (username : String) (w : Nat) (message : List DBusArg)
    (hcaller : get_caller_username ctx = Except.ok username) :
    infp_check_permissions_with evaluator ctx (w + 1) message =
      (first_failure (early_checks message)).map fun m =>
        { ret := EOK,
          reply_message := some (ReplyMessage.error DBUS_ERROR_INVALID_ARGS m) } := by
  unfold infp_check_permissions_with
  rw [hcaller]
  match message with
  | [] => simp [check_permissions_args_with, dbus_message_iter_init, dbus_message_iter_get_arg_type,
      DBusArg.arg_type, dbus_message_iter_get_basic, dbus_message_iter_next,
      dbus_message_iter_recurse, early_checks, positional_checks,
      first_failure_cons, first_failure_append, first_failure_nil, is_string, is_array,
      string_at, entries_at]
  | DBusArg.array _ :: _ => simp [check_permissions_args_with, dbus_message_iter_init, dbus_message_iter_get_arg_type,
      DBusArg.arg_type, dbus_message_iter_get_basic, dbus_message_iter_next,
      dbus_message_iter_recurse, early_checks, positional_checks,
      first_failure_cons, first_failure_append, first_failure_nil, is_string, is_array,
      string_at, entries_at]
  | DBusArg.struct _ :: _ => simp [check_permissions_args_with, dbus_message_iter_init, dbus_message_iter_get_arg_type,
      DBusArg.arg_type, dbus_message_iter_get_basic, dbus_message_iter_next,
      dbus_message_iter_recurse, early_checks, positional_checks,
      first_failure_cons, first_failure_append, first_failure_nil, is_string, is_array,
      string_at, entries_at]
  | DBusArg.other _ :: _ => simp [check_permissions_args_with, dbus_message_iter_init, dbus_message_iter_get_arg_type,
      DBusArg.arg_type, dbus_message_iter_get_basic, dbus_message_iter_next,
      dbus_message_iter_recurse, early_checks, positional_checks,
      first_failure_cons, first_failure_append, first_failure_nil, is_string, is_array,
      string_at, entries_at]
  | [DBusArg.string _] => simp [check_permissions_args_with, dbus_message_iter_init, dbus_message_iter_get_arg_type,
      DBusArg.arg_type, dbus_message_iter_get_basic, dbus_message_iter_next,
      dbus_message_iter_recurse, early_checks, positional_checks,
      first_failure_cons, first_failure_append, first_failure_nil, is_string, is_array,
      string_at, entries_at]
  | DBusArg.string _ :: DBusArg.array _ :: _ => simp [check_permissions_args_with, dbus_message_iter_init, dbus_message_iter_get_arg_type,
      DBusArg.arg_type, dbus_message_iter_get_basic, dbus_message_iter_next,
      dbus_message_iter_recurse, early_checks, positional_checks,
      first_failure_cons, first_failure_append, first_failure_nil, is_string, is_array,
      string_at, entries_at]
  | DBusArg.string _ :: DBusArg.struct _ :: _ => simp [check_permissions_args_with, dbus_message_iter_init, dbus_message_iter_get_arg_type,
      DBusArg.arg_type, dbus_message_iter_get_basic, dbus_message_iter_next,
      dbus_message_iter_recurse, early_checks, positional_checks,
      first_failure_cons, first_failure_append, first_failure_nil, is_string, is_array,
      string_at, entries_at]
  | DBusArg.string _ :: DBusArg.other _ :: _ => simp [check_permissions_args_with, dbus_message_iter_init, dbus_message_iter_get_arg_type,
      DBusArg.arg_type, dbus_message_iter_get_basic, dbus_message_iter_next,
      dbus_message_iter_recurse, early_checks, positional_checks,
      first_failure_cons, first_failure_append, first_failure_nil, is_string, is_array,
      string_at, entries_at]
  | DBusArg.string domain :: DBusArg.string object :: r1 =>
    by_cases hobj : get_object_type object = ObjectType.INVALID
    · simp [check_permissions_args_with, dbus_message_iter_init, dbus_message_iter_get_arg_type,
      DBusArg.arg_type, dbus_message_iter_get_basic, dbus_message_iter_next,
      dbus_message_iter_recurse, early_checks, positional_checks,
      first_failure_cons, first_failure_append, first_failure_nil, is_string, is_array,
      string_at, entries_at, hobj]
    · match r1 with
      | [] => simp [check_permissions_args_with, dbus_message_iter_init, dbus_message_iter_get_arg_type,
      DBusArg.arg_type, dbus_message_iter_get_basic, dbus_message_iter_next,
      dbus_message_iter_recurse, early_checks, positional_checks,
      first_failure_cons, first_failure_append, first_failure_nil, is_string, is_array,
      string_at, entries_at, hobj]
      | DBusArg.array _ :: _ => simp [check_permissions_args_with, dbus_message_iter_init, dbus_message_iter_get_arg_type,
      DBusArg.arg_type, dbus_message_iter_get_basic, dbus_message_iter_next,
      dbus_message_iter_recurse, early_checks, positional_checks,
      first_failure_cons, first_failure_append, first_failure_nil, is_string, is_array,
      string_at, entries_at, hobj]
      | DBusArg.struct _ :: _ => simp [check_permissions_args_with, dbus_message_iter_init, dbus_message_iter_get_arg_type,
      DBusArg.arg_type, dbus_message_iter_get_basic, dbus_message_iter_next,
      dbus_message_iter_recurse, early_checks, positional_checks,
      first_failure_cons, first_failure_append, first_failure_nil, is_string, is_array,
      string_at, entries_at, hobj]
      | DBusArg.other _ :: _ => simp [check_permissions_args_with, dbus_message_iter_init, dbus_message_iter_get_arg_type,
      DBusArg.arg_type, dbus_message_iter_get_basic, dbus_message_iter_next,
      dbus_message_iter_recurse, early_checks, positional_checks,
      first_failure_cons, first_failure_append, first_failure_nil, is_string, is_array,
      string_at, entries_at, hobj]
      | [DBusArg.string _] => simp [check_permissions_args_with, dbus_message_iter_init, dbus_message_iter_get_arg_type,
      DBusArg.arg_type, dbus_message_iter_get_basic, dbus_message_iter_next,
      dbus_message_iter_recurse, early_checks, positional_checks,
      first_failure_cons, first_failure_append, first_failure_nil, is_string, is_array,
      string_at, entries_at, hobj]
      | DBusArg.string _ :: DBusArg.string _ :: _ => simp [check_permissions_args_with, dbus_message_iter_init, dbus_message_iter_get_arg_type,
      DBusArg.arg_type, dbus_message_iter_get_basic, dbus_message_iter_next,
      dbus_message_iter_recurse, early_checks, positional_checks,
      first_failure_cons, first_failure_append, first_failure_nil, is_string, is_array,
      string_at, entries_at, hobj]
      | DBusArg.string _ :: DBusArg.struct _ :: _ => simp [check_permissions_args_with, dbus_message_iter_init, dbus_message_iter_get_arg_type,
      DBusArg.arg_type, dbus_message_iter_get_basic, dbus_message_iter_next,
      dbus_message_iter_recurse, early_checks, positional_checks,
      first_failure_cons, first_failure_append, first_failure_nil, is_string, is_array,
      string_at, entries_at, hobj]
      | DBusArg.string _ :: DBusArg.other _ :: _ => simp [check_permissions_args_with, dbus_message_iter_init, dbus_message_iter_get_arg_type,
      DBusArg.arg_type, dbus_message_iter_get_basic, dbus_message_iter_next,
      dbus_message_iter_recurse, early_checks, positional_checks,
      first_failure_cons, first_failure_append, first_failure_nil, is_string, is_array,
      string_at, entries_at, hobj]
      | DBusArg.string inst :: DBusArg.array [] :: _ =>
        simp [check_permissions_args_with, dbus_message_iter_init, dbus_message_iter_get_arg_type,
      DBusArg.arg_type, dbus_message_iter_get_basic, dbus_message_iter_next,
      dbus_message_iter_recurse, early_checks, positional_checks,
      first_failure_cons, first_failure_append, first_failure_nil, is_string, is_array,
      string_at, entries_at, hobj, check_actions_with, talloc_steal]
      | DBusArg.string inst :: DBusArg.array (entry :: rest) :: _ =>
        have h := check_actions_with_garbage evaluator username domain
          (get_object_type object) (if strcmp inst "" = 0 then none else some inst) entry
          rest w
        simp only [check_permissions_args_with, dbus_message_iter_init, dbus_message_iter_get_arg_type,
      DBusArg.arg_type, dbus_message_iter_get_basic, dbus_message_iter_next,
      dbus_message_iter_recurse, early_checks, positional_checks,
      first_failure_cons, first_failure_append, first_failure_nil, is_string, is_array,
      string_at, entries_at, hobj, h, List.getElem?_cons_succ, List.getElem?_cons_zero,
          List.isEmpty_cons, ne_eq, not_true_eq_false, not_false_eq_true, if_false, if_true,
          Bool.not_true, Bool.not_false, Bool.false_eq_true, decide_False, decide_True,
          List.tail_cons, Option.none_or]
        cases first_failure (entry_checks entry) <;> rfl

theorem first_failure_early_decode (message : List DBusArg) (m : String)
    (h : first_failure (early_checks message) = some m) :
    first_failure (decode_checks message) = some m := by
  unfold early_checks at h
  unfold decode_checks
  cases hentries : entries_at message[3]? with
  | nil =>
    rw [hentries] at h
    simpa [first_failure_append, first_failure_nil] using h
  | cons entry rest =>
    rw [hentries] at h
    rw [List.flatMap_cons, ← List.append_assoc, first_failure_append, h]
    rfl

theorem infp_check_permissions_early (ctx : CallerCtx) (username : String) (word : Nat)
    (message : List DBusArg) (m : String)
    (hcaller : get_caller_username ctx = Except.ok username)
    (h : first_failure (early_checks message) = some m) :
    infp_check_permissions ctx word message =
      some { ret := EOK,
             reply_message := some (ReplyMessage.error DBUS_ERROR_INVALID_ARGS m) } := by
  cases word with
  | zero =>
    have hd := first_failure_early_decode message m h
    obtain ⟨m2, hm2, hr, _⟩ := infp_check_permissions_list_decode_failure ctx username message
      hcaller ⟨(true, m), first_failure_mem _ _ hd, rfl⟩
    rw [hd] at hm2
    cases hm2
    rw [infp_check_permissions_null, hr]
  | succ w =>
    unfold infp_check_permissions
    rw [infp_check_permissions_with_garbage infp_get_permissions ctx username w message hcaller,
      h]
    rfl

theorem infp_check_permissions_undefined (ctx : CallerCtx) (username : String) (w : Nat)
    (message : List DBusArg) (hcaller : get_caller_username ctx = Except.ok username)
    (h : first_failure (early_checks message) = none) :
    infp_check_permissions ctx (w + 1) message = none := by
  unfold infp_check_permissions
  rw [infp_check_permissions_with_garbage infp_get_permissions ctx username w message hcaller,
    h]
  rfl

theorem early_checks_first_valid (domain object inst action attr : String)
    (entries extra : List DBusArg)
    (hobj : get_object_type object ≠ ObjectType.INVALID)
    (haction : get_action_type action ≠ ActionType.INVALID)
    (hattr : get_attribute_type attr ≠ AttributeType.INVALID) :
    first_failure (early_checks
      (DBusArg.string domain :: DBusArg.string object :: DBusArg.string inst ::
        DBusArg.array (DBusArg.struct [DBusArg.string action, DBusArg.string attr] :: entries)
          :: extra)) = none := by
  simp [early_checks, positional_checks, entry_checks, field_checks, first_failure_cons,
    first_failure_append, first_failure_nil, is_string, is_array, is_struct, string_at,
    entries_at, fields_of, hobj, haction, hattr]

theorem early_checks_no_entries (domain object inst : String) (extra : List DBusArg)
    (hobj : get_object_type object ≠ ObjectType.INVALID) :
    first_failure (early_checks
      (DBusArg.string domain :: DBusArg.string object :: DBusArg.string inst ::
        DBusArg.array [] :: extra)) = none := by
  simp [early_checks, positional_checks, first_failure_cons, first_failure_append,
    first_failure_nil, is_string, is_array, string_at, entries_at, hobj]

theorem early_checks_first_entry (domain object inst : String) (entry : DBusArg)
    (entries extra : List DBusArg) (hobj : get_object_type object ≠ ObjectType.INVALID) :
    first_failure (early_checks
      (DBusArg.string domain :: DBusArg.string object :: DBusArg.string inst ::
        DBusArg.array (entry :: entries) :: extra)) = first_failure (entry_checks entry) := by
  simp [early_checks, positional_checks, first_failure_cons, first_failure_append,
    first_failure_nil, is_string, is_array, string_at, entries_at, hobj]

/-! ## Decode failures before any entry is evaluated -/

/-- C8: take a well-formed request and an index i into its action list, and
replace entry i by a struct of one field holding only its valid action
string.  When the entry is the first of the array, as it is in every array
D-Bus can carry, the handler answers the invalid-arguments error "Missing
attribute" and no method return whatever the never-initialised `permissions`
holds; for a later entry it does so when `permissions` holds `NULL`. -/
theorem infp_check_permissions_missing_attribute (ctx : CallerCtx)
    (username domain object inst : String) (actions : List (String × String)) (i word : Nat)
    (hcaller : get_caller_username ctx = Except.ok username)
    (hwf : well_formed object actions) (hi : i < actions.length)
    (hfirst : i = 0 ∨ word = 0) :
    infp_check_permissions ctx word
        [DBusArg.string domain, DBusArg.string object, DBusArg.string inst,
          DBusArg.array
            ((encode_actions actions).set i (DBusArg.struct [DBusArg.string actions[i].1]))] =
      some { ret := EOK,
             reply_message := some (ReplyMessage.error DBUS_ERROR_INVALID_ARGS
               "Missing attribute") } := by
  rcases hfirst with hzero | hnull
  · subst hzero
    apply infp_check_permissions_early ctx username word _ _ hcaller
    obtain ⟨a, rest, rfl⟩ := List.exists_cons_of_length_pos hi
    have ha := hwf.2 a (List.mem_cons_self _ _)
    simp only [encode_actions, List.map_cons, List.set_cons_zero, List.getElem_cons_zero]
    rw [early_checks_first_entry domain object inst _ _ [] hwf.1]
    simp [entry_checks, field_checks, first_failure_cons, is_struct, is_string, string_at,
      fields_of, ha.1]
  · subst hnull
    rw [infp_check_permissions_null,
      infp_check_permissions_list_missing_attribute ctx username domain object inst actions i
        hcaller hwf hi]

/-- Witness for C8: the one entry of the array loses its attribute, and
`permissions` holds a word that is not `NULL`. -/
theorem infp_check_permissions_missing_attribute_witness :
    get_caller_username (resolved_caller "root") = Except.ok "root" ∧
      well_formed "group" [("addmember", "userpic")] ∧
      0 < [("addmember", "userpic")].length ∧
      ((0 : Nat) = 0 ∨ 3735928559 = 0) ∧
      infp_check_permissions (resolved_caller "root") 3735928559
          [DBusArg.string "LOCAL", DBusArg.string "group", DBusArg.string "wheel",
            DBusArg.array
              ((encode_actions [("addmember", "userpic")]).set 0
                (DBusArg.struct [DBusArg.string [("addmember", "userpic")][0].1]))] =
        some { ret := EOK,
               reply_message := some (ReplyMessage.error DBUS_ERROR_INVALID_ARGS
                 "Missing attribute") } :=
  ⟨rfl, by unfold well_formed; decide, by decide, Or.inl rfl,
    infp_check_permissions_missing_attribute (resolved_caller "root") "root" "LOCAL" "group"
      "wheel" [("addmember", "userpic")] 0 3735928559 rfl
      (by unfold well_formed; decide) (by decide) (Or.inl rfl)⟩

/-- C9: when position 0 is a string and position 1 is a string that resolves
to neither User nor Group, `infp_check_permissions` answers the
invalid-arguments error "Invalid object type" and no permissions array,
whatever follows position 1, be it missing or mistyped, and whatever the
never-initialised `permissions` holds. -/
theorem infp_check_permissions_invalid_object (ctx : CallerCtx) (username domain object : String)
    (rest : List DBusArg) (word : Nat)
    (hcaller : get_caller_username ctx = Except.ok username)
    (hobj : get_object_type object = ObjectType.INVALID) :
    infp_check_permissions ctx word (DBusArg.string domain :: DBusArg.string object :: rest) =
        some { ret := EOK,
               reply_message := some (ReplyMessage.error DBUS_ERROR_INVALID_ARGS
                 "Invalid object type") } ∧
      ∀ (permissions : List Bool) (result : HandlerResult),
        infp_check_permissions ctx word
            (DBusArg.string domain :: DBusArg.string object :: rest) = some result →
          result.reply_message ≠ some (ReplyMessage.method_return permissions) := by
  have h : infp_check_permissions ctx word
      (DBusArg.string domain :: DBusArg.string object :: rest) =
      some { ret := EOK,
             reply_message := some (ReplyMessage.error DBUS_ERROR_INVALID_ARGS
               "Invalid object type") } := by
    apply infp_check_permissions_early ctx username word _ _ hcaller
    simp [early_checks, positional_checks, first_failure_cons, first_failure_append,
      is_string, string_at, hobj]
  refine ⟨h, ?_⟩
  intro permissions result hresult
  rw [h] at hresult
  cases hresult
  simp

/-- Witness for C9: the object "widget" with no instance and a number where
the actions should be, `permissions` holding a word that is not `NULL`. -/
theorem infp_check_permissions_invalid_object_witness :
    get_caller_username (resolved_caller "root") = Except.ok "root" ∧
      get_object_type "widget" = ObjectType.INVALID ∧
      infp_check_permissions (resolved_caller "root") 3735928559
          [DBusArg.string "LOCAL", DBusArg.string "widget", DBusArg.other 'u'] =
        some { ret := EOK,
               reply_message := some (ReplyMessage.error DBUS_ERROR_INVALID_ARGS
                 "Invalid object type") } :=
  ⟨rfl, by decide,
    (infp_check_permissions_invalid_object (resolved_caller "root") "root" "LOCAL" "widget"
      [DBusArg.other 'u'] 3735928559 rfl (by decide)).1⟩

/-- C11, as stated: on an empty argument stream the text of the error reply
is "No arguments received." with a full stop at its end, which is not the
text "No arguments received" of the specification, whatever the
never-initialised `permissions` holds. -/
theorem no_arguments_counterexample :
    infp_check_permissions (resolved_caller "alice") 0 [] =
        some { ret := EOK,
               reply_message := some (ReplyMessage.error DBUS_ERROR_INVALID_ARGS
                 "No arguments received.") } ∧
      infp_check_permissions (resolved_caller "alice") 3735928559 [] =
        some { ret := EOK,
               reply_message := some (ReplyMessage.error DBUS_ERROR_INVALID_ARGS
                 "No arguments received.") } ∧
      reported (infp_check_permissions (resolved_caller "alice") 0 []) ≠
        some "No arguments received" ∧
      reported (infp_check_permissions (resolved_caller "alice") 3735928559 []) ≠
        some "No arguments received" := by
  refine ⟨by decide, by decide, by decide, by decide⟩

/-- C11, amended: for a caller whose username resolves, an empty argument
stream gets the invalid-arguments error whose text is exactly
"No arguments received." (full stop included), and a stream whose position 0
is not a string gets the invalid-arguments error "Expected domain", whatever
the never-initialised `permissions` holds. -/
theorem infp_check_permissions_no_domain (ctx : CallerCtx) (username : String)
    (first : DBusArg) (rest : List DBusArg) (word : Nat)
    (hcaller : get_caller_username ctx = Except.ok username)
    (hfirst : is_string (some first) = false) :
    infp_check_permissions ctx word [] =
        some { ret := EOK,
               reply_message := some (ReplyMessage.error DBUS_ERROR_INVALID_ARGS
                 "No arguments received.") } ∧
      infp_check_permissions ctx word (first :: rest) =
        some { ret := EOK,
               reply_message := some (ReplyMessage.error DBUS_ERROR_INVALID_ARGS
                 "Expected domain") } := by
  constructor
  · apply infp_check_permissions_early ctx username word _ _ hcaller
    simp [early_checks, positional_checks, first_failure_cons, first_failure_append]
  · apply infp_check_permissions_early ctx username word _ _ hcaller
    cases first with
    | string s => simp [is_string] at hfirst
    | array es =>
      simp [early_checks, positional_checks, first_failure_cons, first_failure_append,
        is_string]
    | struct fs =>
      simp [early_checks, positional_checks, first_failure_cons, first_failure_append,
        is_string]
    | other c =>
      simp [early_checks, positional_checks, first_failure_cons, first_failure_append,
        is_string]

/-- Witness for C11, amended: a stream that starts with a number, with a word
that is not `NULL` in `permissions`. -/
theorem infp_check_permissions_no_domain_witness :
    get_caller_username (resolved_caller "alice") = Except.ok "alice" ∧
      is_string (some (DBusArg.other 'i')) = false ∧
      infp_check_permissions (resolved_caller "alice") 3735928559 [] =
        some { ret := EOK,
               reply_message := some (ReplyMessage.error DBUS_ERROR_INVALID_ARGS
                 "No arguments received.") } ∧
      infp_check_permissions (resolved_caller "alice") 3735928559
          [DBusArg.other 'i', DBusArg.string "user"] =
        some { ret := EOK,
               reply_message := some (ReplyMessage.error DBUS_ERROR_INVALID_ARGS
                 "Expected domain") } :=
  ⟨rfl, rfl,
    infp_check_permissions_no_domain (resolved_caller "alice") "alice" (DBusArg.other 'i')
      [DBusArg.string "user"] 3735928559 rfl rfl⟩

theorem reported_mem_early (ctx : CallerCtx) (username : String) (w : Nat)
    (message : List DBusArg) (m : String)
    (hcaller : get_caller_username ctx = Except.ok username)
    (h : reported (infp_check_permissions ctx (w + 1) message) = some m) :
    (true, m) ∈ early_checks message := by
  unfold infp_check_permissions at h
  rw [infp_check_permissions_with_garbage infp_get_permissions ctx username w message
    hcaller] at h
  cases hf : first_failure (early_checks message) with
  | none =>
    rw [hf] at h
    cases h
  | some m2 =>
    rw [hf] at h
    simp only [Option.map_some', reported, reported_message, Option.some.injEq] at h
    rw [← h]
    exact first_failure_mem _ _ hf

/-- C13: when the first entry of the action array, or an entry that follows
valid ones while `permissions` holds `NULL`, is a struct of a valid action
string, a valid attribute string and at least one further field of any type,
the reply is the invalid-arguments error "Unexpected value in action struct";
and whenever that error is the reply, whatever `permissions` holds, some entry
of the array has more than two fields, so structs of exactly two fields never
produce it. -/
theorem infp_check_permissions_unexpected_value (ctx : CallerCtx)
    (username domain object inst : String) (pre : List (String × String))
    (action attr : String) (third : DBusArg) (fields post message : List DBusArg)
    (word : Nat)
    (hcaller : get_caller_username ctx = Except.ok username)
    (hwf : well_formed object pre)
    (haction : get_action_type action ≠ ActionType.INVALID)
    (hattr : get_attribute_type attr ≠ AttributeType.INVALID) :
    (pre = [] ∨ word = 0 →
        infp_check_permissions ctx word
            [DBusArg.string domain, DBusArg.string object, DBusArg.string inst,
              DBusArg.array (encode_actions pre ++
                DBusArg.struct
                  (DBusArg.string action :: DBusArg.string attr :: third :: fields)
                  :: post)] =
          some { ret := EOK,
                 reply_message := some (ReplyMessage.error DBUS_ERROR_INVALID_ARGS
                   "Unexpected value in action struct") }) ∧
      (reported (infp_check_permissions ctx word message) =
          some "Unexpected value in action struct" →
        ∃ entry ∈ entries_at message[3]?, 2 < (fields_of entry).length) := by
  constructor
  · intro hfirst
    rcases hfirst with hpre | hnull
    · subst hpre
      apply infp_check_permissions_early ctx username word _ _ hcaller
      simp only [encode_actions, List.map_nil, List.nil_append]
      rw [early_checks_first_entry domain object inst _ _ [] hwf.1]
      simp [entry_checks, field_checks, first_failure_cons, is_struct, is_string, string_at,
        fields_of, haction, hattr]
    · subst hnull
      rw [infp_check_permissions_null,
        (infp_check_permissions_list_unexpected_value ctx username domain object inst pre
          action attr third fields post [] hcaller hwf haction hattr).1]
  · intro h
    cases word with
    | zero =>
      rw [infp_check_permissions_null] at h
      exact (infp_check_permissions_list_unexpected_value ctx username domain object inst pre
        action attr third fields post message hcaller hwf haction hattr).2 h
    | succ w =>
      have hmem := reported_mem_early ctx username w message _ hcaller h
      simp only [early_checks, List.mem_append] at hmem
      rcases hmem with hpos | hentry
      · exfalso
        simp only [positional_checks, List.mem_cons, Prod.mk.injEq, List.mem_singleton,
          List.not_mem_nil, or_false] at hpos
        rcases hpos with hp | hp | hp | hp | hp | hp <;> exact absurd hp.2 (by decide)
      · cases hentries : entries_at message[3]? with
        | nil =>
          rw [hentries] at hentry
          cases hentry
        | cons entry rest =>
          rw [hentries] at hentry
          exact ⟨entry, List.mem_cons_self _ _, unexpected_value_of_entry_check entry hentry⟩

/-- Witness for C13: a third field, a number, in the first entry, with a word
that is not `NULL` in `permissions`. -/
theorem infp_check_permissions_unexpected_value_witness :
    get_caller_username (resolved_caller "root") = Except.ok "root" ∧
      well_formed "user" [] ∧
      get_action_type "modify" ≠ ActionType.INVALID ∧
      get_attribute_type "shell" ≠ AttributeType.INVALID ∧
      (([] : List (String × String)) = [] ∨ 3735928559 = 0) ∧
      infp_check_permissions (resolved_caller "root") 3735928559
          [DBusArg.string "LOCAL", DBusArg.string "user", DBusArg.string "",
            DBusArg.array (encode_actions [] ++
              DBusArg.struct
                (DBusArg.string "modify" :: DBusArg.string "shell" :: DBusArg.other 'u' :: [])
                :: [])] =
        some { ret := EOK,
               reply_message := some (ReplyMessage.error DBUS_ERROR_INVALID_ARGS
                 "Unexpected value in action struct") } :=
  ⟨rfl, by unfold well_formed; decide, by decide, by decide, Or.inl rfl,
    (infp_check_permissions_unexpected_value (resolved_caller "root") "root" "LOCAL" "user" ""
      [] "modify" "shell" (DBusArg.other 'u') [] [] [] 3735928559 rfl
      (by unfold well_formed; decide) (by decide) (by decide)).1 (Or.inl rfl)⟩

/-! ## The caller -/

/-- C18: when the message has no sender name, or the sender has no uid, or the
uid has no username, `infp_check_permissions` returns EIO and leaves no reply
at all, neither a permissions array nor an invalid-arguments error, whatever
the argument stream is and whatever the never-initialised `permissions`
holds. -/
theorem infp_check_permissions_unresolved (ctx : CallerCtx) (message : List DBusArg)
    (word : Nat)
    (h : ctx.conn_name = none ∨
      (∃ conn_name, ctx.conn_name = some conn_name ∧ ctx.unix_user conn_name = none) ∨
      ∃ conn_name uid, ctx.conn_name = some conn_name ∧ ctx.unix_user conn_name = some uid ∧
        ctx.username_from_uid uid = none) :
    infp_check_permissions ctx word message = some { ret := EIO, reply_message := none } ∧
      (∀ (permissions : List Bool) (result : HandlerResult),
        infp_check_permissions ctx word message = some result →
          result.reply_message ≠ some (ReplyMessage.method_return permissions)) ∧
      ∀ (name text : String) (result : HandlerResult),
        infp_check_permissions ctx word message = some result →
          result.reply_message ≠ some (ReplyMessage.error name text) := by
  have hcaller : get_caller_username ctx = Except.error EIO := by
    unfold get_caller_username
    rcases h with h | ⟨conn_name, h1, h2⟩ | ⟨conn_name, uid, h1, h2, h3⟩
    · rw [h]
    · rw [h1]
      simp only [h2]
    · rw [h1]
      simp only [h2, h3]
  have hr : infp_check_permissions ctx word message =
      some { ret := EIO, reply_message := none } := by
    unfold infp_check_permissions infp_check_permissions_with
    rw [hcaller]
  refine ⟨hr, ?_, ?_⟩
  · intro permissions result hresult
    rw [hr] at hresult
    cases hresult
    simp
  · intro name text result hresult
    rw [hr] at hresult
    cases hresult
    simp

/-- Witness for C18: a sender whose uid has no username sends a well-formed
request, and a message without sender sends nothing. -/
theorem infp_check_permissions_unresolved_witness :
    (∃ conn_name uid,
        ({ conn_name := some ":1.7", unix_user := fun _ => some 4711,
           username_from_uid := fun _ => none } : CallerCtx).conn_name = some conn_name ∧
          ({ conn_name := some ":1.7", unix_user := fun _ => some 4711,
             username_from_uid := fun _ => none } : CallerCtx).unix_user conn_name = some uid ∧
          ({ conn_name := some ":1.7", unix_user := fun _ => some 4711,
             username_from_uid := fun _ => none } : CallerCtx).username_from_uid uid = none) ∧
      infp_check_permissions
          { conn_name := some ":1.7", unix_user := fun _ => some 4711,
            username_from_uid := fun _ => none } 3735928559
          (encode_request "LOCAL" "user" "" [("create", "gecos")]) =
        some { ret := EIO, reply_message := none } ∧
      infp_check_permissions
          { conn_name := none, unix_user := fun _ => some 0,
            username_from_uid := fun _ => some "root" } 0 [] =
        some { ret := EIO, reply_message := none } :=
  ⟨⟨":1.7", 4711, rfl, rfl, rfl⟩,
    (infp_check_permissions_unresolved
      { conn_name := some ":1.7", unix_user := fun _ => some 4711,
        username_from_uid := fun _ => none }
      (encode_request "LOCAL" "user" "" [("create", "gecos")]) 3735928559
      (Or.inr (Or.inr ⟨":1.7", 4711, rfl, rfl, rfl⟩))).1,
    (infp_check_permissions_unresolved
      { conn_name := none, unix_user := fun _ => some 0,
        username_from_uid := fun _ => some "root" } [] 0 (Or.inl rfl)).1⟩

/-! ## The never-initialised `permissions` -/

theorem infp_check_permissions_evaluated_undefined (ctx : CallerCtx)
    (username domain object inst : String) (actions : List (String × String))
    (post extra : List DBusArg) (w : Nat)
    (hcaller : get_caller_username ctx = Except.ok username)
    (hwf : well_formed object actions) (hne : actions ≠ []) :
    infp_check_permissions ctx (w + 1)
        (DBusArg.string domain :: DBusArg.string object :: DBusArg.string inst ::
          DBusArg.array (encode_actions actions ++ post) :: extra) = none := by
  obtain ⟨a, rest, rfl⟩ := List.exists_cons_of_ne_nil hne
  have ha := hwf.2 a (List.mem_cons_self _ _)
  apply infp_check_permissions_undefined ctx username w _ hcaller
  simp only [encode_actions, List.map_cons, List.cons_append]
  exact early_checks_first_valid domain object inst a.1 a.2 _ extra hwf.1 ha.1 ha.2

theorem infp_check_permissions_no_entries_undefined (ctx : CallerCtx)
    (username domain object inst : String) (extra : List DBusArg) (w : Nat)
    (hcaller : get_caller_username ctx = Except.ok username)
    (hobj : get_object_type object ≠ ObjectType.INVALID) :
    infp_check_permissions ctx (w + 1)
        (DBusArg.string domain :: DBusArg.string object :: DBusArg.string inst ::
          DBusArg.array [] :: extra) = none :=
  infp_check_permissions_undefined ctx username w _ hcaller
    (early_checks_no_entries domain object inst extra hobj)

theorem infp_check_permissions_request_undefined (ctx : CallerCtx)
    (username domain object inst : String) (actions : List (String × String)) (w : Nat)
    (hcaller : get_caller_username ctx = Except.ok username)
    (hwf : well_formed object actions) :
    infp_check_permissions ctx (w + 1) (encode_request domain object inst actions) = none := by
  unfold encode_request
  cases actions with
  | nil =>
    exact infp_check_permissions_no_entries_undefined ctx username domain object inst [] w
      hcaller hwf.1
  | cons a rest =>
    have h := infp_check_permissions_evaluated_undefined ctx username domain object inst
      (a :: rest) [] [] w hcaller hwf (List.cons_ne_nil _ _)
    rw [List.append_nil] at h
    exact h

/-- C1: on a well-formed request of a resolved caller the behaviour of
`infp_check_permissions` is undefined whenever the never-initialised
`permissions` holds a word other than `NULL`, for the word goes to
`talloc_realloc`, or to `talloc_steal` when the array is empty; only when the
word is `NULL` is the result EOK with a method return of as many booleans as
there are actions, the i-th being `infp_get_permissions` on the i-th entry. -/
theorem infp_check_permissions_well_formed (ctx : CallerCtx)
    (username domain object inst : String) (actions : List (String × String)) (w : Nat)
    (hcaller : get_caller_username ctx = Except.ok username)
    (hwf : well_formed object actions) :
    infp_check_permissions ctx (w + 1) (encode_request domain object inst actions) = none ∧
      ∃ permissions : List Bool,
        infp_check_permissions ctx 0 (encode_request domain object inst actions) =
            some { ret := EOK,
                   reply_message := some (ReplyMessage.method_return permissions) } ∧
          permissions.length = actions.length ∧
          ∀ (i : Nat) (hi : i < actions.length),
            permissions[i]? = some (infp_get_permissions username domain
              (get_object_type object) (evaluator_instance inst)
              (get_action_type actions[i].1) (get_attribute_type actions[i].2)) := by
  refine ⟨infp_check_permissions_request_undefined ctx username domain object inst actions w
    hcaller hwf, ?_⟩
  obtain ⟨permissions, h1, h2, h3⟩ := infp_check_permissions_list_well_formed ctx username
    domain object inst actions hcaller hwf
  exact ⟨permissions, by rw [infp_check_permissions_null, h1], h2, h3⟩

/-- Witness for C1: the caller "alice" asks about two actions on a user while
`permissions` holds the word 3735928559. -/
theorem infp_check_permissions_well_formed_witness :
    get_caller_username (resolved_caller "alice") = Except.ok "alice" ∧
      well_formed "User" [("create", "gecos"), ("Modify", "SHELL")] ∧
      infp_check_permissions (resolved_caller "alice") (3735928558 + 1)
          (encode_request "LOCAL" "User" "jdoe"
            [("create", "gecos"), ("Modify", "SHELL")]) = none ∧
      infp_check_permissions (resolved_caller "alice") 0
          (encode_request "LOCAL" "User" "jdoe"
            [("create", "gecos"), ("Modify", "SHELL")]) =
        some { ret := EOK, reply_message := some (ReplyMessage.method_return [false, false]) } :=
  ⟨rfl, by unfold well_formed; decide,
    (infp_check_permissions_well_formed (resolved_caller "alice") "alice" "LOCAL" "User" "jdoe"
      [("create", "gecos"), ("Modify", "SHELL")] 3735928558 rfl
      (by unfold well_formed; decide)).1,
    by decide⟩

/-- C10: on the request domain "LOCAL", object "user", instance "", actions
("create", "gecos") and ("modify", "shell") the behaviour of
`infp_check_permissions` is undefined whenever the never-initialised
`permissions` holds a word other than `NULL`; only when the word is `NULL`
does the caller "root" get the method return [true, true] and a caller with
any other username [false, false]. -/
theorem infp_check_permissions_example (ctx : CallerCtx) (username : String) (w : Nat)
    (hcaller : get_caller_username ctx = Except.ok username) :
    infp_check_permissions ctx (w + 1)
        [DBusArg.string "LOCAL", DBusArg.string "user", DBusArg.string "",
          DBusArg.array
            [DBusArg.struct [DBusArg.string "create", DBusArg.string "gecos"],
              DBusArg.struct [DBusArg.string "modify", DBusArg.string "shell"]]] = none ∧
      (username = "root" →
        infp_check_permissions ctx 0
            [DBusArg.string "LOCAL", DBusArg.string "user", DBusArg.string "",
              DBusArg.array
                [DBusArg.struct [DBusArg.string "create", DBusArg.string "gecos"],
                  DBusArg.struct [DBusArg.string "modify", DBusArg.string "shell"]]] =
          some { ret := EOK,
                 reply_message := some (ReplyMessage.method_return [true, true]) }) ∧
      (username ≠ "root" →
        infp_check_permissions ctx 0
            [DBusArg.string "LOCAL", DBusArg.string "user", DBusArg.string "",
              DBusArg.array
                [DBusArg.struct [DBusArg.string "create", DBusArg.string "gecos"],
                  DBusArg.struct [DBusArg.string "modify", DBusArg.string "shell"]]] =
          some { ret := EOK,
                 reply_message := some (ReplyMessage.method_return [false, false]) }) := by
  have hwf : well_formed "user" [("create", "gecos"), ("modify", "shell")] := by
    unfold well_formed
    decide
  have hu := infp_check_permissions_request_undefined ctx username "LOCAL" "user" ""
    [("create", "gecos"), ("modify", "shell")] w hcaller hwf
  have hl := infp_check_permissions_list_example ctx username hcaller
  refine ⟨hu, ?_, ?_⟩
  · intro hroot
    rw [infp_check_permissions_null, hl.1 hroot]
  · intro hroot
    rw [infp_check_permissions_null, hl.2 hroot]

/-- Witness for C10: the caller "root" while `permissions` holds the word
3735928559, and the callers "root" and "alice" while it holds `NULL`. -/
theorem infp_check_permissions_example_witness :
    get_caller_username (resolved_caller "root") = Except.ok "root" ∧
      infp_check_permissions (resolved_caller "root") (3735928558 + 1)
          [DBusArg.string "LOCAL", DBusArg.string "user", DBusArg.string "",
            DBusArg.array
              [DBusArg.struct [DBusArg.string "create", DBusArg.string "gecos"],
                DBusArg.struct [DBusArg.string "modify", DBusArg.string "shell"]]] = none ∧
      infp_check_permissions (resolved_caller "root") 0
          [DBusArg.string "LOCAL", DBusArg.string "user", DBusArg.string "",
            DBusArg.array
              [DBusArg.struct [DBusArg.string "create", DBusArg.string "gecos"],
                DBusArg.struct [DBusArg.string "modify", DBusArg.string "shell"]]] =
        some { ret := EOK, reply_message := some (ReplyMessage.method_return [true, true]) } ∧
      get_caller_username (resolved_caller "alice") = Except.ok "alice" ∧
      "alice" ≠ "root" ∧
      infp_check_permissions (resolved_caller "alice") 0
          [DBusArg.string "LOCAL", DBusArg.string "user", DBusArg.string "",
            DBusArg.array
              [DBusArg.struct [DBusArg.string "create", DBusArg.string "gecos"],
                DBusArg.struct [DBusArg.string "modify", DBusArg.string "shell"]]] =
        some { ret := EOK, reply_message := some (ReplyMessage.method_return [false, false]) } :=
  ⟨rfl, (infp_check_permissions_example (resolved_caller "root") "root" 3735928558 rfl).1,
    (infp_check_permissions_example (resolved_caller "root") "root" 3735928558 rfl).2.1 rfl,
    rfl, by decide,
    (infp_check_permissions_example (resolved_caller "alice") "alice" 0 rfl).2.2 (by decide)⟩

/-- C20: on a request with a string domain, a valid object token, a string
instance and an array of no entries the behaviour of
`infp_check_permissions` is undefined whenever the never-initialised
`permissions` holds a word other than `NULL`, for the word goes to
`talloc_steal`; only when the word is `NULL` is the result EOK with a method
return whose permissions array is empty.  An array whose first entry is no
struct gets the invalid-arguments error "Action array entry was not a struct"
whatever the word is. -/
theorem infp_check_permissions_empty_array (ctx : CallerCtx)
    (username domain object inst : String) (entry : DBusArg) (post : List DBusArg)
    (w word : Nat)
    (hcaller : get_caller_username ctx = Except.ok username)
    (hobj : get_object_type object ≠ ObjectType.INVALID) (hentry : is_struct entry = false) :
    infp_check_permissions ctx (w + 1)
        [DBusArg.string domain, DBusArg.string object, DBusArg.string inst,
          DBusArg.array []] = none ∧
      infp_check_permissions ctx 0
        [DBusArg.string domain, DBusArg.string object, DBusArg.string inst,
          DBusArg.array []] =
        some { ret := EOK, reply_message := some (ReplyMessage.method_return []) } ∧
      infp_check_permissions ctx word
        [DBusArg.string domain, DBusArg.string object, DBusArg.string inst,
          DBusArg.array (entry :: post)] =
        some { ret := EOK,
               reply_message := some (ReplyMessage.error DBUS_ERROR_INVALID_ARGS
                 "Action array entry was not a struct") } := by
  have hwf : well_formed object [] := ⟨hobj, fun p hp => absurd hp (List.not_mem_nil p)⟩
  refine ⟨infp_check_permissions_no_entries_undefined ctx username domain object inst [] w
    hcaller hobj, ?_, ?_⟩
  · rw [infp_check_permissions_null,
      (infp_check_permissions_list_empty_array ctx username domain object inst []
        entry post hcaller hwf hentry).1]
  · apply infp_check_permissions_early ctx username word _ _ hcaller
    rw [early_checks_first_entry domain object inst _ _ [] hobj]
    cases entry with
    | struct fs => simp [is_struct] at hentry
    | string s => simp [entry_checks, first_failure_cons, is_struct]
    | array es => simp [entry_checks, first_failure_cons, is_struct]
    | other c => simp [entry_checks, first_failure_cons, is_struct]

/-- Witness for C20: the request with no entries while `permissions` holds the
word 3735928559, and an array of strings. -/
theorem infp_check_permissions_empty_array_witness :
    get_caller_username (resolved_caller "alice") = Except.ok "alice" ∧
      get_object_type "user" ≠ ObjectType.INVALID ∧
      is_struct (DBusArg.string "modify") = false ∧
      infp_check_permissions (resolved_caller "alice") (3735928558 + 1)
          [DBusArg.string "LOCAL", DBusArg.string "user", DBusArg.string "jdoe",
            DBusArg.array []] = none ∧
      infp_check_permissions (resolved_caller "alice") 0
          [DBusArg.string "LOCAL", DBusArg.string "user", DBusArg.string "jdoe",
            DBusArg.array []] =
        some { ret := EOK, reply_message := some (ReplyMessage.method_return []) } ∧
      infp_check_permissions (resolved_caller "alice") 3735928559
          [DBusArg.string "LOCAL", DBusArg.string "user", DBusArg.string "jdoe",
            DBusArg.array (DBusArg.string "modify" :: [DBusArg.string "create"])] =
        some { ret := EOK,
               reply_message := some (ReplyMessage.error DBUS_ERROR_INVALID_ARGS
                 "Action array entry was not a struct") } :=
  ⟨rfl, by decide, rfl,
    (infp_check_permissions_empty_array (resolved_caller "alice") "alice" "LOCAL" "user" "jdoe"
      (DBusArg.string "modify") [DBusArg.string "create"] 3735928558 3735928559 rfl
      (by decide) rfl).1,
    (infp_check_permissions_empty_array (resolved_caller "alice") "alice" "LOCAL" "user" "jdoe"
      (DBusArg.string "modify") [DBusArg.string "create"] 3735928558 3735928559 rfl
      (by decide) rfl).2.1,
    (infp_check_permissions_empty_array (resolved_caller "alice") "alice" "LOCAL" "user" "jdoe"
      (DBusArg.string "modify") [DBusArg.string "create"] 3735928558 3735928559 rfl
      (by decide) rfl).2.2⟩

/-- C3: when a decode check fails after an entry of the array was valid and
evaluated, which is when no check fails on the positions and on the first
entry, the behaviour of `infp_check_permissions` is undefined whenever the
never-initialised `permissions` holds a word other than `NULL`; only when the
word is `NULL` does every failing check give EOK with an error reply named
`DBUS_ERROR_INVALID_ARGS` whose text is that of the earliest failing check,
and no method return.  A check that fails on the positions or on the first
entry gives that reply whatever the word is. -/
theorem infp_check_permissions_decode_failure (ctx : CallerCtx) (username : String)
    (message : List DBusArg) (w : Nat)
    (hcaller : get_caller_username ctx = Except.ok username)
    (hfail : ∃ c ∈ decode_checks message, c.1 = true) :
    (first_failure (early_checks message) = none →
        infp_check_permissions ctx (w + 1) message = none) ∧
      (∀ (word : Nat) (m : String), first_failure (early_checks message) = some m →
        infp_check_permissions ctx word message =
          some { ret := EOK,
                 reply_message := some (ReplyMessage.error DBUS_ERROR_INVALID_ARGS m) }) ∧
      ∃ m : String, first_failure (decode_checks message) = some m ∧
        infp_check_permissions ctx 0 message =
          some { ret := EOK,
                 reply_message := some (ReplyMessage.error DBUS_ERROR_INVALID_ARGS m) } := by
  refine ⟨infp_check_permissions_undefined ctx username w message hcaller,
    fun word m hm => infp_check_permissions_early ctx username word message m hcaller hm, ?_⟩
  obtain ⟨m, hm, hr, _⟩ := infp_check_permissions_list_decode_failure ctx username message
    hcaller hfail
  exact ⟨m, hm, by rw [infp_check_permissions_null, hr]⟩

/-- Witness for C3: the first entry is valid and evaluated, the second names
no action, and `permissions` holds the word 3735928559. -/
theorem infp_check_permissions_decode_failure_witness :
    get_caller_username (resolved_caller "root") = Except.ok "root" ∧
      (∃ c ∈ decode_checks
          [DBusArg.string "LOCAL", DBusArg.string "user", DBusArg.string "",
            DBusArg.array
              [DBusArg.struct [DBusArg.string "create", DBusArg.string "gecos"],
                DBusArg.struct [DBusArg.string "bogus", DBusArg.string "shell"]]],
        c.1 = true) ∧
      first_failure (early_checks
          [DBusArg.string "LOCAL", DBusArg.string "user", DBusArg.string "",
            DBusArg.array
              [DBusArg.struct [DBusArg.string "create", DBusArg.string "gecos"],
                DBusArg.struct [DBusArg.string "bogus", DBusArg.string "shell"]]]) = none ∧
      infp_check_permissions (resolved_caller "root") (3735928558 + 1)
          [DBusArg.string "LOCAL", DBusArg.string "user", DBusArg.string "",
            DBusArg.array
              [DBusArg.struct [DBusArg.string "create", DBusArg.string "gecos"],
                DBusArg.struct [DBusArg.string "bogus", DBusArg.string "shell"]]] = none ∧
      infp_check_permissions (resolved_caller "root") 0
          [DBusArg.string "LOCAL", DBusArg.string "user", DBusArg.string "",
            DBusArg.array
              [DBusArg.struct [DBusArg.string "create", DBusArg.string "gecos"],
                DBusArg.struct [DBusArg.string "bogus", DBusArg.string "shell"]]] =
        some { ret := EOK,
               reply_message := some (ReplyMessage.error DBUS_ERROR_INVALID_ARGS
                 "Action type [bogus] is not valid") } :=
  ⟨rfl, ⟨(true, "Action type [bogus] is not valid"), by decide, rfl⟩, by decide,
    (infp_check_permissions_decode_failure (resolved_caller "root") "root" _ 3735928558 rfl
      ⟨(true, "Action type [bogus] is not valid"), by decide, rfl⟩).1 (by decide),
    by decide⟩

/-- C12: take an entry whose field 0 resolves to no action, or whose field 1
resolves to no attribute beside a valid action.  When it is the first entry of
the array the reply is the invalid-arguments error
"Action type [" ++ token ++ "] is not valid" or
"Attribute [" ++ token ++ "] is not valid", with the token as it came, whatever
the never-initialised `permissions` holds.  When it follows at least one valid
entry the behaviour of `infp_check_permissions` is undefined whenever
`permissions` holds a word other than `NULL`, for the valid entry hands the
word to `talloc_realloc`; only when the word is `NULL` is the reply that
error. -/
theorem infp_check_permissions_invalid_token (ctx : CallerCtx)
    (username domain object inst : String) (pre : List (String × String))
    (token : String) (fields post : List DBusArg) (w word : Nat)
    (hcaller : get_caller_username ctx = Except.ok username)
    (hwf : well_formed object pre) :
    (pre ≠ [] →
        infp_check_permissions ctx (w + 1)
            [DBusArg.string domain, DBusArg.string object, DBusArg.string inst,
              DBusArg.array (encode_actions pre ++
                DBusArg.struct (DBusArg.string token :: fields) :: post)] = none) ∧
      (pre = [] ∨ word = 0 → get_action_type token = ActionType.INVALID →
        infp_check_permissions ctx word
            [DBusArg.string domain, DBusArg.string object, DBusArg.string inst,
              DBusArg.array (encode_actions pre ++
                DBusArg.struct (DBusArg.string token :: fields) :: post)] =
          some { ret := EOK,
                 reply_message := some (ReplyMessage.error DBUS_ERROR_INVALID_ARGS
                   ("Action type [" ++ token ++ "] is not valid")) }) ∧
      ∀ action : String, pre = [] ∨ word = 0 →
        get_action_type action ≠ ActionType.INVALID →
        get_attribute_type token = AttributeType.INVALID →
          infp_check_permissions ctx word
              [DBusArg.string domain, DBusArg.string object, DBusArg.string inst,
                DBusArg.array (encode_actions pre ++
                  DBusArg.struct (DBusArg.string action :: DBusArg.string token :: fields)
                    :: post)] =
            some { ret := EOK,
                   reply_message := some (ReplyMessage.error DBUS_ERROR_INVALID_ARGS
                     ("Attribute [" ++ token ++ "] is not valid")) } := by
  have hl := infp_check_permissions_list_invalid_token ctx username domain object inst pre
    token fields post hcaller hwf
  refine ⟨?_, ?_, ?_⟩
  · intro hne
    exact infp_check_permissions_evaluated_undefined ctx username domain object inst pre _ []
      w hcaller hwf hne
  · intro hfirst htoken
    rcases hfirst with hpre | hnull
    · subst hpre
      apply infp_check_permissions_early ctx username word _ _ hcaller
      simp only [encode_actions, List.map_nil, List.nil_append]
      rw [early_checks_first_entry domain object inst _ _ [] hwf.1]
      simp [entry_checks, field_checks, first_failure_cons, is_struct, is_string, string_at,
        fields_of, htoken]
    · subst hnull
      rw [infp_check_permissions_null, hl.1 htoken]
  · intro action hfirst haction htoken
    rcases hfirst with hpre | hnull
    · subst hpre
      apply infp_check_permissions_early ctx username word _ _ hcaller
      simp only [encode_actions, List.map_nil, List.nil_append]
      rw [early_checks_first_entry domain object inst _ _ [] hwf.1]
      simp [entry_checks, field_checks, first_failure_cons, is_struct, is_string, string_at,
        fields_of, haction, htoken]
    · subst hnull
      rw [infp_check_permissions_null, hl.2 action haction htoken]

/-- Witness for C12: "Erase" after a valid entry while `permissions` holds the
word 3735928559 and while it holds `NULL`, and "Erase" in the first entry
while it holds that word. -/
theorem infp_check_permissions_invalid_token_witness :
    get_caller_username (resolved_caller "root") = Except.ok "root" ∧
      well_formed "user" [("create", "gecos")] ∧
      [("create", "gecos")] ≠ ([] : List (String × String)) ∧
      infp_check_permissions (resolved_caller "root") (3735928558 + 1)
          [DBusArg.string "LOCAL", DBusArg.string "user", DBusArg.string "",
            DBusArg.array (encode_actions [("create", "gecos")] ++
              DBusArg.struct (DBusArg.string "Erase" :: [DBusArg.string "shell"]) :: [])] =
        none ∧
      get_action_type "Erase" = ActionType.INVALID ∧
      infp_check_permissions (resolved_caller "root") 0
          [DBusArg.string "LOCAL", DBusArg.string "user", DBusArg.string "",
            DBusArg.array (encode_actions [("create", "gecos")] ++
              DBusArg.struct (DBusArg.string "Erase" :: [DBusArg.string "shell"]) :: [])] =
        some { ret := EOK,
               reply_message := some (ReplyMessage.error DBUS_ERROR_INVALID_ARGS
                 ("Action type [" ++ "Erase" ++ "] is not valid")) } ∧
      well_formed "user" [] ∧
      infp_check_permissions (resolved_caller "root") 3735928559
          [DBusArg.string "LOCAL", DBusArg.string "user", DBusArg.string "",
            DBusArg.array (encode_actions [] ++
              DBusArg.struct (DBusArg.string "Erase" :: [DBusArg.string "shell"]) :: [])] =
        some { ret := EOK,
               reply_message := some (ReplyMessage.error DBUS_ERROR_INVALID_ARGS
                 ("Action type [" ++ "Erase" ++ "] is not valid")) } :=
  ⟨rfl, by unfold well_formed; decide, by decide,
    (infp_check_permissions_invalid_token (resolved_caller "root") "root" "LOCAL" "user" ""
      [("create", "gecos")] "Erase" [DBusArg.string "shell"] [] 3735928558 0 rfl
      (by unfold well_formed; decide)).1 (by decide),
    by decide,
    (infp_check_permissions_invalid_token (resolved_caller "root") "root" "LOCAL" "user" ""
      [("create", "gecos")] "Erase" [DBusArg.string "shell"] [] 3735928558 0 rfl
      (by unfold well_formed; decide)).2.1 (Or.inr rfl) (by decide),
    by unfold well_formed; decide,
    (infp_check_permissions_invalid_token (resolved_caller "root") "root" "LOCAL" "user" ""
      [] "Erase" [DBusArg.string "shell"] [] 0 3735928559 rfl
      (by unfold well_formed; decide)).2.1 (Or.inl rfl) (by decide)⟩
/-! ## The order of the checks -/

/-- C2, as the specification lists the checks: for an array of actions whose
entry is a string, `infp_check_permissions` reports "Action array entry was not
a struct" whatever the never-initialised `permissions` holds, while the
earliest failing check of the listed order is the one for field 0, "Missing
action_type", and no check of the listed order carries the reported text. -/
theorem listed_checks_counterexample :
    reported (infp_check_permissions (resolved_caller "alice") 0
        [DBusArg.string "LOCAL", DBusArg.string "user", DBusArg.string "",
          DBusArg.array [DBusArg.string "create"]]) =
        some "Action array entry was not a struct" ∧
      reported (infp_check_permissions (resolved_caller "alice") 3735928559
        [DBusArg.string "LOCAL", DBusArg.string "user", DBusArg.string "",
          DBusArg.array [DBusArg.string "create"]]) =
        some "Action array entry was not a struct" ∧
      first_failure (listed_checks
        [DBusArg.string "LOCAL", DBusArg.string "user", DBusArg.string "",
          DBusArg.array [DBusArg.string "create"]]) =
        some "Missing action_type" ∧
      reported (infp_check_permissions (resolved_caller "alice") 0
        [DBusArg.string "LOCAL", DBusArg.string "user", DBusArg.string "",
          DBusArg.array [DBusArg.string "create"]]) ≠
        first_failure (listed_checks
          [DBusArg.string "LOCAL", DBusArg.string "user", DBusArg.string "",
          DBusArg.array [DBusArg.string "create"]]) ∧
      ∀ c ∈ listed_checks
          [DBusArg.string "LOCAL", DBusArg.string "user", DBusArg.string "",
          DBusArg.array [DBusArg.string "create"]],
        c.2 ≠ "Action array entry was not a struct" := by
  refine ⟨by decide, by decide, by decide, by decide, by decide⟩

/-- C2, amended: for a caller whose username resolves, the checks stand in
the fixed order: stream empty, position 0 not a string, position 1 not a
string, object token invalid, position 2 not a string, position 3 not an
array, then for each array entry in order: entry not a struct, field 0 not a
string, action token invalid, field 1 not a string, attribute token invalid, a
further field present.  When the earliest failing check is one on the
positions or on the first entry of the array, `infp_check_permissions` replies
with its text whatever the never-initialised `permissions` holds; when
`permissions` holds `NULL` it reports the text of the earliest failing check
of the whole order, nothing when no check fails, and a check that fails after
checks that all pass fixes the text, whatever the later checks say. -/
theorem infp_check_permissions_first_failure (ctx : CallerCtx) (username : String)
    (message : List DBusArg) (word : Nat)
    (hcaller : get_caller_username ctx = Except.ok username) :
    (∀ m, first_failure (early_checks message) = some m →
        first_failure (decode_checks message) = some m ∧
          infp_check_permissions ctx word message =
            some { ret := EOK,
                   reply_message := some (ReplyMessage.error DBUS_ERROR_INVALID_ARGS m) }) ∧
      reported (infp_check_permissions ctx 0 message) =
        first_failure (decode_checks message) ∧
      ∀ (pre post : List (Bool × String)) (m : String),
        decode_checks message = pre ++ (true, m) :: post → (∀ c ∈ pre, c.1 = false) →
          reported (infp_check_permissions ctx 0 message) = some m := by
  have hl := infp_check_permissions_list_first_failure ctx username message hcaller
  refine ⟨?_, ?_, ?_⟩
  · intro m hm
    exact ⟨first_failure_early_decode message m hm,
      infp_check_permissions_early ctx username word message m hcaller hm⟩
  · rw [infp_check_permissions_null]
    exact hl.1
  · intro pre post m hsplit hpre
    rw [infp_check_permissions_null]
    exact hl.2 pre post m hsplit hpre

/-- Witness for C2, amended: the string entry of the array is reported as not
a struct while `permissions` holds the word 3735928559. -/
theorem infp_check_permissions_first_failure_witness :
    get_caller_username (resolved_caller "alice") = Except.ok "alice" ∧
      first_failure (early_checks
        [DBusArg.string "LOCAL", DBusArg.string "user", DBusArg.string "",
          DBusArg.array [DBusArg.string "create"]]) =
        some "Action array entry was not a struct" ∧
      first_failure (decode_checks
        [DBusArg.string "LOCAL", DBusArg.string "user", DBusArg.string "",
          DBusArg.array [DBusArg.string "create"]]) =
        some "Action array entry was not a struct" ∧
      infp_check_permissions (resolved_caller "alice") 3735928559
        [DBusArg.string "LOCAL", DBusArg.string "user", DBusArg.string "",
          DBusArg.array [DBusArg.string "create"]] =
        some { ret := EOK,
               reply_message := some (ReplyMessage.error DBUS_ERROR_INVALID_ARGS
                 "Action array entry was not a struct") } :=
  ⟨rfl, by decide,
    ((infp_check_permissions_first_failure (resolved_caller "alice") "alice"
      [DBusArg.string "LOCAL", DBusArg.string "user", DBusArg.string "",
        DBusArg.array [DBusArg.string "create"]] 3735928559 rfl).1 _ (by decide)).1,
    ((infp_check_permissions_first_failure (resolved_caller "alice") "alice"
      [DBusArg.string "LOCAL", DBusArg.string "user", DBusArg.string "",
        DBusArg.array [DBusArg.string "create"]] 3735928559 rfl).1 _ (by decide)).2⟩

/-! ## Trailing arguments -/

end InfoPipe
